import Mathlib

/-!
# Notion MCP server: request dispatch and argument translation

A shallow embedding of `mcp/server.go`, `mcp/types.go`, `mcp/tools.go`,
`mcp/markdown.go` and, of `mcp/sdk.go`, the constructors, the search and
workspace calls and the config methods.

* Go values of type `any` are the trees of `GoVal`; maps are association lists
  read with `lookup` (first entry wins), listed in the key order in which
  `json.Marshal` emits them.
* A run-time panic (failed single-value type assertion, nil dereference) is an
  explicit outcome, `Outcome.panicked`.
* The Notion client is a parameter: four operations, each answering from the
  list of calls already made while serving the request, so that every provider
  behaviour is an instance.  Every call made is recorded in the outcome.
-/

namespace NotionMCP

/-! ## JSON documents and dynamic Go values -/

/-- The document `json.Marshal` writes, as a tree. -/
inductive Json where
  | null
  | bool (b : Bool)
  | num (x : Rat)
  | str (s : String)
  | arr (xs : List Json)
  | obj (kvs : List (String × Json))

/-- A Go value of static type `any`.  `other` stands for a value of any dynamic
type that the server never asserts on (an `int`, a struct pointer, a channel),
carrying what `json.Marshal` makes of it (`none` when marshalling fails).
Floats are the finite ones. -/
inductive GoVal where
  | nil
  | bool (b : Bool)
  | float64 (x : Rat)
  | str (s : String)
  | slice (xs : List GoVal)
  | map (kvs : List (String × GoVal))
  | toolCall (name : String) (arguments : List (String × GoVal))
  | other (json : Option Json)

/-- Go map type `map[string]interface{}`. -/
abbrev GoMap := List (String × GoVal)

/-- Map read `m[key]`; a missing key reads as the nil interface. -/
def lookup (m : GoMap) (key : String) : GoVal :=
  match m.find? (fun kv => kv.1 == key) with
  | some kv => kv.2
  | none => GoVal.nil

/-- Type assertion `v.(string)` in its comma-ok form. -/
def GoVal.asString : GoVal → Option String
  | .str s => some s
  | _ => none

/-- Type assertion `v.(bool)` in its comma-ok form. -/
def GoVal.asBool : GoVal → Option Bool
  | .bool b => some b
  | _ => none

/-- Type assertion `v.(float64)` in its comma-ok form. -/
def GoVal.asFloat64 : GoVal → Option Rat
  | .float64 x => some x
  | _ => none

/-- Type assertion `v.(map[string]interface{})` in its comma-ok form. -/
def GoVal.asMap : GoVal → Option GoMap
  | .map kvs => some kvs
  | _ => none

mutual
/-- What `json.Unmarshal` stores into a target of type `any`. -/
def ofJson : Json → GoVal
  | .null => GoVal.nil
  | .bool b => GoVal.bool b
  | .num x => GoVal.float64 x
  | .str s => GoVal.str s
  | .arr xs => GoVal.slice (ofJsonList xs)
  | .obj kvs => GoVal.map (ofJsonFields kvs)
/-- Elementwise `ofJson` on an array. -/
def ofJsonList : List Json → List GoVal
  | [] => []
  | x :: xs => ofJson x :: ofJsonList xs
/-- Memberwise `ofJson` on an object. -/
def ofJsonFields : List (String × Json) → GoMap
  | [] => []
  | (k, v) :: kvs => (k, ofJson v) :: ofJsonFields kvs
end

mutual
/-- Value-level `json.Marshal`: `none` when the encoder reports an error. -/
def marshal : GoVal → Option Json
  | .nil => some Json.null
  | .bool b => some (Json.bool b)
  | .float64 x => some (Json.num x)
  | .str s => some (Json.str s)
  | .slice xs => (marshalList xs).map Json.arr
  | .map kvs => (marshalFields kvs).map Json.obj
  | .toolCall name arguments =>
      (marshalFields arguments).map
        (fun a => Json.obj [("name", Json.str name), ("arguments", Json.obj a)])
  | .other json => json
/-- Elementwise `marshal`; fails when an element fails. -/
def marshalList : List GoVal → Option (List Json)
  | [] => some []
  | x :: xs =>
      match marshal x, marshalList xs with
      | some j, some js => some (j :: js)
      | _, _ => none
/-- Memberwise `marshal`; fails when a member fails. -/
def marshalFields : List (String × GoVal) → Option (List (String × Json))
  | [] => some []
  | (k, v) :: kvs =>
      match marshal v, marshalFields kvs with
      | some j, some js => some ((k, j) :: js)
      | _, _ => none
end

/-! ## Protocol types (`types.go`) -/

/-- Request envelope; absent `Params` is the nil interface. -/
structure Request where
  JSONRPC : String
  ID : GoVal
  Method : String
  Params : GoVal

/-- Protocol error object; `Data` is never set by the server. -/
structure Error where
  Code : Int
  Message : String
  Data : GoVal := GoVal.nil

/-- Tool catalog entry. -/
structure Tool where
  Name : String
  Description : String
  InputSchema : GoMap

/-- Resource catalog entry. -/
structure Resource where
  URI : String
  Name : String
  Description : String := ""
  MimeType : String := ""
  Metadata : GoMap := []

/-- Runtime tool invocation payload. -/
structure ToolCall where
  Name : String
  Arguments : GoMap

/-- Content item of a tool or resource output. -/
structure Content where
  Type_ : String
  Text : String := ""
  Data : GoVal := GoVal.nil

/-- Output of a tool. -/
structure ToolResult where
  Content : List Content
  IsError : Bool := false

/-- Typed search parameters. -/
structure NotionSearchParams where
  Query : String := ""
  Filter : String := ""
  SortBy : String := ""
  SortOrder : String := ""
  StartCursor : String := ""
  PageSize : Int := 0

/-- Page icon as the protocol shows it. -/
structure Icon where
  Type_ : String
  Emoji : String := ""
  URL : String := ""

/-- Page cover as the protocol shows it. -/
structure Cover where
  Type_ : String
  URL : String

/-- Typed create-page parameters, with the `Icon` and `Cover` the handler
stores next to them. -/
structure NotionCreatePageParams where
  ParentID : String := ""
  Title : String := ""
  Content : String := ""
  Properties : GoMap := []
  Icon : Option Icon := none
  Cover : Option Cover := none

/-- Typed update-page parameters. -/
structure NotionUpdatePageParams where
  PageID : String := ""
  Title : String := ""
  Content : String := ""
  Properties : GoMap := []
  Archived : Option Bool := none

/-- Typed append-block parameters. -/
structure NotionAppendBlockParams where
  PageID : String := ""
  Content : String := ""
  BlockType : String := ""

/-- A point in time (`time.Time`). -/
structure Time where
  unixNano : Int

/-- User as the protocol shows it. -/
structure User where
  Object : String
  ID : String
  Name : String
  AvatarURL : String
  Type_ : String

/-- Parent reference as the protocol shows it. -/
structure Parent where
  Type_ : String
  PageID : String
  DatabaseID : String
  BlockID : String
  Workspace : Bool

/-- Flattened property entry: the `type` and `id` of one property. -/
structure PropertyInfo where
  type : String
  id : String

/-- Page or database as the protocol shows it in search results. -/
structure NotionItem where
  Object : String
  ID : String
  CreatedTime : Time := ⟨0⟩
  LastEditedTime : Time := ⟨0⟩
  CreatedBy : Option User := none
  LastEditedBy : Option User := none
  Archived : Bool
  Properties : Option (List (String × PropertyInfo)) := none
  Parent : Option Parent := none
  URL : String
  PublicURL : String
  Icon : Option Icon := none
  Cover : Option Cover := none
  Title : String := ""

/-- Result of a search. -/
structure NotionSearchResult where
  Object : String
  Results : List NotionItem
  HasMore : Bool
  NextCursor : String

/-- Result of a page operation. -/
structure NotionPageResult where
  Object : String
  ID : String
  CreatedTime : Time
  LastEditedTime : Time
  CreatedBy : Option User
  LastEditedBy : Option User
  Archived : Bool
  Properties : List (String × PropertyInfo)
  Parent : Option Parent
  URL : String
  PublicURL : String
  Icon : Option Icon
  Cover : Option Cover

/-- Block as the protocol shows it; `Content` is the map with the one key
`text`. -/
structure BlockItem where
  Object : String
  ID : String
  Type_ : String
  CreatedTime : Time
  LastEditedTime : Time
  CreatedBy : Option User
  LastEditedBy : Option User
  HasChildren : Bool
  Archived : Bool
  Parent : Option Parent
  Content : GoMap

/-- Result of a block operation. -/
structure NotionBlockResult where
  Object : String
  Results : List BlockItem

/-- Server configuration. -/
structure MCPConfig where
  NotionToken : String := ""
  ServerName : String := ""
  ServerVersion : String := ""
  DefaultPageSize : Int := 0
  MaxRetries : Int := 0
  Timeout : Int := 0

def ErrCodeParseError : Int := -32700
def ErrCodeInvalidRequest : Int := -32600
def ErrCodeMethodNotFound : Int := -32601
def ErrCodeInvalidParams : Int := -32602
def ErrCodeInternalError : Int := -32603
def ErrCodeNotionAPIError : Int := -32000
def ErrCodeAuthError : Int := -32001
def ErrCodeRateLimitError : Int := -32002

def ErrMsgParseError : String := "Parse error"
def ErrMsgInvalidRequest : String := "Invalid Request"
def ErrMsgMethodNotFound : String := "Method not found"
def ErrMsgInvalidParams : String := "Invalid params"
def ErrMsgInternalError : String := "Internal error"

/-- The value a response carries in `Result`: one constructor per place where
the server fills it. -/
inductive ResultVal where
  | dyn (m : GoMap)
  | tools (tools : List Tool)
  | resources (resources : List Resource)
  | toolResult (result : ToolResult)
  | contents (contents : List Content)

/-- Response envelope; `none` is the nil `Result` or `Error`. -/
structure Response where
  JSONRPC : String
  ID : GoVal
  Result : Option ResultVal := none
  Error : Option Error := none

/-! ## The provider (`notionapi`)

The package `notionapi` is consumed, not defined, by the server: its types are
rendered by the fields and getters the server reads or fills. -/

/-- Provider user object. -/
structure NUser where
  Object : String := ""
  ID : String := ""
  Name : String := ""
  AvatarURL : String := ""
  Type_ : String := ""

/-- Provider parent object. -/
structure NParent where
  Type_ : String := ""
  PageID : String := ""
  DatabaseID : String := ""
  BlockID : String := ""
  Workspace : Bool := false

/-- Provider file object. -/
structure FileObject where
  URL : String

/-- Provider icon: `Emoji` and `External` are pointers. -/
structure NIcon where
  Type_ : String
  Emoji : Option String := none
  External : Option FileObject := none

/-- Provider image: its `Type`, its `External` pointer, and what its getter
`GetURL` answers. -/
structure NImage where
  Type_ : String
  External : Option FileObject := none
  GetURL : String := ""

/-- Provider rich-text run; `Text` is a pointer to a struct with `Content`. -/
structure RichText where
  Type_ : String := ""
  Text : Option String := none
  PlainText : String := ""

/-- Provider property value behind the `Property` interface: its getters, its
runs in `Title` when its dynamic type is `TitleProperty`, and its runs in
`PointerTitle` when its dynamic type is `*TitleProperty` (the methods have
value receivers, so the pointer type is a `Property` too). -/
structure Property where
  GetType : String
  GetID : String
  Title : Option (List RichText) := none
  PointerTitle : Option (List RichText) := none

/-- Provider property config behind the `PropertyConfig` interface. -/
structure PropertyConfig where
  GetType : String
  GetID : String

/-- Provider page. -/
structure Page where
  Object : String := ""
  ID : String := ""
  CreatedTime : Time := ⟨0⟩
  LastEditedTime : Time := ⟨0⟩
  CreatedBy : NUser := {}
  LastEditedBy : NUser := {}
  Archived : Bool := false
  Properties : List (String × Property) := []
  Parent : NParent := {}
  URL : String := ""
  PublicURL : String := ""
  Icon : Option NIcon := none
  Cover : Option NImage := none

/-- Provider database. -/
structure Database where
  Object : String := ""
  ID : String := ""
  CreatedTime : Time := ⟨0⟩
  LastEditedTime : Time := ⟨0⟩
  CreatedBy : NUser := {}
  LastEditedBy : NUser := {}
  Archived : Bool := false
  Properties : List (String × PropertyConfig) := []
  Parent : NParent := {}
  Icon : Option NIcon := none
  Cover : Option NImage := none

/-- Search hit behind the `Object` interface: a page pointer, a database
pointer, or a value of another dynamic type answering `GetObject`. -/
inductive NObject where
  | page (p : Page)
  | database (d : Database)
  | other (getObject : String)

/-- Getter `GetObject` of a search hit. -/
def NObject.GetObject : NObject → String
  | .page p => p.Object
  | .database d => d.Object
  | .other o => o

/-- Block the provider returns, behind the `Block` interface, by what its
getters answer; the pointer-valued getters may answer nil. -/
structure ReturnedBlock where
  GetObject : String := ""
  GetID : String := ""
  GetType : String := ""
  GetCreatedTime : Option Time := none
  GetLastEditedTime : Option Time := none
  GetCreatedBy : Option NUser := none
  GetLastEditedBy : Option NUser := none
  GetHasChildren : Bool := false
  GetArchived : Bool := false
  GetParent : Option NParent := none
  GetRichTextString : String := ""

/-- Block the server builds to send: one constructor per block struct it
fills, with the rich text and the extra fields it sets; `object` is the
`Object` of its `BasicBlock`, which only the markdown converter sets. -/
inductive Block where
  | paragraph (richText : List RichText) (object : String := "")
  | heading1 (richText : List RichText) (object : String := "")
  | heading2 (richText : List RichText) (object : String := "")
  | heading3 (richText : List RichText) (object : String := "")
  | bulletedListItem (richText : List RichText) (object : String := "")
  | numberedListItem (richText : List RichText) (object : String := "")
  | toDo (richText : List RichText) (checked : Bool) (object : String := "")
  | code (richText : List RichText) (language : String) (object : String := "")
  | quote (richText : List RichText) (object : String := "")
  | callout (richText : List RichText) (icon : NIcon) (object : String := "")
  | divider (object : String := "")

/-- Sort object of a search request. -/
structure SortObject where
  Direction : String
  Timestamp : String

/-- Filter object of a search request. -/
structure SearchFilter where
  Value : String := ""
  Property : String := ""

/-- Provider search request; `Filter` is a struct, not a pointer. -/
structure SearchRequest where
  Query : String := ""
  Sort_ : Option SortObject := none
  Filter : SearchFilter := {}
  StartCursor : String := ""
  PageSize : Int := 0

/-- Provider search response. -/
structure SearchResponse where
  Object : String := ""
  Results : List NObject := []
  HasMore : Bool := false
  NextCursor : String := ""

/-- Property value the server sends: a title or a rich-text property, each
with its runs. -/
inductive PropertyValue where
  | title (runs : List RichText)
  | richText (runs : List RichText)

/-- Request map `notionapi.Properties`. -/
abbrev Properties := List (String × PropertyValue)

/-- Map write `m[key] = value`. -/
def setProperty (m : Properties) (key : String) (value : PropertyValue) : Properties :=
  if m.any (fun kv => kv.1 == key) then
    m.map (fun kv => if kv.1 == key then (key, value) else kv)
  else m ++ [(key, value)]

/-- Provider create-page request. -/
structure PageCreateRequest where
  Parent : NParent
  Properties : Properties
  Icon : Option NIcon := none
  Cover : Option NImage := none

/-- Provider update-page request; `Properties` is nil until first written. -/
structure PageUpdateRequest where
  Properties : Option Properties := none
  Archived : Bool := false

/-- Provider append-children request. -/
structure AppendBlockChildrenRequest where
  Children : List Block

/-- Provider append-children response. -/
structure AppendBlockResponse where
  Object : String := ""
  Results : List ReturnedBlock := []

/-- One operation invoked on the provider, with its arguments. -/
inductive ProviderCall where
  | searchDo (req : SearchRequest)
  | pageCreate (req : PageCreateRequest)
  | pageUpdate (pageID : String) (req : PageUpdateRequest)
  | blockAppendChildren (blockID : String) (req : AppendBlockChildrenRequest)

/-- The Notion client.  Each operation answers from the calls made before it
while serving the request, with a result or the text of an error. -/
structure NotionClient where
  searchDo : List ProviderCall → SearchRequest → Except String SearchResponse
  pageCreate : List ProviderCall → PageCreateRequest → Except String Page
  pageUpdate : List ProviderCall → String → PageUpdateRequest → Except String Page
  blockAppendChildren :
    List ProviderCall → String → AppendBlockChildrenRequest → Except String AppendBlockResponse

/-- The workspace summary the resource handler fills. -/
structure WorkspaceInfo where
  totalPages : Int
  totalDatabases : Int
  recentItems : List NotionItem

/-- Calls of `json.Marshal` on result values: the text, or the text of the
encoder error (a `time.Time` outside the years 0 to 9999 is one). -/
structure Encoder where
  searchResult : NotionSearchResult → Except String String
  pageResult : NotionPageResult → Except String String
  blockResult : NotionBlockResult → Except String String
  workspaceInfo : WorkspaceInfo → Except String String

/-- How a call ends: it returns a value, or it panics; either way with the
provider calls made so far, oldest first. -/
inductive Outcome (α : Type) where
  | returned (value : α) (calls : List ProviderCall)
  | panicked (calls : List ProviderCall)

/-- The server: configuration and the two catalogs. -/
structure MCPServer where
  config : MCPConfig
  tools : List Tool
  resources : List Resource

/-! ## Content converter (`server.go`, helper methods) -/

/-- Embeds `convertToUser`: nil for a nil pointer or an empty ID. -/
def convertToUser (user : Option NUser) : Option User :=
  match user with
  | none => none
  | some u =>
    if u.ID == "" then none
    else some
      { Object := u.Object, ID := u.ID, Name := u.Name, AvatarURL := u.AvatarURL,
        Type_ := u.Type_ }

/-- Embeds `convertParent`. -/
def convertParent (parent : Option NParent) : Option Parent :=
  match parent with
  | none => none
  | some p => some
      { Type_ := p.Type_, PageID := p.PageID, DatabaseID := p.DatabaseID,
        BlockID := p.BlockID, Workspace := p.Workspace }

/-- Embeds `convertIcon`. -/
def convertIcon (icon : Option NIcon) : Option Icon :=
  match icon with
  | none => none
  | some i =>
    let result : Icon := { Type_ := i.Type_ }
    let result : Icon :=
      match i.Emoji with
      | some e => { result with Emoji := e }
      | none => result
    let result : Icon :=
      match i.External with
      | some f => { result with URL := f.URL }
      | none => result
    some result

/-- Embeds `convertCover`. -/
def convertCover (cover : Option NImage) : Option Cover :=
  match cover with
  | none => none
  | some c => some { Type_ := c.Type_, URL := c.GetURL }

/-- Embeds `convertProperties`. -/
def convertProperties (properties : List (String × Property)) :
    List (String × PropertyInfo) :=
  properties.map (fun kv => (kv.1, { type := kv.2.GetType, id := kv.2.GetID }))

/-- Embeds `convertPropertyConfigs`. -/
def convertPropertyConfigs (configs : List (String × PropertyConfig)) :
    List (String × PropertyInfo) :=
  configs.map (fun kv => (kv.1, { type := kv.2.GetType, id := kv.2.GetID }))

/-- Embeds `extractTitle`; the map is ranged over in listing order. -/
def extractTitle : List (String × Property) → String
  | [] => ""
  | (_, prop) :: rest =>
    if prop.GetType == "title" then
      match prop.Title with
      | some (run :: _) => run.PlainText
      | _ => extractTitle rest
    else extractTitle rest

/-- Embeds `extractTitleFromConfigs`. -/
def extractTitleFromConfigs : List (String × PropertyConfig) → String
  | [] => ""
  | (_, config) :: rest =>
    if config.GetType == "title" then "" else extractTitleFromConfigs rest

/-- Embeds `convertToNotionItem`. -/
def convertToNotionItem (item : NObject) : NotionItem :=
  let notionItem : NotionItem :=
    { Object := item.GetObject, ID := "", Archived := false, URL := "", PublicURL := "" }
  match item with
  | .page obj =>
    { notionItem with
      ID := obj.ID
      Archived := obj.Archived
      CreatedTime := obj.CreatedTime
      LastEditedTime := obj.LastEditedTime
      CreatedBy := convertToUser (some obj.CreatedBy)
      LastEditedBy := convertToUser (some obj.LastEditedBy)
      Properties := some (convertProperties obj.Properties)
      Parent := convertParent (some obj.Parent)
      URL := obj.URL
      PublicURL := obj.PublicURL
      Icon := convertIcon obj.Icon
      Cover := convertCover obj.Cover
      Title := extractTitle obj.Properties }
  | .database obj =>
    { notionItem with
      ID := obj.ID
      Archived := obj.Archived
      CreatedTime := obj.CreatedTime
      LastEditedTime := obj.LastEditedTime
      CreatedBy := convertToUser (some obj.CreatedBy)
      LastEditedBy := convertToUser (some obj.LastEditedBy)
      Properties := some (convertPropertyConfigs obj.Properties)
      Parent := convertParent (some obj.Parent)
      Icon := convertIcon obj.Icon
      Cover := convertCover obj.Cover
      Title := extractTitleFromConfigs obj.Properties }
  | .other _ => notionItem

/-- Embeds `convertToNotionPageResult`. -/
def convertToNotionPageResult (page : Page) : NotionPageResult :=
  { Object := page.Object
    ID := page.ID
    CreatedTime := page.CreatedTime
    LastEditedTime := page.LastEditedTime
    CreatedBy := convertToUser (some page.CreatedBy)
    LastEditedBy := convertToUser (some page.LastEditedBy)
    Archived := page.Archived
    Properties := convertProperties page.Properties
    Parent := convertParent (some page.Parent)
    URL := page.URL
    PublicURL := page.PublicURL
    Icon := convertIcon page.Icon
    Cover := convertCover page.Cover }

/-- Embeds `convertToBlockItem`; `none` is the panic of dereferencing a nil
`GetCreatedTime()` or `GetLastEditedTime()`. -/
def convertToBlockItem (block : ReturnedBlock) : Option BlockItem :=
  match block.GetCreatedTime, block.GetLastEditedTime with
  | some created, some edited => some
      { Object := block.GetObject
        ID := block.GetID
        Type_ := block.GetType
        CreatedTime := created
        LastEditedTime := edited
        CreatedBy := convertToUser block.GetCreatedBy
        LastEditedBy := convertToUser block.GetLastEditedBy
        HasChildren := block.GetHasChildren
        Archived := block.GetArchived
        Parent := convertParent block.GetParent
        Content := [("text", GoVal.str block.GetRichTextString)] }
  | _, _ => none

/-- The loop `for i, block := range result.Results` of the append handler:
`none` as soon as one conversion panics. -/
def convertBlockItems : List ReturnedBlock → Option (List BlockItem)
  | [] => some []
  | block :: rest =>
    match convertToBlockItem block with
    | none => none
    | some item =>
      match convertBlockItems rest with
      | none => none
      | some items => some (item :: items)

/-! ## Block builder (`server.go`) -/

/-- The one rich-text run the block builders make of a text. -/
def richTextOf (content : String) : RichText :=
  { Type_ := "text", Text := some content, PlainText := content }

/-- Embeds `parseContentToBlocks`: the whole content as one paragraph. -/
def parseContentToBlocks (content : String) : List Block :=
  [content].map (fun line => Block.paragraph [richTextOf line])

/-- Embeds `parseContentToBlocksWithType`. -/
def parseContentToBlocksWithType (content : String) (blockType : String) : List Block :=
  if blockType == "heading_1" then [Block.heading1 [richTextOf content]]
  else if blockType == "heading_2" then [Block.heading2 [richTextOf content]]
  else if blockType == "heading_3" then [Block.heading3 [richTextOf content]]
  else if blockType == "bulleted_list_item" then [Block.bulletedListItem [richTextOf content]]
  else if blockType == "numbered_list_item" then [Block.numberedListItem [richTextOf content]]
  else if blockType == "to_do" then [Block.toDo [richTextOf content] false]
  else if blockType == "code" then [Block.code [richTextOf content] "plain text"]
  else if blockType == "quote" then [Block.quote [richTextOf content]]
  else if blockType == "callout" then
    [Block.callout [richTextOf content] { Type_ := "emoji", Emoji := some "💡" }]
  else [Block.paragraph [richTextOf content]]

/-! ## Tool handlers (`server.go`) -/

/-- How the narrowing of an arguments map ends: typed parameters, the error
the handler returns, or a panic. -/
inductive Narrowed (α : Type) where
  | ok (params : α)
  | error (msg : String)
  | panic

/-- Conversion `int(x)` of a float: truncation toward zero. -/
def floatToInt (x : Rat) : Int := Int.tdiv x.num x.den

/-- The result a handler returns on success: one text item. -/
def textResult (text : String) : ToolResult :=
  { Content := [{ Type_ := "text", Text := text }] }

/-- Argument narrowing of `handleNotionSearch`. -/
def narrowSearchParams (config : MCPConfig) (args : GoMap) : NotionSearchParams :=
  let params : NotionSearchParams := { PageSize := config.DefaultPageSize }
  let params := match (lookup args "query").asString with
    | some query => { params with Query := query }
    | none => params
  let params := match (lookup args "filter").asString with
    | some filter => { params with Filter := filter }
    | none => params
  let params := match (lookup args "sortBy").asString with
    | some sortBy => { params with SortBy := sortBy }
    | none => params
  let params := match (lookup args "sortOrder").asString with
    | some sortOrder => { params with SortOrder := sortOrder }
    | none => params
  let params := match (lookup args "startCursor").asString with
    | some startCursor => { params with StartCursor := startCursor }
    | none => params
  match (lookup args "pageSize").asFloat64 with
  | some pageSize => { params with PageSize := floatToInt pageSize }
  | none => params

/-- The local struct `CustomSearchRequest` of `handleNotionSearch`: the search
request with the filter behind a pointer. -/
structure CustomSearchRequest where
  Query : String := ""
  Sort_ : Option SortObject := none
  Filter : Option SearchFilter := none
  StartCursor : String := ""
  PageSize : Int := 0

/-- The custom request `handleNotionSearch` fills from the narrowed
parameters: filter, then sort. -/
def buildCustomSearchRequest (params : NotionSearchParams) : CustomSearchRequest :=
  let filter : Option SearchFilter :=
    if params.Filter == "page" then some { Property := "object", Value := "page" }
    else if params.Filter == "database" then some { Property := "object", Value := "database" }
    else none
  let sort : Option SortObject :=
    if params.SortBy != "" && params.SortOrder != "" then
      let sortOrder := if params.SortOrder == "descending" then "descending" else "ascending"
      some { Direction := sortOrder, Timestamp := "last_edited_time" }
    else none
  { Query := params.Query
    Sort_ := sort
    Filter := filter
    StartCursor := params.StartCursor
    PageSize := params.PageSize }

/-- The custom request re-read through JSON into the provider struct.  Its
fields are strings, an int and two pointers, so neither direction reports an
error; a nil filter is left out of the document and reads as the zero
struct. -/
def CustomSearchRequest.toSearchRequest (customReq : CustomSearchRequest) : SearchRequest :=
  { Query := customReq.Query
    Sort_ := customReq.Sort_
    Filter := customReq.Filter.getD {}
    StartCursor := customReq.StartCursor
    PageSize := customReq.PageSize }

/-- The search request `handleNotionSearch` hands to the provider. -/
def buildSearchRequest (params : NotionSearchParams) : SearchRequest :=
  (buildCustomSearchRequest params).toSearchRequest

/-- Embeds `handleNotionSearch`. -/
def handleNotionSearch (s : MCPServer) (client : NotionClient) (enc : Encoder)
    (args : GoMap) : Outcome (Except String ToolResult) :=
  let params := narrowSearchParams s.config args
  let searchReq := buildSearchRequest params
  let calls := [ProviderCall.searchDo searchReq]
  match client.searchDo [] searchReq with
  | .error err => .returned (.error ("failed to search Notion: " ++ err)) calls
  | .ok searchResp =>
    let result : NotionSearchResult :=
      { Object := searchResp.Object
        HasMore := searchResp.HasMore
        NextCursor := searchResp.NextCursor
        Results := searchResp.Results.map convertToNotionItem }
    match enc.searchResult result with
    | .error err => .returned (.error ("failed to marshal search result: " ++ err)) calls
    | .ok resultJSON => .returned (.ok (textResult resultJSON)) calls

/-- The icon narrowing of `handleNotionCreatePage`: the three entries are
asserted to be strings without a check, so the outer `none` is a panic. -/
def narrowIcon (args : GoMap) : Option (Option Icon) :=
  match (lookup args "icon").asMap with
  | none => some none
  | some icon =>
    match (lookup icon "type").asString, (lookup icon "emoji").asString,
        (lookup icon "url").asString with
    | some type, some emoji, some url => some (some { Type_ := type, Emoji := emoji, URL := url })
    | _, _, _ => none

/-- The cover narrowing of `handleNotionCreatePage`; the outer `none` is a
panic. -/
def narrowCover (args : GoMap) : Option (Option Cover) :=
  match (lookup args "cover").asMap with
  | none => some none
  | some cover =>
    match (lookup cover "type").asString, (lookup cover "url").asString with
    | some type, some url => some (some { Type_ := type, URL := url })
    | _, _ => none

/-- Argument narrowing of `handleNotionCreatePage`. -/
def narrowCreatePageParams (args : GoMap) : Narrowed NotionCreatePageParams :=
  match (lookup args "parentId").asString with
  | none => .error "parentId is required"
  | some parentID =>
    match (lookup args "title").asString with
    | none => .error "title is required"
    | some title =>
      let params : NotionCreatePageParams := { ParentID := parentID, Title := title }
      let params := match (lookup args "content").asString with
        | some content => { params with Content := content }
        | none => params
      let params := match (lookup args "properties").asMap with
        | some properties => { params with Properties := properties }
        | none => params
      match narrowIcon args with
      | none => .panic
      | some icon =>
        match narrowCover args with
        | none => .panic
        | some cover => .ok { params with Icon := icon, Cover := cover }

/-- The property loop of the page handlers: every string-valued entry is
written as a rich-text property, the others are skipped. -/
def addStringProperties (properties : GoMap) (init : Properties) : Properties :=
  properties.foldl
    (fun acc kv =>
      match kv.2.asString with
      | some strValue => setProperty acc kv.1 (PropertyValue.richText [{ Type_ := "text", Text := some strValue }])
      | none => acc)
    init

/-- The create request `handleNotionCreatePage` hands to the provider. -/
def buildCreateRequest (params : NotionCreatePageParams) : PageCreateRequest :=
  let title : Properties :=
    [("title", PropertyValue.title [{ Type_ := "text", Text := some params.Title }])]
  let icon : Option NIcon :=
    match params.Icon with
    | some i => if i.Type_ == "emoji" then some { Type_ := "emoji", Emoji := some i.Emoji } else none
    | none => none
  let cover : Option NImage :=
    match params.Cover with
    | some c => some { Type_ := "external", External := some { URL := c.URL } }
    | none => none
  { Parent := { Type_ := "page_id", PageID := params.ParentID }
    Properties := addStringProperties params.Properties title
    Icon := icon
    Cover := cover }

/-- The tail both page handlers share: append the content when there is some
(a failure of that call is logged and dropped), convert the page, encode. -/
def finishPage (client : NotionClient) (enc : Encoder) (content : String) (page : Page)
    (calls : List ProviderCall) : Outcome (Except String ToolResult) :=
  let calls :=
    if content != "" then
      let blocks := parseContentToBlocks content
      if blocks.length > 0 then
        let appendReq : AppendBlockChildrenRequest := { Children := blocks }
        match client.blockAppendChildren calls page.ID appendReq with
        | .error _ => calls ++ [ProviderCall.blockAppendChildren page.ID appendReq]
        | .ok _ => calls ++ [ProviderCall.blockAppendChildren page.ID appendReq]
      else calls
    else calls
  let result := convertToNotionPageResult page
  match enc.pageResult result with
  | .error err => .returned (.error ("failed to marshal page result: " ++ err)) calls
  | .ok resultJSON => .returned (.ok (textResult resultJSON)) calls

/-- Embeds `handleNotionCreatePage`. -/
def handleNotionCreatePage (client : NotionClient) (enc : Encoder) (args : GoMap) :
    Outcome (Except String ToolResult) :=
  match narrowCreatePageParams args with
  | .error msg => .returned (.error msg) []
  | .panic => .panicked []
  | .ok params =>
    let createReq := buildCreateRequest params
    let calls := [ProviderCall.pageCreate createReq]
    match client.pageCreate [] createReq with
    | .error err => .returned (.error ("failed to create Notion page: " ++ err)) calls
    | .ok page => finishPage client enc params.Content page calls

/-- Argument narrowing of `handleNotionUpdatePage`. -/
def narrowUpdatePageParams (args : GoMap) : Narrowed NotionUpdatePageParams :=
  match (lookup args "pageId").asString with
  | none => .error "pageId is required"
  | some pageID =>
    let params : NotionUpdatePageParams := { PageID := pageID }
    let params := match (lookup args "title").asString with
      | some title => { params with Title := title }
      | none => params
    let params := match (lookup args "content").asString with
      | some content => { params with Content := content }
      | none => params
    let params := match (lookup args "properties").asMap with
      | some properties => { params with Properties := properties }
      | none => params
    let params := match (lookup args "archived").asBool with
      | some archived => { params with Archived := some archived }
      | none => params
    .ok params

/-- The property loop of `handleNotionUpdatePage`, on a map that is nil until
the first write. -/
def addStringPropertiesOpt (properties : GoMap) (init : Option Properties) : Option Properties :=
  properties.foldl
    (fun acc kv =>
      match kv.2.asString with
      | some strValue =>
        some (setProperty (acc.getD []) kv.1
          (PropertyValue.richText [{ Type_ := "text", Text := some strValue }]))
      | none => acc)
    init

/-- The update request `handleNotionUpdatePage` hands to the provider. -/
def buildUpdateRequest (params : NotionUpdatePageParams) : PageUpdateRequest :=
  let title : Option Properties :=
    if params.Title != "" then
      some [("title", PropertyValue.title [{ Type_ := "text", Text := some params.Title }])]
    else none
  { Properties := addStringPropertiesOpt params.Properties title
    Archived := match params.Archived with
      | some archived => archived
      | none => false }

/-- Embeds `handleNotionUpdatePage`. -/
def handleNotionUpdatePage (client : NotionClient) (enc : Encoder) (args : GoMap) :
    Outcome (Except String ToolResult) :=
  match narrowUpdatePageParams args with
  | .error msg => .returned (.error msg) []
  | .panic => .panicked []
  | .ok params =>
    let updateReq := buildUpdateRequest params
    let calls := [ProviderCall.pageUpdate params.PageID updateReq]
    match client.pageUpdate [] params.PageID updateReq with
    | .error err => .returned (.error ("failed to update Notion page: " ++ err)) calls
    | .ok page => finishPage client enc params.Content page calls

/-- Argument narrowing of `handleNotionAppendBlock`. -/
def narrowAppendBlockParams (args : GoMap) : Narrowed NotionAppendBlockParams :=
  match (lookup args "pageId").asString with
  | none => .error "pageId is required"
  | some pageID =>
    match (lookup args "content").asString with
    | none => .error "content is required"
    | some content =>
      match (lookup args "blockType").asString with
      | some blockType => .ok { PageID := pageID, Content := content, BlockType := blockType }
      | none => .ok { PageID := pageID, Content := content, BlockType := "paragraph" }

/-- Embeds `handleNotionAppendBlock`. -/
def handleNotionAppendBlock (client : NotionClient) (enc : Encoder) (args : GoMap) :
    Outcome (Except String ToolResult) :=
  match narrowAppendBlockParams args with
  | .error msg => .returned (.error msg) []
  | .panic => .panicked []
  | .ok params =>
    let blocks := parseContentToBlocksWithType params.Content params.BlockType
    let appendReq : AppendBlockChildrenRequest := { Children := blocks }
    let calls := [ProviderCall.blockAppendChildren params.PageID appendReq]
    match client.blockAppendChildren [] params.PageID appendReq with
    | .error err => .returned (.error ("failed to append blocks: " ++ err)) calls
    | .ok result =>
      match convertBlockItems result.Results with
      | none => .panicked calls
      | some items =>
        let blockResult : NotionBlockResult := { Object := result.Object, Results := items }
        match enc.blockResult blockResult with
        | .error err => .returned (.error ("failed to marshal block result: " ++ err)) calls
        | .ok resultJSON => .returned (.ok (textResult resultJSON)) calls

/-! ## Resource handler (`server.go`) -/

/-- The fold of `handleWorkspaceResource` over the search hits. -/
def foldWorkspace (results : List NObject) : WorkspaceInfo :=
  results.foldl
    (fun info item =>
      let info := { info with recentItems := info.recentItems ++ [convertToNotionItem item] }
      if item.GetObject == "page" then { info with totalPages := info.totalPages + 1 }
      else if item.GetObject == "database" then
        { info with totalDatabases := info.totalDatabases + 1 }
      else info)
    { totalPages := 0, totalDatabases := 0, recentItems := [] }

/-- Embeds `handleWorkspaceResource`. -/
def handleWorkspaceResource (client : NotionClient) (enc : Encoder) :
    Outcome (Except String (List Content)) :=
  let searchReq : SearchRequest := { PageSize := 100 }
  let calls := [ProviderCall.searchDo searchReq]
  match client.searchDo [] searchReq with
  | .error err => .returned (.error ("failed to get workspace info: " ++ err)) calls
  | .ok searchResp =>
    match enc.workspaceInfo (foldWorkspace searchResp.Results) with
    | .error err => .returned (.error ("failed to marshal workspace info: " ++ err)) calls
    | .ok workspaceJSON => .returned (.ok [{ Type_ := "text", Text := workspaceJSON }]) calls

/-! ## Catalogs (`tools.go`) -/

/-- A `[]string` literal inside a schema. -/
def stringSlice (xs : List String) : GoVal := GoVal.other (some (Json.arr (xs.map Json.str)))

/-- An `int` literal inside a schema. -/
def intLit (n : Int) : GoVal := GoVal.other (some (Json.num n))

/-- A schema entry with a `type` and a `description`. -/
def schemaProp (type description : String) : GoVal :=
  GoVal.map [("type", GoVal.str type), ("description", GoVal.str description)]

/-- A string schema entry with an `enum`. -/
def schemaEnum (description : String) (values : List String) : GoVal :=
  GoVal.map
    [("type", GoVal.str "string"), ("description", GoVal.str description),
     ("enum", stringSlice values)]

/-- Embeds `getDefaultTools`. -/
def getDefaultTools : List Tool :=
  [ { Name := "notion_search"
      Description := "在 Notion 工作区中搜索页面和数据库"
      InputSchema :=
        [("type", GoVal.str "object"),
         ("properties", GoVal.map
           [("query", schemaProp "string" "搜索查询字符串"),
            ("filter", schemaEnum "过滤结果类型：'page' 或 'database'" ["page", "database"]),
            ("sortBy", schemaEnum "排序字段：'last_edited_time'" ["last_edited_time"]),
            ("sortOrder", schemaEnum "排序顺序：'ascending' 或 'descending'"
              ["ascending", "descending"]),
            ("startCursor", schemaProp "string" "分页起始游标"),
            ("pageSize", GoVal.map
              [("type", GoVal.str "integer"), ("description", GoVal.str "每页结果数量（最大100）"),
               ("minimum", intLit 1), ("maximum", intLit 100)])])] },
    { Name := "notion_create_page"
      Description := "在 Notion 中创建新页面"
      InputSchema :=
        [("type", GoVal.str "object"),
         ("properties", GoVal.map
           [("parentId", schemaProp "string" "父页面或数据库的 ID"),
            ("title", schemaProp "string" "页面标题"),
            ("content", schemaProp "string" "页面内容（可选）"),
            ("properties", schemaProp "object" "页面属性（可选）"),
            ("icon", GoVal.map
              [("type", GoVal.str "object"), ("description", GoVal.str "页面图标（可选）"),
               ("properties", GoVal.map
                 [("type", schemaEnum "图标类型：'emoji' 或 'external'" ["emoji", "external"]),
                  ("emoji", schemaProp "string" "表情符号（当 type 为 'emoji' 时）"),
                  ("url", schemaProp "string" "图标 URL（当 type 为 'external' 时）")])]),
            ("cover", GoVal.map
              [("type", GoVal.str "object"), ("description", GoVal.str "页面封面（可选）"),
               ("properties", GoVal.map
                 [("type", schemaEnum "封面类型：'external'" ["external"]),
                  ("url", schemaProp "string" "封面图片 URL")])])]),
         ("required", stringSlice ["parentId", "title"])] },
    { Name := "notion_update_page"
      Description := "更新 Notion 页面"
      InputSchema :=
        [("type", GoVal.str "object"),
         ("properties", GoVal.map
           [("pageId", schemaProp "string" "要更新的页面 ID"),
            ("title", schemaProp "string" "新的页面标题（可选）"),
            ("content", schemaProp "string" "要添加的页面内容（可选）"),
            ("properties", schemaProp "object" "要更新的页面属性（可选）"),
            ("archived", schemaProp "boolean" "是否归档页面（可选）")]),
         ("required", stringSlice ["pageId"])] },
    { Name := "notion_append_block"
      Description := "向 Notion 页面添加块内容"
      InputSchema :=
        [("type", GoVal.str "object"),
         ("properties", GoVal.map
           [("pageId", schemaProp "string" "目标页面 ID"),
            ("content", schemaProp "string" "要添加的内容"),
            ("blockType", schemaEnum "块类型"
              ["paragraph", "heading_1", "heading_2", "heading_3", "bulleted_list_item",
               "numbered_list_item", "to_do", "code", "quote", "callout"])]),
         ("required", stringSlice ["pageId", "content"])] } ]

/-- Embeds `getDefaultResources`. -/
def getDefaultResources : List Resource :=
  [ { URI := "notion://workspace"
      Name := "Notion Workspace"
      Description := "Notion 工作区信息，包括页面和数据库统计"
      MimeType := "application/json" } ]

/-- Embeds `MCPConfig.Validate`: the error, or the config with its defaults
filled in. -/
def MCPConfig.Validate (c : MCPConfig) : Except Error MCPConfig :=
  if c.NotionToken == "" then
    .error { Code := -32602, Message := "Invalid params: notionToken is required" }
  else
    let c := if c.DefaultPageSize ≤ 0 then { c with DefaultPageSize := 10 } else c
    let c := if c.MaxRetries ≤ 0 then { c with MaxRetries := 3 } else c
    let c := if c.Timeout ≤ 0 then { c with Timeout := 30 } else c
    .ok c

/-- Embeds `NewMCPServer`. -/
def NewMCPServer (config : MCPConfig) : Except Error MCPServer :=
  match config.Validate with
  | .error err => .error err
  | .ok config =>
    .ok { config := config, tools := getDefaultTools, resources := getDefaultResources }

/-! ## Reading `Params` (`encoding/json` as the dispatcher uses it) -/

/-- The fold under which the decoder compares an object key with a struct
field name: ASCII letters to upper case, and the two runes whose case orbit
meets ASCII (long s, Kelvin sign) to `S` and `K`. -/
def foldRune (c : Char) : Char :=
  if 97 ≤ c.toNat ∧ c.toNat ≤ 122 then Char.ofNat (c.toNat - 32)
  else if c.toNat = 0x17F then Char.ofNat 83
  else if c.toNat = 0x212A then Char.ofNat 75
  else c

/-- Key folded rune by rune. -/
def foldName (s : String) : String := String.mk (s.data.map foldRune)

/-- Whether an object key addresses the struct field tagged `field`. -/
def fieldMatches (field key : String) : Bool := foldName key == foldName field

/-- The decoder filling a `ToolCall` from the members of an object, in member
order: `name` takes a string, `arguments` takes an object whose members are
written into the map already there, null leaves `name` as it is and resets
`arguments`, any other value is a type error (`none`), other keys are
skipped. -/
def decodeToolCallFields : List (String × Json) → ToolCall → Option ToolCall
  | [], toolCall => some toolCall
  | (key, value) :: rest, toolCall =>
    if fieldMatches "name" key then
      match value with
      | .null => decodeToolCallFields rest toolCall
      | .str s => decodeToolCallFields rest { toolCall with Name := s }
      | _ => none
    else if fieldMatches "arguments" key then
      match value with
      | .null => decodeToolCallFields rest { toolCall with Arguments := [] }
      | .obj kvs =>
        decodeToolCallFields rest
          { toolCall with Arguments := ofJsonFields kvs ++ toolCall.Arguments }
      | _ => none
    else decodeToolCallFields rest toolCall

/-- Call `json.Unmarshal(paramsBytes, &toolCall)` on a zero `ToolCall`. -/
def unmarshalToolCall : Json → Option ToolCall
  | .null => some { Name := "", Arguments := [] }
  | .obj kvs => decodeToolCallFields kvs { Name := "", Arguments := [] }
  | _ => none

/-- Call `json.Unmarshal(paramsBytes, &params)` on a nil map. -/
def unmarshalMap : Json → Option GoMap
  | .null => some []
  | .obj kvs => some (ofJsonFields kvs)
  | _ => none

/-- How the reading of `Params` ends. -/
inductive ParsedParams (α : Type) where
  | missing
  | malformed
  | ok (value : α)

/-- The opening of `handleToolsCall`: nil check, the assertion to `ToolCall`,
else marshal and unmarshal. -/
def parseToolCallParams (params : GoVal) : ParsedParams ToolCall :=
  match params with
  | .nil => .missing
  | .toolCall name arguments => .ok { Name := name, Arguments := arguments }
  | other =>
    match marshal other with
    | none => .malformed
    | some paramsBytes =>
      match unmarshalToolCall paramsBytes with
      | none => .malformed
      | some toolCall => .ok toolCall

/-- The opening of `handleResourcesRead`: nil check, the assertion to a map,
else marshal and unmarshal. -/
def parseMapParams (params : GoVal) : ParsedParams GoMap :=
  match params with
  | .nil => .missing
  | .map kvs => .ok kvs
  | other =>
    match marshal other with
    | none => .malformed
    | some paramsBytes =>
      match unmarshalMap paramsBytes with
      | none => .malformed
      | some m => .ok m

/-! ## Dispatcher (`server.go`) -/

/-- The error envelope every failing path builds. -/
def errorResponse (req : Request) (code : Int) (message : String) : Response :=
  { JSONRPC := "2.0", ID := req.ID, Error := some { Code := code, Message := message } }

/-- The success envelope. -/
def resultResponse (req : Request) (result : ResultVal) : Response :=
  { JSONRPC := "2.0", ID := req.ID, Result := some result }

/-- Embeds `handleInitialize`. -/
def handleInitialize (s : MCPServer) (req : Request) : Response :=
  resultResponse req (ResultVal.dyn
    [("protocolVersion", GoVal.str "2024-11-05"),
     ("capabilities", GoVal.map
       [("tools", GoVal.map [("listChanged", GoVal.bool false)]),
        ("resources", GoVal.map
          [("subscribe", GoVal.bool false), ("listChanged", GoVal.bool false)])]),
     ("serverInfo", GoVal.map
       [("name", GoVal.str s.config.ServerName),
        ("version", GoVal.str s.config.ServerVersion)])])

/-- Embeds `handleToolsList`. -/
def handleToolsList (s : MCPServer) (req : Request) : Response :=
  resultResponse req (ResultVal.tools s.tools)

/-- Embeds `handleResourcesList`. -/
def handleResourcesList (s : MCPServer) (req : Request) : Response :=
  resultResponse req (ResultVal.resources s.resources)

/-- The switch on the tool name in `handleToolsCall`; `none` is its default
branch. -/
def dispatchTool (s : MCPServer) (client : NotionClient) (enc : Encoder)
    (toolCall : ToolCall) : Option (Outcome (Except String ToolResult)) :=
  if toolCall.Name == "notion_search" then
    some (handleNotionSearch s client enc toolCall.Arguments)
  else if toolCall.Name == "notion_create_page" then
    some (handleNotionCreatePage client enc toolCall.Arguments)
  else if toolCall.Name == "notion_update_page" then
    some (handleNotionUpdatePage client enc toolCall.Arguments)
  else if toolCall.Name == "notion_append_block" then
    some (handleNotionAppendBlock client enc toolCall.Arguments)
  else none

/-- Embeds `handleToolsCall`. -/
def handleToolsCall (s : MCPServer) (client : NotionClient) (enc : Encoder)
    (req : Request) : Outcome Response :=
  match parseToolCallParams req.Params with
  | .missing => .returned (errorResponse req ErrCodeInvalidParams "Missing params") []
  | .malformed => .returned (errorResponse req ErrCodeParseError ErrMsgParseError) []
  | .ok toolCall =>
    match dispatchTool s client enc toolCall with
    | none =>
      .returned
        (errorResponse req ErrCodeMethodNotFound ("Tool '" ++ toolCall.Name ++ "' not found")) []
    | some (.panicked calls) => .panicked calls
    | some (.returned (.error err) calls) =>
      .returned (errorResponse req ErrCodeInternalError err) calls
    | some (.returned (.ok result) calls) =>
      .returned (resultResponse req (ResultVal.toolResult result)) calls

/-- Embeds `handleResourcesRead`. -/
def handleResourcesRead (client : NotionClient) (enc : Encoder) (req : Request) :
    Outcome Response :=
  match parseMapParams req.Params with
  | .missing => .returned (errorResponse req ErrCodeInvalidParams "Missing params") []
  | .malformed => .returned (errorResponse req ErrCodeParseError ErrMsgParseError) []
  | .ok params =>
    match (lookup params "uri").asString with
    | none =>
      .returned (errorResponse req ErrCodeInvalidParams "Invalid params: uri is required") []
    | some uri =>
      if uri == "notion://workspace" then
        match handleWorkspaceResource client enc with
        | .panicked calls => .panicked calls
        | .returned (.error err) calls =>
          .returned (errorResponse req ErrCodeInternalError err) calls
        | .returned (.ok content) calls =>
          .returned (resultResponse req (ResultVal.contents content)) calls
      else
        .returned
          (errorResponse req ErrCodeMethodNotFound ("Resource '" ++ uri ++ "' not found")) []

/-- Embeds `HandleRequest`.  The deadline it sets on the context reaches the
code only through the provider calls, whose answers are arbitrary here. -/
def HandleRequest (s : MCPServer) (client : NotionClient) (enc : Encoder)
    (req : Request) : Outcome Response :=
  if req.Method == "initialize" then .returned (handleInitialize s req) []
  else if req.Method == "tools/list" then .returned (handleToolsList s req) []
  else if req.Method == "tools/call" then handleToolsCall s client enc req
  else if req.Method == "resources/list" then .returned (handleResourcesList s req) []
  else if req.Method == "resources/read" then handleResourcesRead client enc req
  else .returned (errorResponse req ErrCodeMethodNotFound ErrMsgMethodNotFound) []

/-! ## Markdown converter (`markdown.go`)

Inside the converter a Go string is the list of its characters; the block
texts are turned back into strings where the blocks are built. -/

/-- Whether `unicode.IsSpace` holds of the character, which is what
`strings.TrimSpace` trims. -/
def isSpace (c : Char) : Bool :=
  c.toNat == 9 || c.toNat == 10 || c.toNat == 11 || c.toNat == 12 || c.toNat == 13 ||
  c.toNat == 32 || c.toNat == 0x85 || c.toNat == 0xA0 || c.toNat == 0x1680 ||
  (0x2000 ≤ c.toNat && c.toNat ≤ 0x200A) || c.toNat == 0x2028 || c.toNat == 0x2029 ||
  c.toNat == 0x202F || c.toNat == 0x205F || c.toNat == 0x3000

/-- The line feed. -/
def LF : Char := Char.ofNat 10

/-- The carriage return. -/
def CR : Char := Char.ofNat 13

/-- Whether the character is the carriage return. -/
def isCR (c : Char) : Bool := c == CR

/-- The text without its longest suffix of characters satisfying `p`. -/
def trimRightBy (p : Char → Bool) : List Char → List Char
  | [] => []
  | c :: cs =>
    match trimRightBy p cs with
    | [] => if p c then [] else [c]
    | d :: ds => c :: d :: ds

/-- Call `strings.TrimRight(line, "\r")`. -/
def TrimRightCR (line : List Char) : List Char := trimRightBy isCR line

/-- Call `strings.TrimSpace(s)`. -/
def TrimSpace (s : List Char) : List Char := (trimRightBy isSpace s).dropWhile isSpace

/-- Call `strings.HasPrefix(s, marker)`. -/
def HasPrefix (s marker : List Char) : Bool := marker.isPrefixOf s

/-- Call `strings.TrimPrefix(s, marker)`. -/
def TrimPrefix (s marker : List Char) : List Char :=
  if marker.isPrefixOf s then s.drop marker.length else s

/-- Call `strings.Split(s, "\n")`. -/
def Split : List Char → List (List Char)
  | [] => [[]]
  | c :: cs =>
    if c == LF then [] :: Split cs
    else
      match Split cs with
      | [] => [[c]]
      | line :: lines => (c :: line) :: lines

/-- Call `strings.Join(lines, "\n")`. -/
def Join : List (List Char) → List Char
  | [] => []
  | [line] => line
  | line :: next :: lines => line ++ LF :: Join (next :: lines)

/-- The rest of the line after the match of the pattern `^\d+\. `, when the
line matches: one or more ASCII digits, a period, a space. -/
def numberedRest : List Char → Option (List Char)
  | [] => none
  | c :: cs =>
    if c.isDigit then
      match cs.dropWhile Char.isDigit with
      | d :: e :: rest => if d.toNat == 46 && e.toNat == 32 then some rest else none
      | _ => none
    else none

/-- Embeds `createParagraph`. -/
def createParagraph (text : String) : Block := Block.paragraph [richTextOf text] "block"

/-- Embeds `createHeading1`. -/
def createHeading1 (text : String) : Block := Block.heading1 [richTextOf text] "block"

/-- Embeds `createHeading2`. -/
def createHeading2 (text : String) : Block := Block.heading2 [richTextOf text] "block"

/-- Embeds `createHeading3`. -/
def createHeading3 (text : String) : Block := Block.heading3 [richTextOf text] "block"

/-- Embeds `createBulletedListItem`. -/
def createBulletedListItem (text : String) : Block :=
  Block.bulletedListItem [richTextOf text] "block"

/-- Embeds `createNumberedListItem`. -/
def createNumberedListItem (text : String) : Block :=
  Block.numberedListItem [richTextOf text] "block"

/-- Embeds `createQuote`. -/
def createQuote (text : String) : Block := Block.quote [richTextOf text] "block"

/-- Embeds `createCodeBlock`. -/
def createCodeBlock (code language : String) : Block :=
  Block.code [richTextOf code] language "block"

/-- Embeds `createToDo`. -/
def createToDo (text : String) (checked : Bool) : Block :=
  Block.toDo [richTextOf text] checked "block"

/-- Embeds `createDivider`. -/
def createDivider : Block := Block.divider "block"

/-- The local variables of `MarkdownToBlocks` that live across lines. -/
structure MdState where
  blocks : List Block := []
  currentParagraph : List (List Char) := []
  inCodeBlock : Bool := false
  codeBlockContent : List (List Char) := []
  codeLanguage : List Char := []

/-- The flush every branch repeats: a pending paragraph becomes one block. -/
def flushParagraph (st : MdState) : MdState :=
  if st.currentParagraph.length > 0 then
    { st with
      blocks := st.blocks ++ [createParagraph (String.mk (Join st.currentParagraph))]
      currentParagraph := [] }
  else st

/-- Flush, then append one block. -/
def emitBlock (st : MdState) (block : Block) : MdState :=
  { flushParagraph st with blocks := (flushParagraph st).blocks ++ [block] }

/-- The body of the loop of `MarkdownToBlocks` below its first statement, for
a line whose trailing carriage returns are gone. -/
def processTrimmedLine (st : MdState) (line : List Char) : MdState :=
  if HasPrefix line "```".data then
    if st.inCodeBlock then
      { st with
        blocks :=
          if st.codeBlockContent.length > 0 then
            st.blocks ++
              [createCodeBlock (String.mk (Join st.codeBlockContent)) (String.mk st.codeLanguage)]
          else st.blocks
        inCodeBlock := false
        codeBlockContent := []
        codeLanguage := [] }
    else
      { flushParagraph st with
        inCodeBlock := true
        codeLanguage := TrimSpace (TrimPrefix line "```".data) }
  else if st.inCodeBlock then
    { st with codeBlockContent := st.codeBlockContent ++ [line] }
  else if HasPrefix line "# ".data then
    emitBlock st (createHeading1 (String.mk (TrimSpace (TrimPrefix line "# ".data))))
  else if HasPrefix line "## ".data then
    emitBlock st (createHeading2 (String.mk (TrimSpace (TrimPrefix line "## ".data))))
  else if HasPrefix line "### ".data then
    emitBlock st (createHeading3 (String.mk (TrimSpace (TrimPrefix line "### ".data))))
  else if HasPrefix line "- ".data || HasPrefix line "* ".data then
    emitBlock st
      (createBulletedListItem
        (String.mk (TrimSpace (TrimPrefix (TrimPrefix line "- ".data) "* ".data))))
  else
    match numberedRest line with
    | some content => emitBlock st (createNumberedListItem (String.mk (TrimSpace content)))
    | none =>
      if HasPrefix line "> ".data then
        emitBlock st (createQuote (String.mk (TrimSpace (TrimPrefix line "> ".data))))
      else if TrimSpace line == "---".data || TrimSpace line == "***".data then
        emitBlock st createDivider
      else if HasPrefix line "- [ ] ".data then
        emitBlock st (createToDo (String.mk (TrimSpace (TrimPrefix line "- [ ] ".data))) false)
      else if HasPrefix line "- [x] ".data then
        emitBlock st (createToDo (String.mk (TrimSpace (TrimPrefix line "- [x] ".data))) true)
      else if TrimSpace line == [] then flushParagraph st
      else { st with currentParagraph := st.currentParagraph ++ [line] }

/-- The body of the loop of `MarkdownToBlocks`, for one line. -/
def processLine (st : MdState) (rawLine : List Char) : MdState :=
  processTrimmedLine st (TrimRightCR rawLine)

/-- The loop of `MarkdownToBlocks` over the lines, from a state. -/
def processLines (st : MdState) (lines : List (List Char)) : MdState :=
  lines.foldl processLine st

/-- The end of `MarkdownToBlocks`: the last paragraph is flushed and the
blocks are returned. -/
def finishBlocks (st : MdState) : List Block := (flushParagraph st).blocks

/-- Embeds `MarkdownToBlocks`. -/
def MarkdownToBlocks (markdown : String) : List Block :=
  if TrimSpace markdown.data == [] then []
  else finishBlocks (processLines {} (Split markdown.data))

/-- Whether the line passes one of the marker tests the loop makes outside a
fence: fence, heading, bullet, numbered item, quote, divider.  (The two
task-list tests come after the bullet test and ask for a prefix that starts
with the bullet marker.) -/
def matchesMarker (line : List Char) : Bool :=
  HasPrefix line "```".data || HasPrefix line "# ".data || HasPrefix line "## ".data ||
  HasPrefix line "### ".data || HasPrefix line "- ".data || HasPrefix line "* ".data ||
  (numberedRest line).isSome || HasPrefix line "> ".data ||
  TrimSpace line == "---".data || TrimSpace line == "***".data

/-- Whether the line is blank: nothing is left of it after `strings.TrimSpace`. -/
def isBlankLine (line : List Char) : Bool := TrimSpace line == []

/-- Whether the line is plain text: not blank, and no marker test passes. -/
def isPlainLine (line : List Char) : Bool := !matchesMarker line && !isBlankLine line

/-- The state with some earlier blocks put before its blocks. -/
def prependBlocks (earlier : List Block) (st : MdState) : MdState :=
  { st with blocks := earlier ++ st.blocks }

/-- Whether the block is a to-do block. -/
def Block.isToDo : Block → Bool
  | .toDo _ _ _ => true
  | _ => false

/-- Whether the block is a paragraph block. -/
def Block.isParagraph : Block → Bool
  | .paragraph _ _ => true
  | _ => false

/-- The rich text of a block; a divider has none. -/
def Block.richTextRuns : Block → List RichText
  | .paragraph richText _ => richText
  | .heading1 richText _ => richText
  | .heading2 richText _ => richText
  | .heading3 richText _ => richText
  | .bulletedListItem richText _ => richText
  | .numberedListItem richText _ => richText
  | .toDo richText _ _ => richText
  | .code richText _ _ => richText
  | .quote richText _ => richText
  | .callout richText _ _ => richText
  | .divider _ => []

/-- Whether a text holds a character that is not white space. -/
def hasNonSpace (text : String) : Prop := ∃ c ∈ text.data, isSpace c = false

/-- What one line does to the state of the loop. -/
inductive LineEffect where
  | closeFence
  | openFence (language : List Char)
  | codeLine
  | emit (block : Block)
  | flush
  | text

/-- The branch the loop body takes for a line, by the tests in their order. -/
def lineEffect (inCodeBlock : Bool) (line : List Char) : LineEffect :=
  if HasPrefix line "```".data then
    if inCodeBlock then .closeFence
    else .openFence (TrimSpace (TrimPrefix line "```".data))
  else if inCodeBlock then .codeLine
  else if HasPrefix line "# ".data then
    .emit (createHeading1 (String.mk (TrimSpace (TrimPrefix line "# ".data))))
  else if HasPrefix line "## ".data then
    .emit (createHeading2 (String.mk (TrimSpace (TrimPrefix line "## ".data))))
  else if HasPrefix line "### ".data then
    .emit (createHeading3 (String.mk (TrimSpace (TrimPrefix line "### ".data))))
  else if HasPrefix line "- ".data || HasPrefix line "* ".data then
    .emit
      (createBulletedListItem
        (String.mk (TrimSpace (TrimPrefix (TrimPrefix line "- ".data) "* ".data))))
  else
    match numberedRest line with
    | some content => .emit (createNumberedListItem (String.mk (TrimSpace content)))
    | none =>
      if HasPrefix line "> ".data then
        .emit (createQuote (String.mk (TrimSpace (TrimPrefix line "> ".data))))
      else if TrimSpace line == "---".data || TrimSpace line == "***".data then
        .emit createDivider
      else if HasPrefix line "- [ ] ".data then
        .emit (createToDo (String.mk (TrimSpace (TrimPrefix line "- [ ] ".data))) false)
      else if HasPrefix line "- [x] ".data then
        .emit (createToDo (String.mk (TrimSpace (TrimPrefix line "- [x] ".data))) true)
      else if TrimSpace line == [] then .flush
      else .text

/-- The state after a branch of the loop body. -/
def applyEffect (st : MdState) (line : List Char) : LineEffect → MdState
  | .closeFence =>
    { st with
      blocks :=
        if st.codeBlockContent.length > 0 then
          st.blocks ++
            [createCodeBlock (String.mk (Join st.codeBlockContent)) (String.mk st.codeLanguage)]
        else st.blocks
      inCodeBlock := false
      codeBlockContent := []
      codeLanguage := [] }
  | .openFence language =>
    { flushParagraph st with inCodeBlock := true, codeLanguage := language }
  | .codeLine => { st with codeBlockContent := st.codeBlockContent ++ [line] }
  | .emit block => emitBlock st block
  | .flush => flushParagraph st
  | .text => { st with currentParagraph := st.currentParagraph ++ [line] }

/-! ## Reading outcomes and requests -/

/-- The provider calls made by the time the call ends, oldest first. -/
def Outcome.calls {α : Type} : Outcome α → List ProviderCall
  | .returned _ calls => calls
  | .panicked calls => calls

/-- Map read `m[key]` on a request property map; `none` when the key is not
in the map. -/
def getProperty (m : Properties) (key : String) : Option PropertyValue :=
  (m.find? (fun kv => kv.1 == key)).map (fun kv => kv.2)

/-- The keys of a request property map. -/
def propertyKeys (m : Properties) : List String := m.map (fun kv => kv.1)

/-- The `Type` each block literal of the server and of the converter puts
into its `BasicBlock`. -/
def Block.GetType : Block → String
  | .paragraph _ _ => "paragraph"
  | .heading1 _ _ => "heading_1"
  | .heading2 _ _ => "heading_2"
  | .heading3 _ _ => "heading_3"
  | .bulletedListItem _ _ => "bulleted_list_item"
  | .numberedListItem _ _ => "numbered_list_item"
  | .toDo _ _ _ => "to_do"
  | .code _ _ _ => "code"
  | .quote _ _ => "quote"
  | .callout _ _ _ => "callout"
  | .divider _ => "divider"

/-- The ten block kinds the append-block tool names. -/
def blockKinds : List String :=
  ["paragraph", "heading_1", "heading_2", "heading_3", "bulleted_list_item",
   "numbered_list_item", "to_do", "code", "quote", "callout"]

/-! ## Typed facade (`sdk.go`) -/

/-- Type assertion `v.([]interface{})` in its comma-ok form. -/
def GoVal.asSlice : GoVal → Option (List GoVal)
  | .slice xs => some xs
  | _ => none

/-- Elementwise encoding of a typed slice; fails when an element fails. -/
def marshalAll {α : Type} (f : α → Option Json) : List α → Option (List Json)
  | [] => some []
  | x :: xs =>
    match f x, marshalAll f xs with
    | some j, some js => some (j :: js)
    | _, _ => none

/-- What `json.Marshal` makes of a `Content`: `text` and `data` are left out
when empty. -/
def Content.toJson (c : Content) : Option Json :=
  match marshal c.Data with
  | none => none
  | some data =>
    some (Json.obj
      ([("type", Json.str c.Type_)] ++
        (if c.Text == "" then [] else [("text", Json.str c.Text)]) ++
        (match c.Data with
          | .nil => []
          | _ => [("data", data)])))

/-- What `json.Marshal` makes of a `Tool`. -/
def Tool.toJson (t : Tool) : Option Json :=
  (marshalFields t.InputSchema).map (fun schema =>
    Json.obj
      [("name", Json.str t.Name), ("description", Json.str t.Description),
       ("inputSchema", Json.obj schema)])

/-- What `json.Marshal` makes of a `Resource`: the last three members are left
out when empty. -/
def Resource.toJson (r : Resource) : Option Json :=
  (marshalFields r.Metadata).map (fun metadata =>
    Json.obj
      ([("uri", Json.str r.URI), ("name", Json.str r.Name)] ++
        (if r.Description == "" then [] else [("description", Json.str r.Description)]) ++
        (if r.MimeType == "" then [] else [("mimeType", Json.str r.MimeType)]) ++
        (if r.Metadata.isEmpty then [] else [("metadata", Json.obj metadata)])))

/-- Type assertion `resp.Result.(*ToolResult)` in its comma-ok form. -/
def ResultVal.asToolResult : ResultVal → Option ToolResult
  | .toolResult result => some result
  | _ => none

/-- Type assertion `resp.Result.(map[string]interface{})` in its comma-ok
form.  The catalogs and the contents sit in the map as typed slices
(`[]Tool`, `[]Resource`, `[]Content`), which are values of other dynamic types
than `[]interface{}`. -/
def ResultVal.asMap : ResultVal → Option GoMap
  | .dyn m => some m
  | .tools ts => some [("tools", GoVal.other ((marshalAll Tool.toJson ts).map Json.arr))]
  | .resources rs =>
    some [("resources", GoVal.other ((marshalAll Resource.toJson rs).map Json.arr))]
  | .toolResult _ => none
  | .contents cs =>
    some [("contents", GoVal.other ((marshalAll Content.toJson cs).map Json.arr))]

/-- Calls of `json.Unmarshal` on the text of a result: the decoded value, or
the text of the decoder error. -/
structure Decoder where
  searchResult : String → Except String NotionSearchResult
  workspaceInfo : String → Except String GoMap

/-- The facade.  Its `config` field and the `config` field of its server
point to one `MCPConfig`, which is kept once, in the server. -/
structure NotionMCPSDK where
  server : MCPServer

/-- The field `sdk.config`. -/
def NotionMCPSDK.config (sdk : NotionMCPSDK) : MCPConfig := sdk.server.config

/-- Embeds `NewNotionMCPSDK`. -/
def NewNotionMCPSDK (config : MCPConfig) : Except String NotionMCPSDK :=
  match NewMCPServer config with
  | .error err => .error ("failed to create MCP server: " ++ err.Message)
  | .ok server => .ok { server := server }

/-- Embeds `NotionMCPSDK.callTool`: the tool call goes to `HandleRequest` as a
value of type `ToolCall`, with the `int` 1 as its id. -/
def NotionMCPSDK.callTool (sdk : NotionMCPSDK) (client : NotionClient) (enc : Encoder)
    (toolCall : ToolCall) : Outcome (Except String ToolResult) :=
  let req : Request :=
    { JSONRPC := "2.0", ID := intLit 1, Method := "tools/call",
      Params := GoVal.toolCall toolCall.Name toolCall.Arguments }
  match HandleRequest sdk.server client enc req with
  | .panicked calls => .panicked calls
  | .returned resp calls =>
    match resp.Error with
    | some err => .returned (.error ("tool call failed: " ++ err.Message)) calls
    | none =>
      match resp.Result.bind ResultVal.asToolResult with
      | none => .returned (.error "invalid tool result format") calls
      | some result => .returned (.ok result) calls

/-- The arguments map `NotionMCPSDK.Search` fills: `pageSize` always, as the
`int` it is in the typed parameters, and each string that is not empty. -/
def searchArgs (params : NotionSearchParams) : GoMap :=
  [("pageSize", intLit params.PageSize)] ++
    (if params.Query != "" then [("query", GoVal.str params.Query)] else []) ++
    (if params.Filter != "" then [("filter", GoVal.str params.Filter)] else []) ++
    (if params.SortBy != "" then [("sortBy", GoVal.str params.SortBy)] else []) ++
    (if params.SortOrder != "" then [("sortOrder", GoVal.str params.SortOrder)] else []) ++
    (if params.StartCursor != "" then [("startCursor", GoVal.str params.StartCursor)] else [])

/-- Embeds `NotionMCPSDK.Search`. -/
def NotionMCPSDK.Search (sdk : NotionMCPSDK) (client : NotionClient) (enc : Encoder)
    (dec : Decoder) (params : NotionSearchParams) : Outcome (Except String NotionSearchResult) :=
  match sdk.callTool client enc { Name := "notion_search", Arguments := searchArgs params } with
  | .panicked calls => .panicked calls
  | .returned (.error err) calls => .returned (.error err) calls
  | .returned (.ok result) calls =>
    match result.Content with
    | [] => .returned (.ok { Object := "", Results := [], HasMore := false, NextCursor := "" }) calls
    | content :: _ =>
      match dec.searchResult content.Text with
      | .error err => .returned (.error ("failed to parse search result: " ++ err)) calls
      | .ok searchResult => .returned (.ok searchResult) calls

/-- Embeds `NotionMCPSDK.GetWorkspaceInfo`. -/
def NotionMCPSDK.GetWorkspaceInfo (sdk : NotionMCPSDK) (client : NotionClient) (enc : Encoder)
    (dec : Decoder) : Outcome (Except String GoMap) :=
  let req : Request :=
    { JSONRPC := "2.0", ID := intLit 1, Method := "resources/read",
      Params := GoVal.map [("uri", GoVal.str "notion://workspace")] }
  match HandleRequest sdk.server client enc req with
  | .panicked calls => .panicked calls
  | .returned resp calls =>
    match resp.Error with
    | some err => .returned (.error ("failed to get workspace info: " ++ err.Message)) calls
    | none =>
      match resp.Result.bind ResultVal.asMap with
      | none => .returned (.error "invalid response format") calls
      | some result =>
        match (lookup result "contents").asSlice with
        | none => .returned (.error "no workspace info found") calls
        | some [] => .returned (.error "no workspace info found") calls
        | some (first :: _) =>
          match first.asMap with
          | none => .returned (.error "invalid content format") calls
          | some content =>
            match (lookup content "text").asString with
            | none => .returned (.error "invalid text content") calls
            | some text =>
              match dec.workspaceInfo text with
              | .error err =>
                .returned (.error ("failed to parse workspace info: " ++ err)) calls
              | .ok workspaceInfo => .returned (.ok workspaceInfo) calls

/-- Embeds `NotionMCPSDK.SetDefaultPageSize`: the assignment goes through the
config pointer the facade shares with its server. -/
def NotionMCPSDK.SetDefaultPageSize (sdk : NotionMCPSDK) (size : Int) : NotionMCPSDK :=
  if size > 0 ∧ size ≤ 100 then
    { sdk with
      server := { sdk.server with config := { sdk.server.config with DefaultPageSize := size } } }
  else sdk

/-- Embeds `NotionMCPSDK.SetTimeout`. -/
def NotionMCPSDK.SetTimeout (sdk : NotionMCPSDK) (seconds : Int) : NotionMCPSDK :=
  if seconds > 0 then
    { sdk with
      server := { sdk.server with config := { sdk.server.config with Timeout := seconds } } }
  else sdk

/-- Embeds `NotionMCPSDK.SetMaxRetries`. -/
def NotionMCPSDK.SetMaxRetries (sdk : NotionMCPSDK) (retries : Int) : NotionMCPSDK :=
  if retries > 0 then
    { sdk with
      server := { sdk.server with config := { sdk.server.config with MaxRetries := retries } } }
  else sdk

/-- Embeds `NotionMCPSDK.GetConfig`. -/
def NotionMCPSDK.GetConfig (sdk : NotionMCPSDK) : MCPConfig := sdk.config

/-- Embeds `NotionMCPSDK.GetTools`. -/
def NotionMCPSDK.GetTools (sdk : NotionMCPSDK) : List Tool := sdk.server.tools

/-- Embeds `NotionMCPSDK.GetResources`. -/
def NotionMCPSDK.GetResources (sdk : NotionMCPSDK) : List Resource := sdk.server.resources

/-- The statements of `MCPConfig.Validate` on the struct behind the receiver:
the struct as the call leaves it, and the error returned (`none` is nil).  The
check of the token returns before any assignment. -/
def MCPConfig.ValidateInPlace (c : MCPConfig) : MCPConfig × Option Error :=
  if c.NotionToken == "" then
    (c, some { Code := -32602, Message := "Invalid params: notionToken is required" })
  else
    let c := if c.DefaultPageSize ≤ 0 then { c with DefaultPageSize := 10 } else c
    let c := if c.MaxRetries ≤ 0 then { c with MaxRetries := 3 } else c
    let c := if c.Timeout ≤ 0 then { c with Timeout := 30 } else c
    (c, none)

/-- One thing done to a facade during its life: a request served (with the
provider and the encoder of that moment), or a call of a config setter. -/
inductive Step where
  | handleRequest (client : NotionClient) (enc : Encoder) (req : Request)
  | setDefaultPageSize (size : Int)
  | setTimeout (seconds : Int)
  | setMaxRetries (retries : Int)

/-- The facade after one step.  `HandleRequest` and the handlers assign to no
field of the server or of its config, so serving a request leaves the facade
as it is. -/
def NotionMCPSDK.step (sdk : NotionMCPSDK) : Step → NotionMCPSDK
  | .handleRequest _ _ _ => sdk
  | .setDefaultPageSize size => sdk.SetDefaultPageSize size
  | .setTimeout seconds => sdk.SetTimeout seconds
  | .setMaxRetries retries => sdk.SetMaxRetries retries

/-- The facade after a sequence of steps. -/
def NotionMCPSDK.run (sdk : NotionMCPSDK) (steps : List Step) : NotionMCPSDK :=
  steps.foldl NotionMCPSDK.step sdk

/-! ## Reading the converter's input -/

/-- Whether the loop of `MarkdownToBlocks` takes the line for a fence line:
after the trailing carriage returns are dropped it starts with three
backquotes. -/
def isFenceLine (line : List Char) : Bool := HasPrefix (TrimRightCR line) "```".data

/-- The blocks the state holds, plus one for a paragraph under way and one
for code under way: what the state can give without reading another line. -/
def MdState.potential (st : MdState) : Nat :=
  st.blocks.length + (if st.currentParagraph = [] then 0 else 1)
    + (if st.codeBlockContent = [] then 0 else 1)

/-! ## Concrete servers, providers and requests -/

/-- Embeds `DefaultMCPConfig`. -/
def DefaultMCPConfig : MCPConfig :=
  { ServerName := "notion-mcp-server"
    ServerVersion := "1.0.0"
    DefaultPageSize := 10
    MaxRetries := 3
    Timeout := 30 }

/-- Embeds `NewNotionMCPSDKWithDefaults`. -/
def NewNotionMCPSDKWithDefaults (notionToken : String) : Except String NotionMCPSDK :=
  NewNotionMCPSDK { DefaultMCPConfig with NotionToken := notionToken }

/-- The server `NewMCPServer` builds from the default config and a token. -/
def defaultServer : MCPServer :=
  { config := { DefaultMCPConfig with NotionToken := "secret" }
    tools := getDefaultTools
    resources := getDefaultResources }

/-- A provider whose every operation succeeds with an empty answer. -/
def quietClient : NotionClient where
  searchDo := fun _ _ => .ok {}
  pageCreate := fun _ _ => .ok {}
  pageUpdate := fun _ _ _ => .ok {}
  blockAppendChildren := fun _ _ _ => .ok {}

/-- A provider whose every operation fails with the text `m`. -/
def failingClient (m : String) : NotionClient where
  searchDo := fun _ _ => .error m
  pageCreate := fun _ _ => .error m
  pageUpdate := fun _ _ _ => .error m
  blockAppendChildren := fun _ _ _ => .error m

/-- A provider that answers an append with one block that has no timestamps. -/
def bareBlockClient : NotionClient where
  searchDo := fun _ _ => .ok {}
  pageCreate := fun _ _ => .ok {}
  pageUpdate := fun _ _ _ => .ok {}
  blockAppendChildren := fun _ _ _ => .ok { Object := "list", Results := [{ GetID := "b1" }] }

/-- An encoder that never fails. -/
def plainEncoder : Encoder where
  searchResult := fun _ => .ok "search"
  pageResult := fun _ => .ok "page"
  blockResult := fun _ => .ok "blocks"
  workspaceInfo := fun _ => .ok "workspace"

/-- A decoder that never fails and reads every text as an empty result. -/
def plainDecoder : Decoder where
  searchResult := fun _ => .ok { Object := "list", Results := [], HasMore := false, NextCursor := "" }
  workspaceInfo := fun _ => .ok []

/-- A provider that creates and updates pages, answering with the page
`page-1`, and fails every append with the text `m`. -/
def appendFailingClient (m : String) : NotionClient where
  searchDo := fun _ _ => .ok {}
  pageCreate := fun _ _ => .ok { Object := "page", ID := "page-1" }
  pageUpdate := fun _ _ _ => .ok { Object := "page", ID := "page-1" }
  blockAppendChildren := fun _ _ _ => .error m

/-- A provider that creates and updates pages, answering with the page
`page-1`, and accepts every append. -/
def pageClient : NotionClient where
  searchDo := fun _ _ => .ok {}
  pageCreate := fun _ _ => .ok { Object := "page", ID := "page-1" }
  pageUpdate := fun _ _ _ => .ok { Object := "page", ID := "page-1" }
  blockAppendChildren := fun _ _ _ => .ok { Object := "list" }

/-- Four search hits: a page, a database, a hit of another kind, a page. -/
def workspaceHits : List NObject :=
  [NObject.page { Object := "page", ID := "a" },
   NObject.database { Object := "database", ID := "d" },
   NObject.other "user",
   NObject.page { Object := "page", ID := "b" }]

/-- A provider that answers every search with the four hits. -/
def workspaceClient : NotionClient where
  searchDo := fun _ _ => .ok { Object := "list", Results := workspaceHits }
  pageCreate := fun _ _ => .ok {}
  pageUpdate := fun _ _ _ => .ok {}
  blockAppendChildren := fun _ _ _ => .ok {}

/-- The facade `NewNotionMCPSDKWithDefaults` builds from a token. -/
def defaultSDK : NotionMCPSDK := { server := defaultServer }

/-- A request as the HTTP binding decodes it, with the id 1. -/
def mkRequest (method : String) (params : GoVal) : Request :=
  { JSONRPC := "2.0", ID := GoVal.float64 1, Method := method, Params := params }

/-- A `tools/call` request as the HTTP binding decodes it. -/
def mkToolCall (name : String) (arguments : GoMap) : Request :=
  mkRequest "tools/call" (GoVal.map [("name", GoVal.str name), ("arguments", GoVal.map arguments)])

/-- What the dispatcher may return: a success envelope, or an error envelope
with one of the four codes it raises; nothing is said of a panic. -/
def Enveloped (req : Request) : Outcome Response → Prop
  | .panicked _ => True
  | .returned resp _ =>
    (∃ result, resp = resultResponse req result) ∨
    (∃ code message, resp = errorResponse req code message ∧
      (code = ErrCodeParseError ∨ code = ErrCodeMethodNotFound ∨
        code = ErrCodeInvalidParams ∨ code = ErrCodeInternalError))

/-! ## Theorems -/

theorem enveloped_result (req : Request) (result : ResultVal) (calls : List ProviderCall) :
    Enveloped req (.returned (resultResponse req result) calls) :=
  Or.inl ⟨result, rfl⟩

theorem enveloped_parseError (req : Request) (message : String) (calls : List ProviderCall) :
    Enveloped req (.returned (errorResponse req ErrCodeParseError message) calls) :=
  Or.inr ⟨_, _, rfl, Or.inl rfl⟩

theorem enveloped_methodNotFound (req : Request) (message : String)
    (calls : List ProviderCall) :
    Enveloped req (.returned (errorResponse req ErrCodeMethodNotFound message) calls) :=
  Or.inr ⟨_, _, rfl, Or.inr (Or.inl rfl)⟩

theorem enveloped_invalidParams (req : Request) (message : String)
    (calls : List ProviderCall) :
    Enveloped req (.returned (errorResponse req ErrCodeInvalidParams message) calls) :=
  Or.inr ⟨_, _, rfl, Or.inr (Or.inr (Or.inl rfl))⟩

theorem enveloped_internalError (req : Request) (message : String)
    (calls : List ProviderCall) :
    Enveloped req (.returned (errorResponse req ErrCodeInternalError message) calls) :=
  Or.inr ⟨_, _, rfl, Or.inr (Or.inr (Or.inr rfl))⟩

theorem handleToolsCall_enveloped (s : MCPServer) (client : NotionClient) (enc : Encoder)
    (req : Request) : Enveloped req (handleToolsCall s client enc req) := by
  unfold handleToolsCall
  split
  · exact enveloped_invalidParams _ _ _
  · exact enveloped_parseError _ _ _
  · split
    · exact enveloped_methodNotFound _ _ _
    · trivial
    · exact enveloped_internalError _ _ _
    · exact enveloped_result _ _ _

theorem handleResourcesRead_enveloped (client : NotionClient) (enc : Encoder)
    (req : Request) : Enveloped req (handleResourcesRead client enc req) := by
  unfold handleResourcesRead
  split
  · exact enveloped_invalidParams _ _ _
  · exact enveloped_parseError _ _ _
  · split
    · exact enveloped_invalidParams _ _ _
    · split
      · split
        · trivial
        · exact enveloped_internalError _ _ _
        · exact enveloped_result _ _ _
      · exact enveloped_methodNotFound _ _ _

theorem handleRequest_enveloped (s : MCPServer) (client : NotionClient) (enc : Encoder)
    (req : Request) : Enveloped req (HandleRequest s client enc req) := by
  unfold HandleRequest
  split
  · exact enveloped_result _ _ _
  · split
    · exact enveloped_result _ _ _
    · split
      · exact handleToolsCall_enveloped s client enc req
      · split
        · exact enveloped_result _ _ _
        · split
          · exact handleResourcesRead_enveloped client enc req
          · exact enveloped_methodNotFound _ _ _

theorem handleRequest_toolsCall (s : MCPServer) (client : NotionClient) (enc : Encoder)
    (req : Request) (hm : req.Method = "tools/call") :
    HandleRequest s client enc req = handleToolsCall s client enc req := by
  unfold HandleRequest
  simp [hm]

theorem handleRequest_resourcesRead (s : MCPServer) (client : NotionClient) (enc : Encoder)
    (req : Request) (hm : req.Method = "resources/read") :
    HandleRequest s client enc req = handleResourcesRead client enc req := by
  unfold HandleRequest
  simp [hm]

theorem toolsCall_handler_error (s : MCPServer) (client : NotionClient) (enc : Encoder)
    (req : Request) (toolCall : ToolCall) (err : String) (calls : List ProviderCall)
    (hm : req.Method = "tools/call")
    (hp : parseToolCallParams req.Params = .ok toolCall)
    (hd : dispatchTool s client enc toolCall = some (.returned (.error err) calls)) :
    HandleRequest s client enc req
      = .returned (errorResponse req ErrCodeInternalError err) calls := by
  rw [handleRequest_toolsCall s client enc req hm]
  unfold handleToolsCall
  rw [hp]
  simp only [hd]

theorem narrowCreatePageParams_missing (args : GoMap)
    (h : (lookup args "parentId").asString = none ∨ (lookup args "title").asString = none) :
    narrowCreatePageParams args = .error "parentId is required" ∨
      narrowCreatePageParams args = .error "title is required" := by
  unfold narrowCreatePageParams
  cases hparent : (lookup args "parentId").asString with
  | none => exact Or.inl rfl
  | some parentID =>
    cases htitle : (lookup args "title").asString with
    | none => exact Or.inr rfl
    | some title => simp [hparent, htitle] at h

theorem narrowUpdatePageParams_missing (args : GoMap)
    (h : (lookup args "pageId").asString = none) :
    narrowUpdatePageParams args = .error "pageId is required" := by
  unfold narrowUpdatePageParams
  rw [h]

theorem narrowAppendBlockParams_missing (args : GoMap)
    (h : (lookup args "pageId").asString = none ∨ (lookup args "content").asString = none) :
    narrowAppendBlockParams args = .error "pageId is required" ∨
      narrowAppendBlockParams args = .error "content is required" := by
  unfold narrowAppendBlockParams
  cases hpage : (lookup args "pageId").asString with
  | none => exact Or.inl rfl
  | some pageID =>
    cases hcontent : (lookup args "content").asString with
    | none => exact Or.inr rfl
    | some content => simp [hpage, hcontent] at h

/-- The three ways a required argument can be missing or mistyped, each with
the tool it concerns. -/
theorem dispatchTool_missing_required (s : MCPServer) (client : NotionClient) (enc : Encoder)
    (toolCall : ToolCall)
    (h : (toolCall.Name = "notion_create_page" ∧
          ((lookup toolCall.Arguments "parentId").asString = none ∨
            (lookup toolCall.Arguments "title").asString = none)) ∨
        (toolCall.Name = "notion_update_page" ∧
          (lookup toolCall.Arguments "pageId").asString = none) ∨
        (toolCall.Name = "notion_append_block" ∧
          ((lookup toolCall.Arguments "pageId").asString = none ∨
            (lookup toolCall.Arguments "content").asString = none))) :
    ∃ key, (key = "parentId" ∨ key = "title" ∨ key = "pageId" ∨ key = "content") ∧
      dispatchTool s client enc toolCall
        = some (.returned (.error (key ++ " is required")) []) := by
  rcases h with ⟨hn, h⟩ | ⟨hn, h⟩ | ⟨hn, h⟩
  · rcases narrowCreatePageParams_missing _ h with e | e
    · exact ⟨"parentId", by simp, by simp [dispatchTool, hn, handleNotionCreatePage, e]⟩
    · exact ⟨"title", by simp, by simp [dispatchTool, hn, handleNotionCreatePage, e]⟩
  · have e := narrowUpdatePageParams_missing _ h
    exact ⟨"pageId", by simp, by simp [dispatchTool, hn, handleNotionUpdatePage, e]⟩
  · rcases narrowAppendBlockParams_missing _ h with e | e
    · exact ⟨"pageId", by simp, by simp [dispatchTool, hn, handleNotionAppendBlock, e]⟩
    · exact ⟨"content", by simp, by simp [dispatchTool, hn, handleNotionAppendBlock, e]⟩

/-! ### C1: unknown method -/

/-- C1: for a request whose method is none of the five routed names,
`HandleRequest` returns, without any provider call, the envelope whose error
is `-32601` "Method not found" and whose result is absent. -/
theorem C1_unknown_method (s : MCPServer) (client : NotionClient) (enc : Encoder)
    (req : Request)
    (h1 : req.Method ≠ "initialize") (h2 : req.Method ≠ "tools/list")
    (h3 : req.Method ≠ "tools/call") (h4 : req.Method ≠ "resources/list")
    (h5 : req.Method ≠ "resources/read") :
    HandleRequest s client enc req
      = .returned
          { JSONRPC := "2.0", ID := req.ID, Result := none,
            Error := some { Code := -32601, Message := "Method not found" } } [] := by
  unfold HandleRequest
  simp [h1, h2, h3, h4, h5, errorResponse, ErrCodeMethodNotFound, ErrMsgMethodNotFound]

/-- C1 at the method `tools/delete`, on a provider that would fail if asked. -/
theorem C1_unknown_method_witness :
    HandleRequest defaultServer (failingClient "down") plainEncoder
        (mkRequest "tools/delete" GoVal.nil)
      = .returned
          { JSONRPC := "2.0", ID := GoVal.float64 1, Result := none,
            Error := some { Code := -32601, Message := "Method not found" } } [] :=
  C1_unknown_method defaultServer (failingClient "down") plainEncoder
    (mkRequest "tools/delete" GoVal.nil)
    (by decide) (by decide) (by decide) (by decide) (by decide)

/-! ### C2: totality -/

/-- C2 fails on the code: a create-page call whose icon map has no `url`
entry panics before any provider call, whatever the provider; and an
append-block call panics after its provider call when a returned block has no
creation time. -/
theorem C2_handleRequest_panics :
    (∀ (s : MCPServer) (client : NotionClient) (enc : Encoder),
      HandleRequest s client enc
          (mkToolCall "notion_create_page"
            [("parentId", GoVal.str "p"), ("title", GoVal.str "t"),
             ("icon", GoVal.map [("type", GoVal.str "emoji"), ("emoji", GoVal.str "🙂")])])
        = .panicked []) ∧
    HandleRequest defaultServer bareBlockClient plainEncoder
        (mkToolCall "notion_append_block"
          [("pageId", GoVal.str "p"), ("content", GoVal.str "hello")])
      = .panicked
          [ProviderCall.blockAppendChildren "p"
            { Children := [Block.paragraph [richTextOf "hello"]] }] :=
  ⟨fun _ _ _ => rfl, rfl⟩

/-! ### C3: envelope shape -/

/-- C3: every response `HandleRequest` returns, for every request and every
provider, has `JSONRPC` "2.0", the request's `ID`, and exactly one of `Result`
and `Error`. -/
theorem C3_envelope_shape (s : MCPServer) (client : NotionClient) (enc : Encoder)
    (req : Request) (resp : Response) (calls : List ProviderCall)
    (h : HandleRequest s client enc req = .returned resp calls) :
    resp.JSONRPC = "2.0" ∧ resp.ID = req.ID ∧
      ((resp.Result.isSome = true ∧ resp.Error.isNone = true) ∨
        (resp.Result.isNone = true ∧ resp.Error.isSome = true)) := by
  have he := handleRequest_enveloped s client enc req
  rw [h] at he
  rcases he with ⟨result, rfl⟩ | ⟨code, message, rfl, _⟩
  · exact ⟨rfl, rfl, Or.inl ⟨rfl, rfl⟩⟩
  · exact ⟨rfl, rfl, Or.inr ⟨rfl, rfl⟩⟩

/-- C3 at a `tools/list` request. -/
theorem C3_envelope_shape_witness :
    (handleToolsList defaultServer (mkRequest "tools/list" GoVal.nil)).JSONRPC = "2.0" ∧
      (handleToolsList defaultServer (mkRequest "tools/list" GoVal.nil)).ID = GoVal.float64 1 ∧
      (((handleToolsList defaultServer (mkRequest "tools/list" GoVal.nil)).Result.isSome = true ∧
          (handleToolsList defaultServer (mkRequest "tools/list" GoVal.nil)).Error.isNone = true) ∨
        ((handleToolsList defaultServer (mkRequest "tools/list" GoVal.nil)).Result.isNone = true ∧
          (handleToolsList defaultServer (mkRequest "tools/list" GoVal.nil)).Error.isSome = true)) :=
  C3_envelope_shape defaultServer quietClient plainEncoder (mkRequest "tools/list" GoVal.nil)
    (handleToolsList defaultServer (mkRequest "tools/list" GoVal.nil)) [] rfl

/-! ### C4: missing required argument, no provider call -/

/-- C4: a `tools/call` request whose call lacks a required string argument
(create-page without `parentId` or `title`, update-page without `pageId`,
append-block without `pageId` or `content`) returns an error envelope, and
no provider operation is invoked. -/
theorem C4_missing_required_no_provider_call (s : MCPServer) (client : NotionClient)
    (enc : Encoder) (req : Request) (toolCall : ToolCall)
    (hm : req.Method = "tools/call")
    (hp : parseToolCallParams req.Params = .ok toolCall)
    (h : (toolCall.Name = "notion_create_page" ∧
          ((lookup toolCall.Arguments "parentId").asString = none ∨
            (lookup toolCall.Arguments "title").asString = none)) ∨
        (toolCall.Name = "notion_update_page" ∧
          (lookup toolCall.Arguments "pageId").asString = none) ∨
        (toolCall.Name = "notion_append_block" ∧
          ((lookup toolCall.Arguments "pageId").asString = none ∨
            (lookup toolCall.Arguments "content").asString = none))) :
    ∃ resp, HandleRequest s client enc req = .returned resp [] ∧
      resp.Error.isSome = true ∧ resp.Result = none := by
  obtain ⟨key, _, hd⟩ := dispatchTool_missing_required s client enc toolCall h
  exact ⟨_, toolsCall_handler_error s client enc req toolCall _ [] hm hp hd, rfl, rfl⟩

/-- C4 at a create-page call without `title`. -/
theorem C4_missing_required_no_provider_call_witness :
    ∃ resp,
      HandleRequest defaultServer quietClient plainEncoder
          (mkToolCall "notion_create_page" [("parentId", GoVal.str "p")])
        = .returned resp [] ∧
      resp.Error.isSome = true ∧ resp.Result = none :=
  C4_missing_required_no_provider_call defaultServer quietClient plainEncoder
    (mkToolCall "notion_create_page" [("parentId", GoVal.str "p")])
    { Name := "notion_create_page", Arguments := [("parentId", GoVal.str "p")] }
    rfl rfl (Or.inl ⟨rfl, Or.inr rfl⟩)

/-! ### C5: the code of a missing required argument -/

/-- C5 as stated fails: a create-page call without `title` is answered with
the code `-32603`, which is not the invalid-params code. -/
theorem C5_missing_required_code_counterexample :
    HandleRequest defaultServer quietClient plainEncoder
        (mkToolCall "notion_create_page" [("parentId", GoVal.str "p")])
      = .returned
          { JSONRPC := "2.0", ID := GoVal.float64 1, Result := none,
            Error := some { Code := -32603, Message := "title is required" } } [] ∧
    (-32603 : Int) ≠ ErrCodeInvalidParams :=
  ⟨rfl, by decide⟩

/-- C5, amended: a `tools/call` request to a known tool whose call lacks a
required string argument is answered with the internal-error code `-32603`
and the message naming the first missing argument of that tool: `parentId`
before `title` for create-page, `pageId` for update-page, `pageId` before
`content` for append-block; no provider operation is invoked. -/
theorem C5_missing_required_internal_error (s : MCPServer) (client : NotionClient)
    (enc : Encoder) (req : Request) (toolCall : ToolCall)
    (hm : req.Method = "tools/call")
    (hp : parseToolCallParams req.Params = .ok toolCall) :
    (toolCall.Name = "notion_create_page" →
      (lookup toolCall.Arguments "parentId").asString = none →
      HandleRequest s client enc req
        = .returned
            { JSONRPC := "2.0", ID := req.ID, Result := none,
              Error := some { Code := -32603, Message := "parentId is required" } } []) ∧
    (toolCall.Name = "notion_create_page" →
      (lookup toolCall.Arguments "parentId").asString ≠ none →
      (lookup toolCall.Arguments "title").asString = none →
      HandleRequest s client enc req
        = .returned
            { JSONRPC := "2.0", ID := req.ID, Result := none,
              Error := some { Code := -32603, Message := "title is required" } } []) ∧
    (toolCall.Name = "notion_update_page" →
      (lookup toolCall.Arguments "pageId").asString = none →
      HandleRequest s client enc req
        = .returned
            { JSONRPC := "2.0", ID := req.ID, Result := none,
              Error := some { Code := -32603, Message := "pageId is required" } } []) ∧
    (toolCall.Name = "notion_append_block" →
      (lookup toolCall.Arguments "pageId").asString = none →
      HandleRequest s client enc req
        = .returned
            { JSONRPC := "2.0", ID := req.ID, Result := none,
              Error := some { Code := -32603, Message := "pageId is required" } } []) ∧
    (toolCall.Name = "notion_append_block" →
      (lookup toolCall.Arguments "pageId").asString ≠ none →
      (lookup toolCall.Arguments "content").asString = none →
      HandleRequest s client enc req
        = .returned
            { JSONRPC := "2.0", ID := req.ID, Result := none,
              Error := some { Code := -32603, Message := "content is required" } } []) := by
  refine ⟨?_, ?_, ?_, ?_, ?_⟩
  · intro hn h1
    apply toolsCall_handler_error s client enc req toolCall _ [] hm hp
    simp [dispatchTool, hn, handleNotionCreatePage, narrowCreatePageParams, h1]
  · intro hn h1 h2
    obtain ⟨parentID, h1⟩ := Option.ne_none_iff_exists'.mp h1
    apply toolsCall_handler_error s client enc req toolCall _ [] hm hp
    simp [dispatchTool, hn, handleNotionCreatePage, narrowCreatePageParams, h1, h2]
  · intro hn h1
    apply toolsCall_handler_error s client enc req toolCall _ [] hm hp
    simp [dispatchTool, hn, handleNotionUpdatePage, narrowUpdatePageParams, h1]
  · intro hn h1
    apply toolsCall_handler_error s client enc req toolCall _ [] hm hp
    simp [dispatchTool, hn, handleNotionAppendBlock, narrowAppendBlockParams, h1]
  · intro hn h1 h2
    obtain ⟨pageID, h1⟩ := Option.ne_none_iff_exists'.mp h1
    apply toolsCall_handler_error s client enc req toolCall _ [] hm hp
    simp [dispatchTool, hn, handleNotionAppendBlock, narrowAppendBlockParams, h1, h2]

/-- C5, amended, at an append-block call whose `content` is a number: the
message names `content`, the first argument that is not a string. -/
theorem C5_missing_required_internal_error_witness :
    HandleRequest defaultServer quietClient plainEncoder
        (mkToolCall "notion_append_block"
          [("pageId", GoVal.str "p"), ("content", GoVal.float64 7)])
      = .returned
          { JSONRPC := "2.0", ID := GoVal.float64 1, Result := none,
            Error := some { Code := -32603, Message := "content is required" } } [] :=
  (C5_missing_required_internal_error defaultServer quietClient plainEncoder
    (mkToolCall "notion_append_block" [("pageId", GoVal.str "p"), ("content", GoVal.float64 7)])
    { Name := "notion_append_block",
      Arguments := [("pageId", GoVal.str "p"), ("content", GoVal.float64 7)] }
    rfl rfl).2.2.2.2 rfl (by decide) rfl

/-! ### C6: absent and malformed params of `tools/call` -/

theorem parseToolCallParams_malformed (params : GoVal)
    (hn : params ≠ GoVal.nil) (ht : ∀ name arguments, params ≠ GoVal.toolCall name arguments)
    (hbad : ∀ j, marshal params = some j → unmarshalToolCall j = none) :
    parseToolCallParams params = .malformed := by
  cases params with
  | nil => exact absurd rfl hn
  | toolCall name arguments => exact absurd rfl (ht name arguments)
  | bool b =>
    simp only [parseToolCallParams]
    cases hj : marshal (GoVal.bool b) with
    | none => rfl
    | some j => simp only [hbad j hj]
  | float64 x =>
    simp only [parseToolCallParams]
    cases hj : marshal (GoVal.float64 x) with
    | none => rfl
    | some j => simp only [hbad j hj]
  | str x =>
    simp only [parseToolCallParams]
    cases hj : marshal (GoVal.str x) with
    | none => rfl
    | some j => simp only [hbad j hj]
  | slice xs =>
    simp only [parseToolCallParams]
    cases hj : marshal (GoVal.slice xs) with
    | none => rfl
    | some j => simp only [hbad j hj]
  | map kvs =>
    simp only [parseToolCallParams]
    cases hj : marshal (GoVal.map kvs) with
    | none => rfl
    | some j => simp only [hbad j hj]
  | other json =>
    simp only [parseToolCallParams]
    cases hj : marshal (GoVal.other json) with
    | none => rfl
    | some j => simp only [hbad j hj]

/-- C6: on a `tools/call` request, absent params are answered with `-32602`;
params that are present, are not a `ToolCall` value and do not marshal, or
marshal to a document that does not decode into a `ToolCall` (a bare string
is one, a map whose `name` is a number another), are answered with `-32700`;
both envelopes are returned with no provider call, whatever the provider. -/
theorem C6_toolsCall_params (s : MCPServer) (client : NotionClient) (enc : Encoder)
    (req : Request) (hm : req.Method = "tools/call") :
    (req.Params = GoVal.nil →
      HandleRequest s client enc req
        = .returned
            { JSONRPC := "2.0", ID := req.ID, Result := none,
              Error := some { Code := -32602, Message := "Missing params" } } []) ∧
    (req.Params ≠ GoVal.nil →
      (∀ name arguments, req.Params ≠ GoVal.toolCall name arguments) →
      (∀ j, marshal req.Params = some j → unmarshalToolCall j = none) →
      HandleRequest s client enc req
        = .returned
            { JSONRPC := "2.0", ID := req.ID, Result := none,
              Error := some { Code := -32700, Message := "Parse error" } } []) ∧
    (∀ text, unmarshalToolCall (Json.str text) = none) ∧
    (∀ x rest, unmarshalToolCall (Json.obj (("name", Json.num x) :: rest)) = none) := by
  rw [handleRequest_toolsCall s client enc req hm]
  refine ⟨?_, ?_, fun _ => rfl, fun _ _ => rfl⟩
  · intro hnil
    unfold handleToolsCall
    rw [hnil]
    rfl
  · intro hn ht hbad
    unfold handleToolsCall
    rw [parseToolCallParams_malformed req.Params hn ht hbad]
    rfl

/-- C6 at absent params and at a bare string. -/
theorem C6_toolsCall_params_witness :
    HandleRequest defaultServer quietClient plainEncoder (mkRequest "tools/call" GoVal.nil)
      = .returned
          { JSONRPC := "2.0", ID := GoVal.float64 1, Result := none,
            Error := some { Code := -32602, Message := "Missing params" } } [] ∧
    HandleRequest defaultServer quietClient plainEncoder
        (mkRequest "tools/call" (GoVal.str "notion_search"))
      = .returned
          { JSONRPC := "2.0", ID := GoVal.float64 1, Result := none,
            Error := some { Code := -32700, Message := "Parse error" } } [] :=
  ⟨(C6_toolsCall_params defaultServer quietClient plainEncoder
      (mkRequest "tools/call" GoVal.nil) rfl).1 rfl,
   (C6_toolsCall_params defaultServer quietClient plainEncoder
      (mkRequest "tools/call" (GoVal.str "notion_search")) rfl).2.1
      (fun h => GoVal.noConfusion h) (fun _ _ h => GoVal.noConfusion h)
      (fun j hj => by
        have hj2 : j = Json.str "notion_search" := by
          have : marshal (GoVal.str "notion_search") = some (Json.str "notion_search") := by
            simp [marshal]
          rw [mkRequest] at hj
          simp only [this] at hj
          exact (Option.some.inj hj).symm
        rw [hj2]
        rfl)⟩

/-! ### C7: unknown tool -/

/-- C7: a `tools/call` request whose tool name `n` is none of the four tools
is answered with `-32601` and the message `Tool 'n' not found`, with no
provider call. -/
theorem C7_unknown_tool (s : MCPServer) (client : NotionClient) (enc : Encoder)
    (req : Request) (toolCall : ToolCall)
    (hm : req.Method = "tools/call")
    (hp : parseToolCallParams req.Params = .ok toolCall)
    (h1 : toolCall.Name ≠ "notion_search") (h2 : toolCall.Name ≠ "notion_create_page")
    (h3 : toolCall.Name ≠ "notion_update_page") (h4 : toolCall.Name ≠ "notion_append_block") :
    HandleRequest s client enc req
      = .returned
          { JSONRPC := "2.0", ID := req.ID, Result := none,
            Error := some
              { Code := -32601, Message := "Tool '" ++ toolCall.Name ++ "' not found" } }
          [] := by
  have hd : dispatchTool s client enc toolCall = none := by
    simp [dispatchTool, h1, h2, h3, h4]
  rw [handleRequest_toolsCall s client enc req hm]
  unfold handleToolsCall
  rw [hp]
  simp only [hd]
  rfl

/-- C7 at the tool name `notion_delete_page`. -/
theorem C7_unknown_tool_witness :
    HandleRequest defaultServer (failingClient "down") plainEncoder
        (mkToolCall "notion_delete_page" [("pageId", GoVal.str "p")])
      = .returned
          { JSONRPC := "2.0", ID := GoVal.float64 1, Result := none,
            Error := some
              { Code := -32601, Message := "Tool '" ++ "notion_delete_page" ++ "' not found" } }
          [] :=
  C7_unknown_tool defaultServer (failingClient "down") plainEncoder
    (mkToolCall "notion_delete_page" [("pageId", GoVal.str "p")])
    { Name := "notion_delete_page", Arguments := [("pageId", GoVal.str "p")] }
    rfl rfl (by decide) (by decide) (by decide) (by decide)

/-! ### C8: handler errors -/

/-- C8: on a `tools/call` request to a known tool, a handler error `e` is
answered with `-32603` and the message `e`; when the handler's provider call
(search, create, update, append) fails with the text `m`, that message is the
handler's prefix followed by `m`. -/
theorem C8_handler_error_internal (s : MCPServer) (client : NotionClient) (enc : Encoder)
    (req : Request) (toolCall : ToolCall)
    (hm : req.Method = "tools/call")
    (hp : parseToolCallParams req.Params = .ok toolCall) :
    (∀ e calls, dispatchTool s client enc toolCall = some (.returned (.error e) calls) →
      HandleRequest s client enc req
        = .returned
            { JSONRPC := "2.0", ID := req.ID, Result := none,
              Error := some { Code := -32603, Message := e } } calls) ∧
    (∀ m, toolCall.Name = "notion_search" →
      client.searchDo []
          (buildSearchRequest (narrowSearchParams s.config toolCall.Arguments)) = .error m →
      HandleRequest s client enc req
        = .returned
            { JSONRPC := "2.0", ID := req.ID, Result := none,
              Error := some { Code := -32603, Message := "failed to search Notion: " ++ m } }
            [ProviderCall.searchDo
              (buildSearchRequest (narrowSearchParams s.config toolCall.Arguments))]) ∧
    (∀ m params, toolCall.Name = "notion_create_page" →
      narrowCreatePageParams toolCall.Arguments = .ok params →
      client.pageCreate [] (buildCreateRequest params) = .error m →
      HandleRequest s client enc req
        = .returned
            { JSONRPC := "2.0", ID := req.ID, Result := none,
              Error := some
                { Code := -32603, Message := "failed to create Notion page: " ++ m } }
            [ProviderCall.pageCreate (buildCreateRequest params)]) ∧
    (∀ m params, toolCall.Name = "notion_update_page" →
      narrowUpdatePageParams toolCall.Arguments = .ok params →
      client.pageUpdate [] params.PageID (buildUpdateRequest params) = .error m →
      HandleRequest s client enc req
        = .returned
            { JSONRPC := "2.0", ID := req.ID, Result := none,
              Error := some
                { Code := -32603, Message := "failed to update Notion page: " ++ m } }
            [ProviderCall.pageUpdate params.PageID (buildUpdateRequest params)]) ∧
    (∀ m params, toolCall.Name = "notion_append_block" →
      narrowAppendBlockParams toolCall.Arguments = .ok params →
      client.blockAppendChildren [] params.PageID
          { Children := parseContentToBlocksWithType params.Content params.BlockType }
        = .error m →
      HandleRequest s client enc req
        = .returned
            { JSONRPC := "2.0", ID := req.ID, Result := none,
              Error := some { Code := -32603, Message := "failed to append blocks: " ++ m } }
            [ProviderCall.blockAppendChildren params.PageID
              { Children := parseContentToBlocksWithType params.Content params.BlockType }]) := by
  refine ⟨?_, ?_, ?_, ?_, ?_⟩
  · intro e calls hd
    exact toolsCall_handler_error s client enc req toolCall e calls hm hp hd
  · intro m hn hc
    apply toolsCall_handler_error s client enc req toolCall _ _ hm hp
    simp [dispatchTool, hn, handleNotionSearch, hc]
  · intro m params hn hnarrow hc
    apply toolsCall_handler_error s client enc req toolCall _ _ hm hp
    simp [dispatchTool, hn, handleNotionCreatePage, hnarrow, hc]
  · intro m params hn hnarrow hc
    apply toolsCall_handler_error s client enc req toolCall _ _ hm hp
    simp [dispatchTool, hn, handleNotionUpdatePage, hnarrow, hc]
  · intro m params hn hnarrow hc
    apply toolsCall_handler_error s client enc req toolCall _ _ hm hp
    simp [dispatchTool, hn, handleNotionAppendBlock, hnarrow, hc]

/-- C8 at a search on a provider that fails with `rate limited`. -/
theorem C8_handler_error_internal_witness :
    HandleRequest defaultServer (failingClient "rate limited") plainEncoder
        (mkToolCall "notion_search" [("query", GoVal.str "notes")])
      = .returned
          { JSONRPC := "2.0", ID := GoVal.float64 1, Result := none,
            Error := some
              { Code := -32603, Message := "failed to search Notion: " ++ "rate limited" } }
          [ProviderCall.searchDo
            (buildSearchRequest
              (narrowSearchParams defaultServer.config [("query", GoVal.str "notes")]))] :=
  (C8_handler_error_internal defaultServer (failingClient "rate limited") plainEncoder
    (mkToolCall "notion_search" [("query", GoVal.str "notes")])
    { Name := "notion_search", Arguments := [("query", GoVal.str "notes")] }
    rfl rfl).2.1 "rate limited" rfl rfl

/-! ### C9: `resources/read` without a usable `uri` -/

/-- C9: on a `resources/read` request, absent params, and params read as a
map whose `uri` entry is missing or not a string, are answered with `-32602`
and no provider call. -/
theorem C9_resourcesRead_invalid_params (s : MCPServer) (client : NotionClient)
    (enc : Encoder) (req : Request) (hm : req.Method = "resources/read") :
    (req.Params = GoVal.nil →
      HandleRequest s client enc req
        = .returned
            { JSONRPC := "2.0", ID := req.ID, Result := none,
              Error := some { Code := -32602, Message := "Missing params" } } []) ∧
    (∀ params, parseMapParams req.Params = .ok params →
      (lookup params "uri").asString = none →
      HandleRequest s client enc req
        = .returned
            { JSONRPC := "2.0", ID := req.ID, Result := none,
              Error := some
                { Code := -32602, Message := "Invalid params: uri is required" } } []) ∧
    (∀ kvs, req.Params = GoVal.map kvs → parseMapParams req.Params = .ok kvs) := by
  rw [handleRequest_resourcesRead s client enc req hm]
  refine ⟨?_, ?_, ?_⟩
  · intro hnil
    unfold handleResourcesRead
    rw [hnil]
    rfl
  · intro params hp hu
    unfold handleResourcesRead
    rw [hp]
    simp only [hu]
    rfl
  · intro kvs hk
    rw [hk]
    rfl

/-- C9 at absent params and at a map whose `uri` is a number. -/
theorem C9_resourcesRead_invalid_params_witness :
    HandleRequest defaultServer (failingClient "down") plainEncoder
        (mkRequest "resources/read" GoVal.nil)
      = .returned
          { JSONRPC := "2.0", ID := GoVal.float64 1, Result := none,
            Error := some { Code := -32602, Message := "Missing params" } } [] ∧
    HandleRequest defaultServer (failingClient "down") plainEncoder
        (mkRequest "resources/read" (GoVal.map [("uri", GoVal.float64 5)]))
      = .returned
          { JSONRPC := "2.0", ID := GoVal.float64 1, Result := none,
            Error := some
              { Code := -32602, Message := "Invalid params: uri is required" } } [] :=
  ⟨(C9_resourcesRead_invalid_params defaultServer (failingClient "down") plainEncoder
      (mkRequest "resources/read" GoVal.nil) rfl).1 rfl,
   (C9_resourcesRead_invalid_params defaultServer (failingClient "down") plainEncoder
      (mkRequest "resources/read" (GoVal.map [("uri", GoVal.float64 5)])) rfl).2.1
      [("uri", GoVal.float64 5)] rfl rfl⟩

/-! ### C10: error codes in use -/

/-- C10: the error of every response `HandleRequest` returns carries one of
the first five codes, and none of the reserved codes `-32000`, `-32001`,
`-32002`. -/
theorem C10_error_codes (s : MCPServer) (client : NotionClient) (enc : Encoder)
    (req : Request) (resp : Response) (calls : List ProviderCall) (e : Error)
    (h : HandleRequest s client enc req = .returned resp calls)
    (he : resp.Error = some e) :
    (e.Code = ErrCodeParseError ∨ e.Code = ErrCodeInvalidRequest ∨
      e.Code = ErrCodeMethodNotFound ∨ e.Code = ErrCodeInvalidParams ∨
      e.Code = ErrCodeInternalError) ∧
    e.Code ≠ ErrCodeNotionAPIError ∧ e.Code ≠ ErrCodeAuthError ∧
    e.Code ≠ ErrCodeRateLimitError := by
  have hen := handleRequest_enveloped s client enc req
  rw [h] at hen
  rcases hen with ⟨result, rfl⟩ | ⟨code, message, rfl, hc⟩
  · simp [resultResponse] at he
  · simp only [errorResponse, Option.some.injEq] at he
    subst he
    rcases hc with hc | hc | hc | hc <;>
      simp [hc, ErrCodeParseError, ErrCodeInvalidRequest, ErrCodeMethodNotFound,
        ErrCodeInvalidParams, ErrCodeInternalError, ErrCodeNotionAPIError, ErrCodeAuthError,
        ErrCodeRateLimitError]

/-- C10 at a search on a failing provider: the code is `-32603`. -/
theorem C10_error_codes_witness :
    ((-32603 : Int) = ErrCodeParseError ∨ (-32603 : Int) = ErrCodeInvalidRequest ∨
      (-32603 : Int) = ErrCodeMethodNotFound ∨ (-32603 : Int) = ErrCodeInvalidParams ∨
      (-32603 : Int) = ErrCodeInternalError) ∧
    (-32603 : Int) ≠ ErrCodeNotionAPIError ∧ (-32603 : Int) ≠ ErrCodeAuthError ∧
    (-32603 : Int) ≠ ErrCodeRateLimitError :=
  C10_error_codes defaultServer (failingClient "down") plainEncoder
    (mkToolCall "notion_search" [])
    (errorResponse (mkToolCall "notion_search" []) ErrCodeInternalError
      ("failed to search Notion: " ++ "down"))
    [ProviderCall.searchDo (buildSearchRequest (narrowSearchParams defaultServer.config []))]
    { Code := -32603, Message := "failed to search Notion: " ++ "down" }
    rfl rfl

/-! ### The markdown converter: strings, lines, single steps -/

theorem trimRightBy_cons_of_neg (p : Char → Bool) (c : Char) (cs : List Char)
    (h : p c = false) : trimRightBy p (c :: cs) = c :: trimRightBy p cs := by
  simp only [trimRightBy]
  cases trimRightBy p cs with
  | nil => simp [h]
  | cons d ds => rfl

theorem trimRightBy_cons_of_ne_nil (p : Char → Bool) (c : Char) (cs : List Char)
    (h : trimRightBy p cs ≠ []) : trimRightBy p (c :: cs) = c :: trimRightBy p cs := by
  simp only [trimRightBy]
  cases hcs : trimRightBy p cs with
  | nil => exact absurd hcs h
  | cons d ds => rfl

theorem trimRightBy_append_of_ne_nil (p : Char → Bool) (a b : List Char)
    (h : trimRightBy p b ≠ []) : trimRightBy p (a ++ b) = a ++ trimRightBy p b := by
  induction a with
  | nil => rfl
  | cons c cs ih =>
    have hne : trimRightBy p (cs ++ b) ≠ [] := by
      rw [ih]
      cases cs <;> simp [h]
    rw [List.cons_append, trimRightBy_cons_of_ne_nil p c (cs ++ b) hne, ih, List.cons_append]

theorem trimRightBy_eq_self (p : Char → Bool) (l : List Char)
    (h : ∀ c, l.getLast? = some c → p c = false) : trimRightBy p l = l := by
  induction l with
  | nil => rfl
  | cons c cs ih =>
    cases cs with
    | nil =>
      have hc : p c = false := h c rfl
      simp [trimRightBy, hc]
    | cons d ds =>
      have ih2 := ih (by
        intro x hx
        apply h x
        simpa [List.getLast?_cons_cons] using hx)
      simp only [trimRightBy] at ih2 ⊢
      rw [ih2]

theorem trimRightBy_trimRightBy (p q : Char → Bool) (hqp : ∀ c, q c = true → p c = true)
    (l : List Char) : trimRightBy p (trimRightBy q l) = trimRightBy p l := by
  induction l with
  | nil => rfl
  | cons c cs ih =>
    cases hq : trimRightBy q cs with
    | nil =>
      rw [hq] at ih
      have hp : trimRightBy p cs = [] := by rw [← ih]; rfl
      by_cases hc : q c = true
      · simp [trimRightBy, hq, hp, hc, hqp c hc]
      · simp [trimRightBy, hq, hp, hc]
    | cons d ds =>
      rw [hq] at ih
      have e1 : trimRightBy q (c :: cs) = c :: d :: ds := by simp [trimRightBy, hq]
      rw [e1]
      show (match trimRightBy p (d :: ds) with
        | [] => if p c then [] else [c]
        | x :: xs => c :: x :: xs) = _
      rw [ih]
      rfl

theorem mem_trimRightBy (p : Char → Bool) (l : List Char) (c : Char) (hc : c ∈ l)
    (hp : p c = false) : c ∈ trimRightBy p l := by
  induction l with
  | nil => cases hc
  | cons x xs ih =>
    rcases List.mem_cons.mp hc with rfl | hx
    · rw [trimRightBy_cons_of_neg p c xs hp]
      exact List.mem_cons_self _ _
    · have hm := ih hx
      have hne : trimRightBy p xs ≠ [] := List.ne_nil_of_mem hm
      rw [trimRightBy_cons_of_ne_nil p x xs hne]
      exact List.mem_cons_of_mem _ hm

theorem trimRightBy_initial (p : Char → Bool) (l : List Char) : trimRightBy p l <+: l := by
  induction l with
  | nil => exact List.prefix_refl _
  | cons c cs ih =>
    simp only [trimRightBy]
    cases hcs : trimRightBy p cs with
    | nil =>
      by_cases hc : p c = true
      · simp [hc]
      · simp [hc]
    | cons d ds =>
      rw [hcs] at ih
      simpa using ih

theorem mem_of_mem_trimRightBy (p : Char → Bool) (l : List Char) (c : Char)
    (hc : c ∈ trimRightBy p l) : c ∈ l :=
  (trimRightBy_initial p l).subset hc

theorem trimRightBy_eq_nil (p : Char → Bool) (l : List Char) (h : ∀ c ∈ l, p c = true) :
    trimRightBy p l = [] := by
  induction l with
  | nil => rfl
  | cons c cs ih =>
    have := ih (fun x hx => h x (List.mem_cons_of_mem _ hx))
    simp [trimRightBy, this, h c (List.mem_cons_self _ _)]

theorem isSpace_of_isCR (c : Char) (h : isCR c = true) : isSpace c = true := by
  have hc : c = CR := by simpa [isCR] using h
  rw [hc]
  decide

theorem TrimSpace_TrimRightCR (l : List Char) : TrimSpace (TrimRightCR l) = TrimSpace l := by
  unfold TrimSpace TrimRightCR
  rw [trimRightBy_trimRightBy isSpace isCR isSpace_of_isCR l]

theorem mem_dropWhile_of_neg (p : Char → Bool) (l : List Char) (c : Char) (hc : c ∈ l)
    (hp : p c = false) : c ∈ l.dropWhile p := by
  induction l with
  | nil => cases hc
  | cons x xs ih =>
    by_cases hx : p x = true
    · rw [List.dropWhile_cons_of_pos hx]
      rcases List.mem_cons.mp hc with rfl | h
      · rw [hp] at hx
        cases hx
      · exact ih h
    · rw [List.dropWhile_cons_of_neg hx]
      exact hc

theorem TrimSpace_ne_nil (l : List Char) (c : Char) (hc : c ∈ l) (hp : isSpace c = false) :
    TrimSpace l ≠ [] := by
  unfold TrimSpace
  exact List.ne_nil_of_mem
    (mem_dropWhile_of_neg isSpace _ c (mem_trimRightBy isSpace l c hc hp) hp)

theorem TrimSpace_eq_nil (l : List Char) (h : ∀ c ∈ l, isSpace c = true) : TrimSpace l = [] := by
  unfold TrimSpace
  rw [trimRightBy_eq_nil isSpace l h]
  rfl

theorem exists_nonspace_of_TrimSpace_ne_nil (l : List Char) (h : TrimSpace l ≠ []) :
    ∃ c ∈ l, isSpace c = false := by
  by_contra hcon
  apply h
  apply TrimSpace_eq_nil
  intro c hc
  by_contra hs
  exact hcon ⟨c, hc, by simpa using hs⟩

theorem Split_of_no_LF (l : List Char) (h : LF ∉ l) : Split l = [l] := by
  induction l with
  | nil => rfl
  | cons c cs ih =>
    have hc : c ≠ LF := fun e => h (e ▸ List.mem_cons_self _ _)
    have hcs : LF ∉ cs := fun e => h (List.mem_cons_of_mem _ e)
    simp [Split, hc, ih hcs]

theorem Split_append_LF (l rest : List Char) (h : LF ∉ l) :
    Split (l ++ LF :: rest) = l :: Split rest := by
  induction l with
  | nil => simp [Split]
  | cons c cs ih =>
    have hc : c ≠ LF := fun e => h (e ▸ List.mem_cons_self _ _)
    have hcs : LF ∉ cs := fun e => h (List.mem_cons_of_mem _ e)
    simp [Split, hc, ih hcs]

theorem Split_Join (lines : List (List Char)) (hne : lines ≠ [])
    (h : ∀ l ∈ lines, LF ∉ l) : Split (Join lines) = lines := by
  induction lines with
  | nil => exact absurd rfl hne
  | cons l ls ih =>
    cases ls with
    | nil => exact Split_of_no_LF l (h l (List.mem_cons_self _ _))
    | cons m ms =>
      have e : Join (l :: m :: ms) = l ++ LF :: Join (m :: ms) := rfl
      rw [e, Split_append_LF l _ (h l (List.mem_cons_self _ _)),
        ih (by simp) (fun x hx => h x (List.mem_cons_of_mem _ hx))]

theorem processLines_append (st : MdState) (xs ys : List (List Char)) :
    processLines st (xs ++ ys) = processLines (processLines st xs) ys := by
  simp [processLines, List.foldl_append]

theorem processLines_cons (st : MdState) (x : List Char) (xs : List (List Char)) :
    processLines st (x :: xs) = processLines (processLine st x) xs := rfl

theorem processLines_nil (st : MdState) : processLines st [] = st := rfl

theorem processTrimmedLine_heading1 (st : MdState) (t : List Char)
    (hc : st.inCodeBlock = false) :
    processTrimmedLine st ("# ".data ++ t)
      = emitBlock st (createHeading1 (String.mk (TrimSpace t))) := by
  simp [processTrimmedLine, HasPrefix, TrimPrefix, hc]

theorem processTrimmedLine_heading2 (st : MdState) (t : List Char)
    (hc : st.inCodeBlock = false) :
    processTrimmedLine st ("## ".data ++ t)
      = emitBlock st (createHeading2 (String.mk (TrimSpace t))) := by
  simp [processTrimmedLine, HasPrefix, TrimPrefix, hc]

theorem processTrimmedLine_heading3 (st : MdState) (t : List Char)
    (hc : st.inCodeBlock = false) :
    processTrimmedLine st ("### ".data ++ t)
      = emitBlock st (createHeading3 (String.mk (TrimSpace t))) := by
  simp [processTrimmedLine, HasPrefix, TrimPrefix, hc]

theorem processTrimmedLine_dash (st : MdState) (a : List Char)
    (hc : st.inCodeBlock = false) :
    processTrimmedLine st ("- ".data ++ a)
      = emitBlock st
          (createBulletedListItem (String.mk (TrimSpace (TrimPrefix a "* ".data)))) := by
  simp [processTrimmedLine, HasPrefix, TrimPrefix, hc]

theorem processTrimmedLine_star (st : MdState) (a : List Char)
    (hc : st.inCodeBlock = false) :
    processTrimmedLine st ("* ".data ++ a)
      = emitBlock st (createBulletedListItem (String.mk (TrimSpace a))) := by
  simp [processTrimmedLine, HasPrefix, TrimPrefix, hc]

theorem TrimRightCR_marker_append (m t : List Char) (hne : m ≠ [])
    (hm : ∀ c ∈ m, isCR c = false) : TrimRightCR (m ++ t) = m ++ TrimRightCR t := by
  unfold TrimRightCR
  induction m with
  | nil => exact absurd rfl hne
  | cons c cs ih =>
    rw [List.cons_append, trimRightBy_cons_of_neg isCR c _ (hm c (List.mem_cons_self _ _))]
    cases cs with
    | nil => rfl
    | cons d ds =>
      rw [ih (by simp) (fun x hx => hm x (List.mem_cons_of_mem _ hx))]
      rfl

theorem TrimRightCR_eq_self (l : List Char) (h : l.getLast? ≠ some CR) : TrimRightCR l = l := by
  apply trimRightBy_eq_self
  intro c hc
  by_contra hcr
  apply h
  have : c = CR := by simpa [isCR] using hcr
  rw [hc, this]

theorem flushParagraph_of_nil (st : MdState) (h : st.currentParagraph = []) :
    flushParagraph st = st := by
  simp [flushParagraph, h]

theorem emitBlock_of_nil (st : MdState) (block : Block) (h : st.currentParagraph = []) :
    emitBlock st block = { st with blocks := st.blocks ++ [block] } := by
  simp [emitBlock, flushParagraph_of_nil st h]

theorem processLine_heading1 (st : MdState) (t : List Char) (hc : st.inCodeBlock = false) :
    processLine st ("# ".data ++ t)
      = emitBlock st (createHeading1 (String.mk (TrimSpace t))) := by
  unfold processLine
  rw [TrimRightCR_marker_append _ _ (by decide) (by decide),
    processTrimmedLine_heading1 st _ hc, TrimSpace_TrimRightCR]

theorem processLine_heading2 (st : MdState) (t : List Char) (hc : st.inCodeBlock = false) :
    processLine st ("## ".data ++ t)
      = emitBlock st (createHeading2 (String.mk (TrimSpace t))) := by
  unfold processLine
  rw [TrimRightCR_marker_append _ _ (by decide) (by decide),
    processTrimmedLine_heading2 st _ hc, TrimSpace_TrimRightCR]

theorem processLine_heading3 (st : MdState) (t : List Char) (hc : st.inCodeBlock = false) :
    processLine st ("### ".data ++ t)
      = emitBlock st (createHeading3 (String.mk (TrimSpace t))) := by
  unfold processLine
  rw [TrimRightCR_marker_append _ _ (by decide) (by decide),
    processTrimmedLine_heading3 st _ hc, TrimSpace_TrimRightCR]

theorem processLine_star (st : MdState) (a : List Char) (hc : st.inCodeBlock = false) :
    processLine st ("* ".data ++ a)
      = emitBlock st (createBulletedListItem (String.mk (TrimSpace a))) := by
  unfold processLine
  rw [TrimRightCR_marker_append _ _ (by decide) (by decide),
    processTrimmedLine_star st _ hc, TrimSpace_TrimRightCR]

theorem HasPrefix_of_TrimRightCR (l m : List Char) (h : HasPrefix (TrimRightCR l) m = true) :
    HasPrefix l m = true := by
  unfold HasPrefix at *
  rw [List.isPrefixOf_iff_prefix] at *
  exact h.trans (trimRightBy_initial isCR l)

theorem TrimPrefix_of_not_HasPrefix (l m : List Char) (h : HasPrefix l m = false) :
    TrimPrefix l m = l := by
  unfold HasPrefix at h
  simp [TrimPrefix, h]

theorem processLine_dash (st : MdState) (a : List Char) (hc : st.inCodeBlock = false)
    (ha : HasPrefix a "* ".data = false) :
    processLine st ("- ".data ++ a)
      = emitBlock st (createBulletedListItem (String.mk (TrimSpace a))) := by
  unfold processLine
  have h2 : HasPrefix (TrimRightCR a) "* ".data = false := by
    by_contra hcon
    have := HasPrefix_of_TrimRightCR a _ (by simpa using hcon)
    rw [ha] at this
    cases this
  rw [TrimRightCR_marker_append _ _ (by decide) (by decide),
    processTrimmedLine_dash st _ hc, TrimPrefix_of_not_HasPrefix _ _ h2, TrimSpace_TrimRightCR]

theorem dropWhile_isDigit_append (ds rest : List Char) (hds : ∀ c ∈ ds, c.isDigit = true)
    (hrest : ∀ c, rest.head? = some c → c.isDigit = false) :
    (ds ++ rest).dropWhile Char.isDigit = rest := by
  induction ds with
  | nil =>
    cases rest with
    | nil => rfl
    | cons r rs =>
      have := hrest r rfl
      simp [List.dropWhile_cons, this]
  | cons d ds ih =>
    have hd := hds d (List.mem_cons_self _ _)
    simp only [List.cons_append, List.dropWhile_cons, hd, if_true]
    exact ih (fun c hc => hds c (List.mem_cons_of_mem _ hc))

theorem numberedRest_digits (d : Char) (ds t : List Char) (hd : d.isDigit = true)
    (hds : ∀ c ∈ ds, c.isDigit = true) :
    numberedRest (d :: ds ++ ". ".data ++ t) = some t := by
  have e : d :: ds ++ ". ".data ++ t = d :: (ds ++ ('.' :: ' ' :: t)) := by simp
  rw [e]
  simp only [numberedRest, hd, if_true]
  rw [dropWhile_isDigit_append ds _ hds (by
    intro c hc
    simp at hc
    rw [← hc]
    decide)]
  rfl

theorem digit_toNat (d : Char) (hd : d.isDigit = true) : 48 ≤ d.toNat ∧ d.toNat ≤ 57 := by
  simp only [Char.isDigit, Bool.and_eq_true, decide_eq_true_eq] at hd
  exact ⟨hd.1, hd.2⟩

theorem digit_facts (d : Char) (hd : d.isDigit = true) :
    isCR d = false ∧ isSpace d = false ∧ d ≠ '#' ∧ d ≠ '-' ∧ d ≠ '*' ∧ d ≠ '>' ∧
      d ≠ Char.ofNat 96 := by
  refine ⟨?_, ?_, ?_, ?_, ?_, ?_, ?_⟩
  · by_contra h
    have : d = CR := by simpa [isCR] using h
    rw [this] at hd
    revert hd
    decide
  · have hb := digit_toNat d hd
    simp only [isSpace, Bool.or_eq_false_iff, Bool.and_eq_false_iff, beq_eq_false_iff_ne,
      decide_eq_false_iff_not]
    omega
  all_goals (intro h; rw [h] at hd; revert hd; decide)

theorem processTrimmedLine_numbered (st : MdState) (d : Char) (ds t : List Char)
    (hc : st.inCodeBlock = false) (hd : d.isDigit = true)
    (hds : ∀ c ∈ ds, c.isDigit = true) :
    processTrimmedLine st (d :: ds ++ ". ".data ++ t)
      = emitBlock st (createNumberedListItem (String.mk (TrimSpace t))) := by
  obtain ⟨_, _, h1, h2, h3, h4, h5⟩ := digit_facts d hd
  have hn := numberedRest_digits d ds t hd hds
  have e : d :: ds ++ ". ".data ++ t = d :: (ds ++ ". ".data ++ t) := by simp
  rw [e] at hn ⊢
  unfold processTrimmedLine
  rw [hn]
  have f1 : "```".data = [Char.ofNat 96, Char.ofNat 96, Char.ofNat 96] := by decide
  simp [HasPrefix, hc, f1, Ne.symm h1, Ne.symm h2, Ne.symm h3, Ne.symm h5]

theorem processLine_numbered (st : MdState) (d : Char) (ds t : List Char)
    (hc : st.inCodeBlock = false) (hd : d.isDigit = true)
    (hds : ∀ c ∈ ds, c.isDigit = true) :
    processLine st (d :: ds ++ ". ".data ++ t)
      = emitBlock st (createNumberedListItem (String.mk (TrimSpace t))) := by
  unfold processLine
  have hm : ∀ c ∈ d :: ds ++ ". ".data, isCR c = false := by
    intro c hcm
    simp only [List.cons_append, List.mem_cons, List.mem_append] at hcm
    rcases hcm with rfl | hcm | hcm
    · exact (digit_facts c hd).1
    · exact (digit_facts c (hds c hcm)).1
    · have : c = '.' ∨ c = ' ' := by simpa using hcm
      rcases this with rfl | rfl <;> decide
  rw [TrimRightCR_marker_append _ _ (by simp) hm, processTrimmedLine_numbered st d ds _ hc hd hds,
    TrimSpace_TrimRightCR]

theorem not_todo_of_not_dash (line : List Char) (h : HasPrefix line "- ".data = false) :
    HasPrefix line "- [ ] ".data = false ∧ HasPrefix line "- [x] ".data = false := by
  unfold HasPrefix at *
  constructor
  · by_contra hcon
    have hp : "- [ ] ".data <+: line := List.isPrefixOf_iff_prefix.mp (by simpa using hcon)
    have h2 : "- ".data <+: line := List.IsPrefix.trans (by decide) hp
    rw [List.isPrefixOf_iff_prefix.mpr h2] at h
    cases h
  · by_contra hcon
    have hp : "- [x] ".data <+: line := List.isPrefixOf_iff_prefix.mp (by simpa using hcon)
    have h2 : "- ".data <+: line := List.IsPrefix.trans (by decide) hp
    rw [List.isPrefixOf_iff_prefix.mpr h2] at h
    cases h

theorem processTrimmedLine_plain (st : MdState) (line : List Char)
    (hc : st.inCodeBlock = false) (hp : isPlainLine line = true) :
    processTrimmedLine st line
      = { st with currentParagraph := st.currentParagraph ++ [line] } := by
  simp only [isPlainLine, matchesMarker, isBlankLine, Bool.and_eq_true, Bool.not_eq_true',
    Bool.or_eq_false_iff] at hp
  obtain ⟨⟨⟨⟨⟨⟨⟨⟨⟨⟨f1, f2⟩, f3⟩, f4⟩, f5⟩, f6⟩, f7⟩, f8⟩, f9⟩, f10⟩, f11⟩ := hp
  obtain ⟨t1, t2⟩ := not_todo_of_not_dash line f5
  have hn : numberedRest line = none := by
    cases h : numberedRest line with
    | none => rfl
    | some x => simp [h] at f7
  unfold processTrimmedLine
  simp [f1, f2, f3, f4, f5, f6, hn, f8, f9, f10, f11, t1, t2, hc]

theorem processTrimmedLine_blank (st : MdState) (line : List Char)
    (hc : st.inCodeBlock = false) (hb : isBlankLine line = true)
    (hm : matchesMarker line = false) :
    processTrimmedLine st line = flushParagraph st := by
  simp only [matchesMarker, Bool.or_eq_false_iff] at hm
  obtain ⟨⟨⟨⟨⟨⟨⟨⟨⟨f1, f2⟩, f3⟩, f4⟩, f5⟩, f6⟩, f7⟩, f8⟩, f9⟩, f10⟩ := hm
  obtain ⟨t1, t2⟩ := not_todo_of_not_dash line f5
  have hn : numberedRest line = none := by
    cases h : numberedRest line with
    | none => rfl
    | some x => simp [h] at f7
  have hb2 : TrimSpace line = [] := by simpa [isBlankLine] using hb
  unfold processTrimmedLine
  simp [f1, f2, f3, f4, f5, f6, hn, f8, t1, t2, hc, hb2]

theorem processTrimmedLine_fence_open (st : MdState) (g : List Char)
    (hc : st.inCodeBlock = false) :
    processTrimmedLine st ("```".data ++ g)
      = { flushParagraph st with inCodeBlock := true, codeLanguage := TrimSpace g } := by
  simp [processTrimmedLine, HasPrefix, TrimPrefix, hc]

theorem processTrimmedLine_fence_close (st : MdState) (g : List Char)
    (hc : st.inCodeBlock = true) :
    processTrimmedLine st ("```".data ++ g)
      = { st with
          blocks :=
            if st.codeBlockContent.length > 0 then
              st.blocks ++
                [createCodeBlock (String.mk (Join st.codeBlockContent))
                  (String.mk st.codeLanguage)]
            else st.blocks
          inCodeBlock := false
          codeBlockContent := []
          codeLanguage := [] } := by
  simp [processTrimmedLine, HasPrefix, hc]

theorem processTrimmedLine_code (st : MdState) (line : List Char)
    (hc : st.inCodeBlock = true) (hf : HasPrefix line "```".data = false) :
    processTrimmedLine st line
      = { st with codeBlockContent := st.codeBlockContent ++ [line] } := by
  simp [processTrimmedLine, hf, hc]

theorem flushParagraph_idem (st : MdState) : flushParagraph (flushParagraph st) = flushParagraph st := by
  unfold flushParagraph
  split <;> simp_all

theorem flushParagraph_inCodeBlock (st : MdState) :
    (flushParagraph st).inCodeBlock = st.inCodeBlock := by
  unfold flushParagraph
  split <;> rfl

theorem emitBlock_flushParagraph (st : MdState) (b : Block) :
    emitBlock (flushParagraph st) b = emitBlock st b := by
  simp [emitBlock, flushParagraph_idem]

theorem flushParagraph_prependBlocks (earlier : List Block) (st : MdState) :
    flushParagraph (prependBlocks earlier st) = prependBlocks earlier (flushParagraph st) := by
  unfold flushParagraph prependBlocks
  split <;> simp_all

theorem emitBlock_prependBlocks (earlier : List Block) (st : MdState) (b : Block) :
    emitBlock (prependBlocks earlier st) b = prependBlocks earlier (emitBlock st b) := by
  unfold emitBlock
  rw [flushParagraph_prependBlocks]
  simp [prependBlocks]

theorem prependBlocks_inCodeBlock (earlier : List Block) (st : MdState) :
    (prependBlocks earlier st).inCodeBlock = st.inCodeBlock := rfl

theorem prependBlocks_currentParagraph (earlier : List Block) (st : MdState) :
    (prependBlocks earlier st).currentParagraph = st.currentParagraph := rfl

theorem prependBlocks_codeBlockContent (earlier : List Block) (st : MdState) :
    (prependBlocks earlier st).codeBlockContent = st.codeBlockContent := rfl

theorem prependBlocks_codeLanguage (earlier : List Block) (st : MdState) :
    (prependBlocks earlier st).codeLanguage = st.codeLanguage := rfl

theorem prependBlocks_blocks (earlier : List Block) (st : MdState) :
    (prependBlocks earlier st).blocks = earlier ++ st.blocks := rfl

theorem processTrimmedLine_eq (st : MdState) (line : List Char) :
    processTrimmedLine st line = applyEffect st line (lineEffect st.inCodeBlock line) := by
  unfold processTrimmedLine lineEffect
  by_cases h1 : HasPrefix line "```".data = true
  · rw [if_pos h1, if_pos h1]
    by_cases h2 : st.inCodeBlock = true
    · rw [if_pos h2, if_pos h2]; rfl
    · rw [if_neg h2, if_neg h2]; rfl
  rw [if_neg h1, if_neg h1]
  by_cases h2 : st.inCodeBlock = true
  · rw [if_pos h2, if_pos h2]; rfl
  rw [if_neg h2, if_neg h2]
  by_cases h3 : HasPrefix line "# ".data = true
  · rw [if_pos h3, if_pos h3]; rfl
  rw [if_neg h3, if_neg h3]
  by_cases h4 : HasPrefix line "## ".data = true
  · rw [if_pos h4, if_pos h4]; rfl
  rw [if_neg h4, if_neg h4]
  by_cases h5 : HasPrefix line "### ".data = true
  · rw [if_pos h5, if_pos h5]; rfl
  rw [if_neg h5, if_neg h5]
  by_cases h6 : (HasPrefix line "- ".data || HasPrefix line "* ".data) = true
  · rw [if_pos h6, if_pos h6]; rfl
  rw [if_neg h6, if_neg h6]
  cases hn : numberedRest line with
  | some content => rfl
  | none =>
    dsimp only
    by_cases h7 : HasPrefix line "> ".data = true
    · rw [if_pos h7, if_pos h7]; rfl
    rw [if_neg h7, if_neg h7]
    by_cases h8 : (TrimSpace line == "---".data || TrimSpace line == "***".data) = true
    · rw [if_pos h8, if_pos h8]; rfl
    rw [if_neg h8, if_neg h8]
    by_cases h9 : HasPrefix line "- [ ] ".data = true
    · rw [if_pos h9, if_pos h9]; rfl
    rw [if_neg h9, if_neg h9]
    by_cases h10 : HasPrefix line "- [x] ".data = true
    · rw [if_pos h10, if_pos h10]; rfl
    rw [if_neg h10, if_neg h10]
    by_cases h11 : (TrimSpace line == []) = true
    · rw [if_pos h11, if_pos h11]; rfl
    rw [if_neg h11, if_neg h11]
    rfl

/-! ### The markdown converter: frame and invariant lemmas -/

theorem applyEffect_prependBlocks (earlier : List Block) (st : MdState) (line : List Char)
    (eff : LineEffect) :
    applyEffect (prependBlocks earlier st) line eff
      = prependBlocks earlier (applyEffect st line eff) := by
  cases eff with
  | closeFence =>
    simp only [applyEffect, prependBlocks]
    split <;> simp
  | openFence language =>
    simp only [applyEffect, flushParagraph_prependBlocks]
    rfl
  | codeLine => rfl
  | emit block => exact emitBlock_prependBlocks earlier st block
  | flush => exact flushParagraph_prependBlocks earlier st
  | text => rfl

theorem processTrimmedLine_prependBlocks (earlier : List Block) (st : MdState)
    (line : List Char) :
    processTrimmedLine (prependBlocks earlier st) line
      = prependBlocks earlier (processTrimmedLine st line) := by
  rw [processTrimmedLine_eq, processTrimmedLine_eq, applyEffect_prependBlocks]
  rfl

theorem processLines_prependBlocks (earlier : List Block) (st : MdState)
    (lines : List (List Char)) :
    processLines (prependBlocks earlier st) lines
      = prependBlocks earlier (processLines st lines) := by
  induction lines generalizing st with
  | nil => rfl
  | cons l ls ih =>
    rw [processLines_cons, processLines_cons]
    unfold processLine
    rw [processTrimmedLine_prependBlocks, ih]

theorem finishBlocks_prependBlocks (earlier : List Block) (st : MdState) :
    finishBlocks (prependBlocks earlier st) = earlier ++ finishBlocks st := by
  unfold finishBlocks
  rw [flushParagraph_prependBlocks]
  rfl

theorem lineEffect_inside (line : List Char) :
    lineEffect true line = .closeFence ∨ lineEffect true line = .codeLine := by
  unfold lineEffect
  by_cases h1 : HasPrefix line "```".data = true
  · rw [if_pos h1]
    exact Or.inl rfl
  · rw [if_neg h1]
    exact Or.inr rfl

/-- The blocks a line can emit outside a fence: neither paragraphs nor
to-do blocks. -/
theorem lineEffect_outside (line : List Char) :
    (∃ language, lineEffect false line = .openFence language) ∨
    (∃ block, lineEffect false line = .emit block ∧ block.isToDo = false ∧
      block.isParagraph = false) ∨
    (lineEffect false line = .flush) ∨
    (lineEffect false line = .text ∧ isPlainLine line = true) := by
  unfold lineEffect
  by_cases h1 : HasPrefix line "```".data = true
  · rw [if_pos h1]
    exact Or.inl ⟨_, rfl⟩
  rw [if_neg h1]
  simp only [Bool.false_eq_true, if_false]
  by_cases h3 : HasPrefix line "# ".data = true
  · rw [if_pos h3]; exact Or.inr (Or.inl ⟨_, rfl, rfl, rfl⟩)
  rw [if_neg h3]
  by_cases h4 : HasPrefix line "## ".data = true
  · rw [if_pos h4]; exact Or.inr (Or.inl ⟨_, rfl, rfl, rfl⟩)
  rw [if_neg h4]
  by_cases h5 : HasPrefix line "### ".data = true
  · rw [if_pos h5]; exact Or.inr (Or.inl ⟨_, rfl, rfl, rfl⟩)
  rw [if_neg h5]
  by_cases h6 : (HasPrefix line "- ".data || HasPrefix line "* ".data) = true
  · rw [if_pos h6]; exact Or.inr (Or.inl ⟨_, rfl, rfl, rfl⟩)
  rw [if_neg h6]
  cases hn : numberedRest line with
  | some content => exact Or.inr (Or.inl ⟨_, rfl, rfl, rfl⟩)
  | none =>
    dsimp only
    by_cases h7 : HasPrefix line "> ".data = true
    · rw [if_pos h7]; exact Or.inr (Or.inl ⟨_, rfl, rfl, rfl⟩)
    rw [if_neg h7]
    by_cases h8 : (TrimSpace line == "---".data || TrimSpace line == "***".data) = true
    · rw [if_pos h8]; exact Or.inr (Or.inl ⟨_, rfl, rfl, rfl⟩)
    rw [if_neg h8]
    have h6' : HasPrefix line "- ".data = false ∧ HasPrefix line "* ".data = false := by
      simpa using h6
    obtain ⟨t1, t2⟩ := not_todo_of_not_dash line h6'.1
    rw [if_neg (by simp [t1]), if_neg (by simp [t2])]
    by_cases h11 : (TrimSpace line == []) = true
    · rw [if_pos h11]; exact Or.inr (Or.inr (Or.inl rfl))
    rw [if_neg h11]
    refine Or.inr (Or.inr (Or.inr ⟨rfl, ?_⟩))
    have h8' : (TrimSpace line == "---".data) = false ∧ (TrimSpace line == "***".data) = false := by
      simpa using h8
    simp only [isPlainLine, matchesMarker, isBlankLine, hn]
    simp only [Bool.not_eq_true] at h1 h3 h4 h5 h7 h11
    rw [h1, h3, h4, h5, h6'.1, h6'.2, h7, h8'.1, h8'.2, h11]
    rfl

theorem mem_Join (lines : List (List Char)) (l : List Char) (c : Char) (hl : l ∈ lines)
    (hc : c ∈ l) : c ∈ Join lines := by
  induction lines with
  | nil => cases hl
  | cons x xs ih =>
    cases xs with
    | nil =>
      have : l = x := by simpa using hl
      rw [this] at hc
      exact hc
    | cons y ys =>
      have e : Join (x :: y :: ys) = x ++ LF :: Join (y :: ys) := rfl
      rw [e]
      rcases List.mem_cons.mp hl with rfl | h
      · exact List.mem_append_left _ hc
      · exact List.mem_append_right _ (List.mem_cons_of_mem _ (ih h))

/-- The invariant scheme of the loop: a property of every block, kept by the
code blocks, by the paragraphs made of buffered lines and by the blocks a
marker line emits, with a property of the buffered lines kept by plain
lines. -/
theorem processTrimmedLine_inv (P : Block → Prop) (Q : List Char → Prop)
    (hcode : ∀ code language, P (createCodeBlock code language))
    (hpara : ∀ cp : List (List Char), cp ≠ [] → (∀ l ∈ cp, Q l) →
      P (createParagraph (String.mk (Join cp))))
    (hemit : ∀ b : Block, b.isToDo = false → b.isParagraph = false → P b)
    (htext : ∀ line, isPlainLine line = true → Q line)
    (st : MdState) (line : List Char)
    (hb : ∀ b ∈ st.blocks, P b) (hq : ∀ l ∈ st.currentParagraph, Q l) :
    (∀ b ∈ (processTrimmedLine st line).blocks, P b) ∧
      (∀ l ∈ (processTrimmedLine st line).currentParagraph, Q l) := by
  have hflush : (∀ b ∈ (flushParagraph st).blocks, P b) ∧
      (∀ l ∈ (flushParagraph st).currentParagraph, Q l) := by
    unfold flushParagraph
    split
    · rename_i hlen
      refine ⟨?_, by simp⟩
      intro b hbm
      simp only [List.mem_append, List.mem_singleton] at hbm
      rcases hbm with h | rfl
      · exact hb b h
      · exact hpara _ (by intro e; simp [e] at hlen) hq
    · exact ⟨hb, hq⟩
  rw [processTrimmedLine_eq]
  cases hic : st.inCodeBlock with
  | true =>
    rcases lineEffect_inside line with e | e <;> rw [e]
    · simp only [applyEffect]
      refine ⟨?_, hq⟩
      intro b hbm
      split at hbm
      · simp only [List.mem_append, List.mem_singleton] at hbm
        rcases hbm with h | rfl
        · exact hb b h
        · exact hcode _ _
      · exact hb b hbm
    · exact ⟨hb, hq⟩
  | false =>
    rcases lineEffect_outside line with ⟨lang, e⟩ | ⟨block, e, h1, h2⟩ | e | ⟨e, hp⟩ <;> rw [e]
    · exact hflush
    · simp only [applyEffect, emitBlock]
      refine ⟨?_, hflush.2⟩
      intro b hbm
      simp only [List.mem_append, List.mem_singleton] at hbm
      rcases hbm with h | rfl
      · exact hflush.1 b h
      · exact hemit _ h1 h2
    · exact hflush
    · simp only [applyEffect]
      refine ⟨hb, ?_⟩
      intro l hl
      simp only [List.mem_append, List.mem_singleton] at hl
      rcases hl with h | rfl
      · exact hq l h
      · exact htext _ hp

theorem MarkdownToBlocks_inv (P : Block → Prop) (Q : List Char → Prop)
    (hcode : ∀ code language, P (createCodeBlock code language))
    (hpara : ∀ cp : List (List Char), cp ≠ [] → (∀ l ∈ cp, Q l) →
      P (createParagraph (String.mk (Join cp))))
    (hemit : ∀ b : Block, b.isToDo = false → b.isParagraph = false → P b)
    (htext : ∀ line, isPlainLine line = true → Q line)
    (markdown : String) : ∀ b ∈ MarkdownToBlocks markdown, P b := by
  have hlines : ∀ (lines : List (List Char)) (st : MdState),
      (∀ b ∈ st.blocks, P b) → (∀ l ∈ st.currentParagraph, Q l) →
      (∀ b ∈ (processLines st lines).blocks, P b) ∧
        (∀ l ∈ (processLines st lines).currentParagraph, Q l) := by
    intro lines
    induction lines with
    | nil => exact fun st hb hq => ⟨hb, hq⟩
    | cons l ls ih =>
      intro st hb hq
      rw [processLines_cons]
      have h := processTrimmedLine_inv P Q hcode hpara hemit htext st (TrimRightCR l) hb hq
      exact ih _ h.1 h.2
  unfold MarkdownToBlocks
  split
  · intro b hb
    cases hb
  · have h := hlines (Split markdown.data) {} (by intro b hb; cases hb) (by intro l hl; cases hl)
    intro b hbm
    unfold finishBlocks flushParagraph at hbm
    split at hbm
    · rename_i hlen
      simp only [List.mem_append, List.mem_singleton] at hbm
      rcases hbm with hm | rfl
      · exact h.1 b hm
      · exact hpara _ (by intro e; simp [e] at hlen) h.2
    · exact h.1 b hbm

/-! ### C11: the success path of the tools -/

theorem toolsCall_handler_ok (s : MCPServer) (client : NotionClient) (enc : Encoder)
    (req : Request) (toolCall : ToolCall) (result : ToolResult) (calls : List ProviderCall)
    (hm : req.Method = "tools/call")
    (hp : parseToolCallParams req.Params = .ok toolCall)
    (hd : dispatchTool s client enc toolCall = some (.returned (.ok result) calls)) :
    HandleRequest s client enc req
      = .returned (resultResponse req (ResultVal.toolResult result)) calls := by
  rw [handleRequest_toolsCall s client enc req hm]
  unfold handleToolsCall
  rw [hp]
  simp only [hd]

theorem finishPage_ok (client : NotionClient) (enc : Encoder) (content : String) (page : Page)
    (calls : List ProviderCall) (text : String)
    (he : enc.pageResult (convertToNotionPageResult page) = .ok text) :
    ∃ calls', finishPage client enc content page calls = .returned (.ok (textResult text)) calls' := by
  unfold finishPage
  simp only [he]
  exact ⟨_, rfl⟩

/-- The success path of the four tools away from the two panics: when the
narrowing of the arguments ends in typed parameters, the provider call
succeeds, the returned blocks convert, and the result encodes to `text`, the
response carries no error and the one text item `text`. -/
theorem toolsCall_success (s : MCPServer) (client : NotionClient) (enc : Encoder)
    (req : Request) (toolCall : ToolCall) (text : String)
    (hm : req.Method = "tools/call")
    (hp : parseToolCallParams req.Params = .ok toolCall) :
    (∀ searchResp, toolCall.Name = "notion_search" →
      client.searchDo []
          (buildSearchRequest (narrowSearchParams s.config toolCall.Arguments))
        = .ok searchResp →
      enc.searchResult
          { Object := searchResp.Object
            HasMore := searchResp.HasMore
            NextCursor := searchResp.NextCursor
            Results := searchResp.Results.map convertToNotionItem } = .ok text →
      ∃ calls, HandleRequest s client enc req
        = .returned
            { JSONRPC := "2.0", ID := req.ID, Error := none,
              Result := some (ResultVal.toolResult
                { Content := [{ Type_ := "text", Text := text }], IsError := false }) }
            calls) ∧
    (∀ params page, toolCall.Name = "notion_create_page" →
      narrowCreatePageParams toolCall.Arguments = .ok params →
      client.pageCreate [] (buildCreateRequest params) = .ok page →
      enc.pageResult (convertToNotionPageResult page) = .ok text →
      ∃ calls, HandleRequest s client enc req
        = .returned
            { JSONRPC := "2.0", ID := req.ID, Error := none,
              Result := some (ResultVal.toolResult
                { Content := [{ Type_ := "text", Text := text }], IsError := false }) }
            calls) ∧
    (∀ params page, toolCall.Name = "notion_update_page" →
      narrowUpdatePageParams toolCall.Arguments = .ok params →
      client.pageUpdate [] params.PageID (buildUpdateRequest params) = .ok page →
      enc.pageResult (convertToNotionPageResult page) = .ok text →
      ∃ calls, HandleRequest s client enc req
        = .returned
            { JSONRPC := "2.0", ID := req.ID, Error := none,
              Result := some (ResultVal.toolResult
                { Content := [{ Type_ := "text", Text := text }], IsError := false }) }
            calls) ∧
    (∀ params result items, toolCall.Name = "notion_append_block" →
      narrowAppendBlockParams toolCall.Arguments = .ok params →
      client.blockAppendChildren [] params.PageID
          { Children := parseContentToBlocksWithType params.Content params.BlockType }
        = .ok result →
      convertBlockItems result.Results = some items →
      enc.blockResult { Object := result.Object, Results := items } = .ok text →
      ∃ calls, HandleRequest s client enc req
        = .returned
            { JSONRPC := "2.0", ID := req.ID, Error := none,
              Result := some (ResultVal.toolResult
                { Content := [{ Type_ := "text", Text := text }], IsError := false }) }
            calls) := by
  refine ⟨?_, ?_, ?_, ?_⟩
  · intro searchResp hn hc he
    refine ⟨[ProviderCall.searchDo
        (buildSearchRequest (narrowSearchParams s.config toolCall.Arguments))],
      toolsCall_handler_ok s client enc req toolCall _ _ hm hp ?_⟩
    simp [dispatchTool, hn, handleNotionSearch, hc, he, textResult]
  · intro params page hn hnarrow hc he
    obtain ⟨calls, hf⟩ := finishPage_ok client enc params.Content page
      [ProviderCall.pageCreate (buildCreateRequest params)] text he
    refine ⟨calls, toolsCall_handler_ok s client enc req toolCall _ _ hm hp ?_⟩
    simp [dispatchTool, hn, handleNotionCreatePage, hnarrow, hc, hf, textResult]
  · intro params page hn hnarrow hc he
    obtain ⟨calls, hf⟩ := finishPage_ok client enc params.Content page
      [ProviderCall.pageUpdate params.PageID (buildUpdateRequest params)] text he
    refine ⟨calls, toolsCall_handler_ok s client enc req toolCall _ _ hm hp ?_⟩
    simp [dispatchTool, hn, handleNotionUpdatePage, hnarrow, hc, hf, textResult]
  · intro params result items hn hnarrow hc hconv he
    refine ⟨[ProviderCall.blockAppendChildren params.PageID
        { Children := parseContentToBlocksWithType params.Content params.BlockType }],
      toolsCall_handler_ok s client enc req toolCall _ _ hm hp ?_⟩
    simp [dispatchTool, hn, handleNotionAppendBlock, hnarrow, hc, hconv, he, textResult]

/-- C11 fails on the code: with both required arguments of create-page well
formed, a cover map that has no `type` entry makes the call panic before any
provider call, whatever the provider; and an append-block call on a provider
that succeeds with a block without timestamps panics after the call.  Neither
returns the success envelope the claim promises. -/
theorem C11_success_path_panics :
    (∀ (s : MCPServer) (client : NotionClient) (enc : Encoder),
      HandleRequest s client enc
          (mkToolCall "notion_create_page"
            [("parentId", GoVal.str "p"), ("title", GoVal.str "t"),
             ("cover", GoVal.map [("url", GoVal.str "https://example.com/cover.png")])])
        = .panicked []) ∧
    HandleRequest defaultServer bareBlockClient plainEncoder
        (mkToolCall "notion_append_block"
          [("pageId", GoVal.str "p"), ("content", GoVal.str "hello"),
           ("blockType", GoVal.str "quote")])
      = .panicked
          [ProviderCall.blockAppendChildren "p"
            { Children := [Block.quote [richTextOf "hello"]] }] :=
  ⟨fun _ _ _ => rfl, rfl⟩

/-! ### C12: heading, blank line, paragraph -/

theorem MarkdownToBlocks_of_lines (lines : List (List Char)) (hne : lines ≠ [])
    (hlf : ∀ l ∈ lines, LF ∉ l) (c : Char) (hc : c ∈ Join lines) (hs : isSpace c = false) :
    MarkdownToBlocks (String.mk (Join lines)) = finishBlocks (processLines {} lines) := by
  unfold MarkdownToBlocks
  have h : TrimSpace (Join lines) ≠ [] := TrimSpace_ne_nil _ c hc hs
  simp only [beq_iff_eq, h, if_false]
  rw [Split_Join lines hne hlf]

theorem processLine_empty (st : MdState) (hc : st.inCodeBlock = false) :
    processLine st [] = flushParagraph st := by
  simp [processLine, TrimRightCR, trimRightBy, processTrimmedLine, HasPrefix, numberedRest,
    TrimSpace, hc]

theorem dropWhile_append_of_cons (p : Char → Bool) (l r : List Char) (x : Char) (xs : List Char)
    (h : l.dropWhile p = x :: xs) : (l ++ r).dropWhile p = x :: (xs ++ r) := by
  induction l with
  | nil => cases h
  | cons c cs ih =>
    by_cases hc : p c = true
    · rw [List.dropWhile_cons_of_pos hc] at h
      rw [List.cons_append, List.dropWhile_cons_of_pos hc]
      exact ih h
    · rw [List.dropWhile_cons_of_neg hc] at h
      rw [List.cons_append, List.dropWhile_cons_of_neg hc]
      obtain ⟨rfl, rfl⟩ := List.cons.inj h
      rfl

theorem numberedRest_append (l r : List Char) (h : (numberedRest l).isSome = true) :
    (numberedRest (l ++ r)).isSome = true := by
  cases l with
  | nil => cases h
  | cons c cs =>
    simp only [numberedRest, List.cons_append] at h ⊢
    by_cases hc : c.isDigit = true
    · simp only [hc, if_true] at h ⊢
      cases hd : cs.dropWhile Char.isDigit with
      | nil => rw [hd] at h; cases h
      | cons d ds =>
        rw [dropWhile_append_of_cons _ cs r d ds hd]
        rw [hd] at h
        cases ds with
        | nil => cases h
        | cons e rest =>
          simp only [List.cons_append]
          by_cases hde : (d.toNat == 46 && e.toNat == 32) = true
          · simp [hde]
          · simp [hde] at h
    · simp [hc] at h

theorem isPlainLine_TrimRightCR (l : List Char) (h : isPlainLine l = true) :
    isPlainLine (TrimRightCR l) = true := by
  have hn : (numberedRest (TrimRightCR l)).isSome = true → (numberedRest l).isSome = true := by
    intro hs
    obtain ⟨r, hr⟩ := trimRightBy_initial isCR l
    have := numberedRest_append (TrimRightCR l) r hs
    unfold TrimRightCR at this
    rwa [hr] at this
  have hpre : ∀ m, HasPrefix l m = false → HasPrefix (TrimRightCR l) m = false := by
    intro m hm
    by_contra hcon
    have := HasPrefix_of_TrimRightCR l m (by simpa using hcon)
    rw [hm] at this
    cases this
  have hnn : (numberedRest l).isSome = false → (numberedRest (TrimRightCR l)).isSome = false := by
    intro hm
    cases hs : (numberedRest (TrimRightCR l)).isSome with
    | false => rfl
    | true =>
      have := hn hs
      rw [hm] at this
      cases this
  simp only [isPlainLine, matchesMarker, isBlankLine, TrimSpace_TrimRightCR, Bool.and_eq_true,
    Bool.not_eq_true', Bool.or_eq_false_iff] at h ⊢
  obtain ⟨⟨⟨⟨⟨⟨⟨⟨⟨⟨h1, h2⟩, h3⟩, h4⟩, h5⟩, h6⟩, h7⟩, h8⟩, h9⟩, h10⟩, h11⟩ := h
  exact ⟨⟨⟨⟨⟨⟨⟨⟨⟨⟨hpre _ h1, hpre _ h2⟩, hpre _ h3⟩, hpre _ h4⟩, hpre _ h5⟩, hpre _ h6⟩, hnn h7⟩,
    hpre _ h8⟩, h9⟩, h10⟩, h11⟩

theorem HasPrefix_TrimRightCR_of_marker (l m : List Char) (hne : m ≠ [])
    (hm : ∀ c ∈ m, isCR c = false) (h : HasPrefix l m = true) :
    HasPrefix (TrimRightCR l) m = true := by
  unfold HasPrefix at *
  rw [List.isPrefixOf_iff_prefix] at *
  obtain ⟨r, rfl⟩ := h
  rw [TrimRightCR_marker_append m r hne hm]
  exact List.prefix_append _ _

theorem numberedRest_decompose (l rest : List Char) (h : numberedRest l = some rest) :
    ∃ d ds, d.isDigit = true ∧ (∀ c ∈ ds, c.isDigit = true) ∧
      l = d :: ds ++ ". ".data ++ rest := by
  cases l with
  | nil => cases h
  | cons c cs =>
    simp only [numberedRest] at h
    by_cases hc : c.isDigit = true
    · simp only [hc, if_true] at h
      have hsplit := List.takeWhile_append_dropWhile Char.isDigit cs
      cases hd : cs.dropWhile Char.isDigit with
      | nil => rw [hd] at h; cases h
      | cons x xs =>
        rw [hd] at h hsplit
        cases xs with
        | nil => cases h
        | cons y ys =>
          by_cases hxy : (x.toNat == 46 && y.toNat == 32) = true
          · simp only [hxy, if_true, Option.some.injEq] at h
            simp only [Bool.and_eq_true, beq_iff_eq] at hxy
            have hx : x = '.' := Char.ext (by
              have := hxy.1
              apply UInt32.ext
              simpa [Char.toNat] using this)
            have hy : y = ' ' := Char.ext (by
              have := hxy.2
              apply UInt32.ext
              simpa [Char.toNat] using this)
            subst hx hy h
            refine ⟨c, cs.takeWhile Char.isDigit, hc, ?_, ?_⟩
            · intro a ha
              exact (List.mem_takeWhile_imp ha)
            · simpa using hsplit.symm
          · simp [hxy] at h
    · simp [hc] at h

theorem numberedRest_TrimRightCR (l : List Char) (h : (numberedRest l).isSome = true) :
    (numberedRest (TrimRightCR l)).isSome = true := by
  obtain ⟨rest, hr⟩ := Option.isSome_iff_exists.mp h
  obtain ⟨d, ds, hd, hds, rfl⟩ := numberedRest_decompose l rest hr
  have hm : ∀ c ∈ d :: ds ++ ". ".data, isCR c = false := by
    intro c hc
    simp only [List.cons_append, List.mem_cons, List.mem_append] at hc
    rcases hc with rfl | h | h
    · exact (digit_facts c hd).1
    · exact (digit_facts c (hds c h)).1
    · have h2 : c = '.' ∨ c = ' ' := by simpa using h
      rcases h2 with rfl | rfl <;> decide
  rw [TrimRightCR_marker_append (d :: ds ++ ". ".data) rest (by simp) hm,
    numberedRest_digits d ds _ hd hds]
  rfl

/-- Dropping the carriage returns at the end of a line changes none of the
tests of the loop: the line is plain when, and only when, it is plain without
them. -/
theorem isPlainLine_TrimRightCR_eq (l : List Char) :
    isPlainLine (TrimRightCR l) = isPlainLine l := by
  cases h : isPlainLine l with
  | true => exact isPlainLine_TrimRightCR l h
  | false =>
    cases h2 : isPlainLine (TrimRightCR l) with
    | false => rfl
    | true =>
      exfalso
      have hpre : ∀ m : List Char, m ≠ [] → (∀ c ∈ m, isCR c = false) →
          HasPrefix (TrimRightCR l) m = false → HasPrefix l m = false := by
        intro m hne hm hf
        cases hl : HasPrefix l m with
        | false => rfl
        | true =>
          rw [HasPrefix_TrimRightCR_of_marker l m hne hm hl] at hf
          cases hf
      have hnn : (numberedRest (TrimRightCR l)).isSome = false →
          (numberedRest l).isSome = false := by
        intro hf
        cases hl : (numberedRest l).isSome with
        | false => rfl
        | true =>
          rw [numberedRest_TrimRightCR l hl] at hf
          cases hf
      have hgoal : isPlainLine l = true := by
        simp only [isPlainLine, matchesMarker, isBlankLine, TrimSpace_TrimRightCR,
          Bool.and_eq_true, Bool.not_eq_true', Bool.or_eq_false_iff] at h2 ⊢
        obtain ⟨⟨⟨⟨⟨⟨⟨⟨⟨⟨h1, h2⟩, h3⟩, h4⟩, h5⟩, h6⟩, h7⟩, h8⟩, h9⟩, h10⟩, h11⟩ := h2
        exact ⟨⟨⟨⟨⟨⟨⟨⟨⟨⟨hpre _ (by decide) (by decide) h1, hpre _ (by decide) (by decide) h2⟩,
          hpre _ (by decide) (by decide) h3⟩, hpre _ (by decide) (by decide) h4⟩,
          hpre _ (by decide) (by decide) h5⟩, hpre _ (by decide) (by decide) h6⟩, hnn h7⟩,
          hpre _ (by decide) (by decide) h8⟩, h9⟩, h10⟩, h11⟩
      rw [h] at hgoal
      cases hgoal

theorem processLine_plain (st : MdState) (line : List Char) (hc : st.inCodeBlock = false)
    (hp : isPlainLine line = true) :
    processLine st line
      = { st with currentParagraph := st.currentParagraph ++ [TrimRightCR line] } := by
  unfold processLine
  rw [processTrimmedLine_plain st _ hc (isPlainLine_TrimRightCR line hp)]

theorem heading_then_paragraph (marker t b : List Char) (mk : String → Block)
    (hstep : ∀ st : MdState, st.inCodeBlock = false →
      processLine st (marker ++ t) = emitBlock st (mk (String.mk (TrimSpace t))))
    (hm : LF ∉ marker) (c : Char) (hcm : c ∈ marker) (hcs : isSpace c = false)
    (ht : LF ∉ t) (hb1 : LF ∉ b) (hb3 : isPlainLine b = true) :
    MarkdownToBlocks (String.mk (marker ++ t ++ LF :: LF :: b))
      = [mk (String.mk (TrimSpace t)), createParagraph (String.mk (TrimRightCR b))] := by
  have e : marker ++ t ++ LF :: LF :: b = Join [marker ++ t, [], b] := by
    simp [Join]
  rw [e, MarkdownToBlocks_of_lines _ (by simp) (by
      intro l hl
      simp only [List.mem_cons, List.mem_singleton, List.not_mem_nil, or_false] at hl
      rcases hl with rfl | rfl | rfl
      · simp [hm, ht]
      · simp
      · exact hb1) c (by simp [Join, hcm]) hcs]
  rw [processLines_cons, hstep _ rfl, processLines_cons, processLine_empty _ rfl,
    processLines_cons, processLine_plain _ b (by rfl) hb3, processLines_nil]
  simp [finishBlocks, flushParagraph, emitBlock, Join]

/-- C12 as stated fails: the line `Body line` with a carriage return at its
end is not blank and passes no marker test, and after `# Title` and a blank
line it gives a paragraph whose text is `Body line` without the carriage
return, which is not the line. -/
theorem C12_carriage_return_counterexample :
    LF ∉ "Body line\r".data ∧ isPlainLine "Body line\r".data = true ∧
    MarkdownToBlocks ("# " ++ "Title" ++ "\n\n" ++ "Body line\r")
      = [Block.heading1 [{ Type_ := "text", Text := some "Title", PlainText := "Title" }] "block",
         Block.paragraph
           [{ Type_ := "text", Text := some "Body line", PlainText := "Body line" }] "block"] ∧
    ("Body line" : String) ≠ "Body line\r" :=
  ⟨by decide, by decide, rfl, by decide⟩

/-- C12, amended: `# Title`, a blank line, `Body line` converts to a heading-1
block with the one text run "Title" and a paragraph block with the one text
run "Body line"; for `#`, `##` and `###`, a text `t` on one line and a line
`b` (no line feed inside, not blank, no marker test passing), the input
marker, `t`, blank line, `b` converts to exactly two blocks: the heading block
of that level whose one run holds `t` trimmed, then the paragraph block whose
one run holds `b` without the carriage returns at its end. -/
theorem C12_heading_then_paragraph (t b : String)
    (ht : LF ∉ t.data) (hb1 : LF ∉ b.data) (hb3 : isPlainLine b.data = true) :
    MarkdownToBlocks ("# " ++ t ++ "\n\n" ++ b)
      = [Block.heading1
           [{ Type_ := "text", Text := some (String.mk (TrimSpace t.data)),
              PlainText := String.mk (TrimSpace t.data) }] "block",
         Block.paragraph
           [{ Type_ := "text", Text := some (String.mk (TrimRightCR b.data)),
              PlainText := String.mk (TrimRightCR b.data) }] "block"] ∧
    MarkdownToBlocks ("## " ++ t ++ "\n\n" ++ b)
      = [Block.heading2
           [{ Type_ := "text", Text := some (String.mk (TrimSpace t.data)),
              PlainText := String.mk (TrimSpace t.data) }] "block",
         Block.paragraph
           [{ Type_ := "text", Text := some (String.mk (TrimRightCR b.data)),
              PlainText := String.mk (TrimRightCR b.data) }] "block"] ∧
    MarkdownToBlocks ("### " ++ t ++ "\n\n" ++ b)
      = [Block.heading3
           [{ Type_ := "text", Text := some (String.mk (TrimSpace t.data)),
              PlainText := String.mk (TrimSpace t.data) }] "block",
         Block.paragraph
           [{ Type_ := "text", Text := some (String.mk (TrimRightCR b.data)),
              PlainText := String.mk (TrimRightCR b.data) }] "block"] ∧
    MarkdownToBlocks "# Title\n\nBody line"
      = [Block.heading1 [{ Type_ := "text", Text := some "Title", PlainText := "Title" }] "block",
         Block.paragraph
           [{ Type_ := "text", Text := some "Body line", PlainText := "Body line" }]
           "block"] := by
  refine ⟨?_, ?_, ?_, rfl⟩
  · have h := heading_then_paragraph "# ".data t.data b.data createHeading1
      (fun st hc => processLine_heading1 st t.data hc) (by decide) '#' (by decide) (by decide)
      ht hb1 hb3
    have e : "# " ++ t ++ "\n\n" ++ b = String.mk ("# ".data ++ t.data ++ LF :: LF :: b.data) := by
      apply String.ext
      simp [String.data_append]
      rfl
    rw [e]
    exact h
  · have h := heading_then_paragraph "## ".data t.data b.data createHeading2
      (fun st hc => processLine_heading2 st t.data hc) (by decide) '#' (by decide) (by decide)
      ht hb1 hb3
    have e : "## " ++ t ++ "\n\n" ++ b
        = String.mk ("## ".data ++ t.data ++ LF :: LF :: b.data) := by
      apply String.ext
      simp [String.data_append]
      rfl
    rw [e]
    exact h
  · have h := heading_then_paragraph "### ".data t.data b.data createHeading3
      (fun st hc => processLine_heading3 st t.data hc) (by decide) '#' (by decide) (by decide)
      ht hb1 hb3
    have e : "### " ++ t ++ "\n\n" ++ b
        = String.mk ("### ".data ++ t.data ++ LF :: LF :: b.data) := by
      apply String.ext
      simp [String.data_append]
      rfl
    rw [e]
    exact h

/-- C12, amended, at the text " Intro " and the line "Body line" with a
carriage return at its end. -/
theorem C12_heading_then_paragraph_witness :
    MarkdownToBlocks ("## " ++ " Intro " ++ "\n\n" ++ "Body line\r")
      = [Block.heading2
           [{ Type_ := "text", Text := some (String.mk (TrimSpace " Intro ".data)),
              PlainText := String.mk (TrimSpace " Intro ".data) }] "block",
         Block.paragraph
           [{ Type_ := "text", Text := some (String.mk (TrimRightCR "Body line\r".data)),
              PlainText := String.mk (TrimRightCR "Body line\r".data) }] "block"] :=
  (C12_heading_then_paragraph " Intro " "Body line\r" (by decide) (by decide) (by decide)).2.1

/-! ### C13 and C15: bullet lines and task-list lines -/

theorem processLines_emit_each (lines : List (List Char)) (blockOf : List Char → Block)
    (hstep : ∀ (st : MdState) (l : List Char), l ∈ lines → st.inCodeBlock = false →
      processLine st l = emitBlock st (blockOf l))
    (st : MdState) (hc : st.inCodeBlock = false) (hp : st.currentParagraph = []) :
    processLines st lines = { st with blocks := st.blocks ++ lines.map blockOf } := by
  induction lines generalizing st with
  | nil => simp [processLines]
  | cons l ls ih =>
    rw [processLines_cons, hstep st l (List.mem_cons_self _ _) hc, emitBlock_of_nil st _ hp]
    have h := ih (fun st x hx => hstep st x (List.mem_cons_of_mem _ hx))
      { st with blocks := st.blocks ++ [blockOf l] } hc hp
    rw [h]
    simp

theorem bullets_of_lines (marker : List Char) (items : List String)
    (hstep : ∀ (st : MdState) (a : String), a ∈ items → st.inCodeBlock = false →
      processLine st (marker ++ a.data)
        = emitBlock st (createBulletedListItem (String.mk (TrimSpace a.data))))
    (hm : LF ∉ marker) (c : Char) (hcm : c ∈ marker) (hcs : isSpace c = false)
    (hne : items ≠ []) (hlf : ∀ a ∈ items, LF ∉ a.data) :
    MarkdownToBlocks (String.mk (Join (items.map (fun a => marker ++ a.data))))
      = items.map (fun a => createBulletedListItem (String.mk (TrimSpace a.data))) := by
  have hmem : c ∈ Join (items.map (fun a => marker ++ a.data)) := by
    cases items with
    | nil => exact absurd rfl hne
    | cons a rest =>
      exact mem_Join _ (marker ++ a.data) c (by simp) (List.mem_append_left _ hcm)
  rw [MarkdownToBlocks_of_lines _ (by simpa using hne) (by
      intro l hl
      simp only [List.mem_map] at hl
      obtain ⟨a, ha, rfl⟩ := hl
      simp [hm, hlf a ha]) c hmem hcs]
  have hl := processLines_emit_each (items.map (fun a => marker ++ a.data))
    (fun l => createBulletedListItem (String.mk (TrimSpace (l.drop marker.length))))
    (by
      intro st l hl hc
      simp only [List.mem_map] at hl
      obtain ⟨a, ha, rfl⟩ := hl
      rw [hstep st a ha hc]
      simp) {} rfl rfl
  rw [hl]
  simp [finishBlocks, flushParagraph, List.map_map, Function.comp_def]

/-- C13: for a non-empty list of texts, each on one line, the lines "- " and
text joined by line feeds convert to exactly one block per text, in order,
each a bulleted-list-item block whose one text run holds the text trimmed,
when no text starts with "* "; the same with the marker "* " for every text;
"- a", "- b" gives the bulleted-list items "a" and "b". -/
theorem C13_bulleted_items (items : List String) (hne : items ≠ [])
    (hlf : ∀ a ∈ items, LF ∉ a.data) :
    ((∀ a ∈ items, HasPrefix a.data "* ".data = false) →
      MarkdownToBlocks (String.mk (Join (items.map (fun a => "- ".data ++ a.data))))
        = items.map (fun a =>
            Block.bulletedListItem
              [{ Type_ := "text", Text := some (String.mk (TrimSpace a.data)),
                 PlainText := String.mk (TrimSpace a.data) }] "block")) ∧
    MarkdownToBlocks (String.mk (Join (items.map (fun a => "* ".data ++ a.data))))
      = items.map (fun a =>
          Block.bulletedListItem
            [{ Type_ := "text", Text := some (String.mk (TrimSpace a.data)),
               PlainText := String.mk (TrimSpace a.data) }] "block") ∧
    MarkdownToBlocks "- a\n- b"
      = [Block.bulletedListItem [{ Type_ := "text", Text := some "a", PlainText := "a" }] "block",
         Block.bulletedListItem [{ Type_ := "text", Text := some "b", PlainText := "b" }] "block"] ∧
    MarkdownToBlocks "* a\n* b"
      = [Block.bulletedListItem [{ Type_ := "text", Text := some "a", PlainText := "a" }] "block",
         Block.bulletedListItem [{ Type_ := "text", Text := some "b", PlainText := "b" }]
           "block"] := by
  refine ⟨?_, ?_, rfl, rfl⟩
  · intro hstar
    exact bullets_of_lines "- ".data items
      (fun st a ha hc => processLine_dash st a.data hc (hstar a ha))
      (by decide) '-' (by decide) (by decide) hne hlf
  · exact bullets_of_lines "* ".data items
      (fun st a _ hc => processLine_star st a.data hc)
      (by decide) '*' (by decide) (by decide) hne hlf

/-- C13 at the texts "milk " and "eggs": two bulleted-list items, "milk" and
"eggs". -/
theorem C13_bulleted_items_witness :
    MarkdownToBlocks (String.mk (Join (["milk ", "eggs"].map (fun a => "- ".data ++ a.data))))
      = ["milk ", "eggs"].map (fun a =>
          Block.bulletedListItem
            [{ Type_ := "text", Text := some (String.mk (TrimSpace a.data)),
               PlainText := String.mk (TrimSpace a.data) }] "block") :=
  (C13_bulleted_items ["milk ", "eggs"] (by decide) (by decide)).1 (by decide)

theorem MarkdownToBlocks_single_emit (line : List Char) (block : Block)
    (hstep : processLine {} line = emitBlock {} block)
    (hlf : LF ∉ line) (c : Char) (hc : c ∈ line) (hcs : isSpace c = false) :
    MarkdownToBlocks (String.mk line) = [block] := by
  have e : line = Join [line] := rfl
  rw [e, MarkdownToBlocks_of_lines [line] (by simp) (by simpa using hlf) c hc hcs,
    processLines_cons, hstep, processLines_nil]
  rfl

/-- C15 fails on the code: no input ever yields a to-do block; a line "- [ ] "
and text, or "- [x] " and text, is taken by the bullet test that comes first
and becomes a bulleted-list item whose text still begins with the
brackets. -/
theorem C15_task_lines_become_bullets :
    (∀ (markdown : String) (b : Block), b ∈ MarkdownToBlocks markdown → b.isToDo = false) ∧
    (∀ t : String, LF ∉ t.data →
      MarkdownToBlocks ("- [ ] " ++ t)
        = [createBulletedListItem (String.mk (TrimSpace ("[ ] " ++ t).data))]) ∧
    (∀ t : String, LF ∉ t.data →
      MarkdownToBlocks ("- [x] " ++ t)
        = [createBulletedListItem (String.mk (TrimSpace ("[x] " ++ t).data))]) ∧
    MarkdownToBlocks "- [ ] task" = [createBulletedListItem "[ ] task"] ∧
    MarkdownToBlocks "- [x] done" = [createBulletedListItem "[x] done"] := by
  refine ⟨?_, ?_, ?_, rfl, rfl⟩
  · intro markdown
    exact MarkdownToBlocks_inv (fun b => b.isToDo = false) (fun _ => True)
      (fun _ _ => rfl) (fun _ _ _ => rfl) (fun _ h _ => h) (fun _ _ => trivial) markdown
  · intro t ht
    have e : "- [ ] " ++ t = String.mk ("- ".data ++ ("[ ] " ++ t).data) := by
      apply String.ext
      simp [String.data_append]
    rw [e]
    apply MarkdownToBlocks_single_emit
    · exact processLine_dash {} _ rfl (by
        simp only [HasPrefix, String.data_append]
        rfl)
    · simp [String.data_append, ht]
      decide
    · show '-' ∈ _
      simp
    · decide
  · intro t ht
    have e : "- [x] " ++ t = String.mk ("- ".data ++ ("[x] " ++ t).data) := by
      apply String.ext
      simp [String.data_append]
    rw [e]
    apply MarkdownToBlocks_single_emit
    · exact processLine_dash {} _ rfl (by
        simp only [HasPrefix, String.data_append]
        rfl)
    · simp [String.data_append, ht]
      decide
    · show '-' ∈ _
      simp
    · decide

/-! ### C14: no empty paragraph -/

theorem nonspace_of_isPlainLine (line : List Char) (h : isPlainLine line = true) :
    ∃ c ∈ line, isSpace c = false := by
  apply exists_nonspace_of_TrimSpace_ne_nil
  intro e
  simp [isPlainLine, isBlankLine, e] at h

theorem Join_all_space (lines : List (List Char))
    (h : ∀ l ∈ lines, ∀ c ∈ l, isSpace c = true) : ∀ c ∈ Join lines, isSpace c = true := by
  induction lines with
  | nil => intro c hc; cases hc
  | cons x xs ih =>
    cases xs with
    | nil => exact h x (List.mem_cons_self _ _)
    | cons y ys =>
      intro c hc
      have e : Join (x :: y :: ys) = x ++ LF :: Join (y :: ys) := rfl
      rw [e] at hc
      simp only [List.mem_append, List.mem_cons] at hc
      rcases hc with h1 | rfl | h3
      · exact h x (List.mem_cons_self _ _) c h1
      · decide
      · exact ih (fun l hl => h l (List.mem_cons_of_mem _ hl)) c h3

theorem all_space_of_isBlankLine (line : List Char) (h : isBlankLine line = true) :
    ∀ c ∈ line, isSpace c = true := by
  intro c hc
  by_contra hs
  have hne := TrimSpace_ne_nil line c hc (by simpa using hs)
  simp [isBlankLine] at h
  exact hne h

/-- C14: every paragraph block `MarkdownToBlocks` returns, for every input,
holds one run whose text has a character that is not white space; an input
made of blank lines only converts to no block, three empty lines among
them. -/
theorem C14_no_empty_paragraph :
    (∀ (markdown : String) (b : Block), b ∈ MarkdownToBlocks markdown →
      ∀ runs object, b = Block.paragraph runs object →
        ∃ text, runs = [richTextOf text] ∧ hasNonSpace text) ∧
    (∀ lines : List (List Char), (∀ l ∈ lines, isBlankLine l = true) →
      MarkdownToBlocks (String.mk (Join lines)) = []) ∧
    MarkdownToBlocks "\n\n" = [] ∧ MarkdownToBlocks "\n\n\n" = [] ∧
    MarkdownToBlocks "  \n\t\n \r\n" = [] := by
  refine ⟨?_, ?_, rfl, rfl, rfl⟩
  · intro markdown
    apply MarkdownToBlocks_inv
      (fun b => ∀ runs object, b = Block.paragraph runs object →
        ∃ text, runs = [richTextOf text] ∧ hasNonSpace text)
      (fun l => ∃ c ∈ l, isSpace c = false)
    · intro code language runs object h
      cases h
    · intro cp hne hq runs object h
      simp only [createParagraph, Block.paragraph.injEq] at h
      refine ⟨_, h.1.symm, ?_⟩
      cases cp with
      | nil => exact absurd rfl hne
      | cons l ls =>
        obtain ⟨c, hc, hs⟩ := hq l (List.mem_cons_self _ _)
        exact ⟨c, mem_Join _ l c (List.mem_cons_self _ _) hc, hs⟩
    · intro b _ hp runs object h
      rw [h] at hp
      cases hp
    · exact nonspace_of_isPlainLine
  · intro lines h
    unfold MarkdownToBlocks
    have hs := Join_all_space lines (fun l hl => all_space_of_isBlankLine l (h l hl))
    simp [TrimSpace_eq_nil _ hs]

/-- C14 at the input "a", blank line, "b": its first paragraph holds "a". -/
theorem C14_no_empty_paragraph_witness :
    ∃ text, [richTextOf "a"] = [richTextOf text] ∧ hasNonSpace text :=
  C14_no_empty_paragraph.1 "a\n\nb" (createParagraph "a")
    (List.mem_cons_self _ _ : createParagraph "a" ∈ [createParagraph "a", createParagraph "b"])
    [richTextOf "a"] "block" rfl

/-! ### C16: paragraph flushing -/

theorem processTrimmedLine_fenceOK (st : MdState) (line : List Char)
    (h : st.inCodeBlock = false → st.codeBlockContent = [] ∧ st.codeLanguage = []) :
    (processTrimmedLine st line).inCodeBlock = false →
      (processTrimmedLine st line).codeBlockContent = [] ∧
        (processTrimmedLine st line).codeLanguage = [] := by
  have hflush : (flushParagraph st).codeBlockContent = st.codeBlockContent ∧
      (flushParagraph st).codeLanguage = st.codeLanguage ∧
      (flushParagraph st).inCodeBlock = st.inCodeBlock := by
    unfold flushParagraph
    split <;> exact ⟨rfl, rfl, rfl⟩
  rw [processTrimmedLine_eq]
  cases hic : st.inCodeBlock with
  | true =>
    rcases lineEffect_inside line with e | e <;> rw [e]
    · intro _
      exact ⟨rfl, rfl⟩
    · intro hcon
      simp only [applyEffect] at hcon
      rw [hic] at hcon
      cases hcon
  | false =>
    obtain ⟨h1, h2⟩ := h hic
    rcases lineEffect_outside line with ⟨lang, e⟩ | ⟨block, e, _, _⟩ | e | ⟨e, _⟩ <;> rw [e]
    · intro hcon
      simp [applyEffect] at hcon
    · intro _
      simp only [applyEffect, emitBlock]
      exact ⟨hflush.1.trans h1, hflush.2.1.trans h2⟩
    · intro _
      simp only [applyEffect]
      exact ⟨hflush.1.trans h1, hflush.2.1.trans h2⟩
    · intro _
      exact ⟨h1, h2⟩

theorem processLines_fenceOK (lines : List (List Char)) (st : MdState)
    (h : st.inCodeBlock = false → st.codeBlockContent = [] ∧ st.codeLanguage = []) :
    (processLines st lines).inCodeBlock = false →
      (processLines st lines).codeBlockContent = [] ∧
        (processLines st lines).codeLanguage = [] := by
  induction lines generalizing st with
  | nil => exact h
  | cons l ls ih =>
    rw [processLines_cons]
    exact ih _ (processTrimmedLine_fenceOK st (TrimRightCR l) h)

theorem processLines_plain (ps : List (List Char)) (st : MdState)
    (hc : st.inCodeBlock = false)
    (hplain : ∀ p ∈ ps, isPlainLine p = true) :
    processLines st ps
      = { st with currentParagraph := st.currentParagraph ++ ps.map TrimRightCR } := by
  induction ps generalizing st with
  | nil => simp [processLines]
  | cons p rest ih =>
    have h1 := hplain p (List.mem_cons_self _ _)
    rw [processLines_cons, processLine_plain st p hc h1]
    have h := ih { st with currentParagraph := st.currentParagraph ++ [TrimRightCR p] } hc
      (fun x hx => hplain x (List.mem_cons_of_mem _ hx))
    rw [h]
    simp

theorem processTrimmedLine_flush_first (st : MdState) (line : List Char)
    (hc : st.inCodeBlock = false) (hp : isPlainLine line = false) :
    processTrimmedLine st line = processTrimmedLine (flushParagraph st) line := by
  rw [processTrimmedLine_eq, processTrimmedLine_eq, flushParagraph_inCodeBlock, hc]
  rcases lineEffect_outside line with ⟨lang, e⟩ | ⟨block, e, _, _⟩ | e | ⟨e, hpl⟩
  · rw [e]
    simp only [applyEffect, flushParagraph_idem]
  · rw [e]
    simp only [applyEffect, emitBlock_flushParagraph]
  · rw [e]
    simp only [applyEffect, flushParagraph_idem]
  · rw [hp] at hpl
    cases hpl

/-- C16 as stated fails: the two plain lines `one` with a carriage return at
its end and `two` become one paragraph whose text is `one`, line feed, `two`,
without the carriage return, which is not the two lines joined by a line
feed. -/
theorem C16_carriage_return_counterexample :
    (∀ p ∈ ["one\r".data, "two".data], LF ∉ p ∧ isPlainLine p = true) ∧
    MarkdownToBlocks (String.mk (Join ["one\r".data, "two".data]))
      = [Block.paragraph
           [{ Type_ := "text", Text := some "one\ntwo", PlainText := "one\ntwo" }] "block"] ∧
    String.mk (Join ["one\r".data, "two".data]) = "one\r\ntwo" ∧
    ("one\ntwo" : String) ≠ "one\r\ntwo" :=
  ⟨by decide, rfl, rfl, by decide⟩

/-- C16, amended: a non-empty run of plain lines that starts outside a fence
with an empty paragraph buffer, and is followed by the end of the input or by
a line that is not plain (a blank line, a marker line, an opening fence),
becomes exactly one paragraph block with one text run, whose text is the
lines, each without the carriage returns at its end, joined by line feeds; it
stands after the blocks of the earlier lines and before every block of the
later lines. -/
theorem C16_paragraph_flush (pre ps post : List (List Char))
    (hlf : ∀ l ∈ pre ++ ps ++ post, LF ∉ l)
    (hne : ps ≠ [])
    (hplain : ∀ p ∈ ps, isPlainLine p = true)
    (hpre1 : (processLines {} pre).inCodeBlock = false)
    (hpre2 : (processLines {} pre).currentParagraph = [])
    (hpost : ∀ q rest, post = q :: rest → isPlainLine q = false) :
    MarkdownToBlocks (String.mk (Join (pre ++ ps ++ post)))
      = (processLines {} pre).blocks
          ++ [Block.paragraph
                [{ Type_ := "text", Text := some (String.mk (Join (ps.map TrimRightCR))),
                   PlainText := String.mk (Join (ps.map TrimRightCR)) }] "block"]
          ++ finishBlocks (processLines {} post) := by
  obtain ⟨p0, ptail, rfl⟩ := List.exists_cons_of_ne_nil hne
  obtain ⟨c, hc, hcs⟩ := nonspace_of_isPlainLine p0 (hplain p0 (List.mem_cons_self _ _))
  rw [MarkdownToBlocks_of_lines _ (by simp) hlf c
    (mem_Join _ p0 c (by simp) hc) hcs]
  obtain ⟨hcontent, hlang⟩ := processLines_fenceOK pre {} (fun _ => ⟨rfl, rfl⟩) hpre1
  have hS1 : processLines {} pre = prependBlocks (processLines {} pre).blocks {} := by
    cases hst : processLines {} pre with
    | mk blocks cp ic content lang =>
      rw [hst] at hpre1 hpre2 hcontent hlang
      simp only at hpre1 hpre2 hcontent hlang
      simp [prependBlocks, hpre1, hpre2, hcontent, hlang]
  rw [processLines_append, processLines_append,
    processLines_plain (p0 :: ptail) _ hpre1 hplain, hpre2]
  have hS2 : ({ processLines {} pre with
        currentParagraph := [] ++ (p0 :: ptail).map TrimRightCR } : MdState)
      = prependBlocks (processLines {} pre).blocks
          { currentParagraph := TrimRightCR p0 :: ptail.map TrimRightCR } := by
    rw [hS1]
    simp [prependBlocks]
  rw [hS2]
  have hfl : flushParagraph
        ({ currentParagraph := TrimRightCR p0 :: ptail.map TrimRightCR } : MdState)
      = prependBlocks
          [Block.paragraph
            [{ Type_ := "text",
               Text := some (String.mk (Join ((p0 :: ptail).map TrimRightCR))),
               PlainText := String.mk (Join ((p0 :: ptail).map TrimRightCR)) }] "block"] {} := by
    simp [flushParagraph, prependBlocks, createParagraph, richTextOf]
  cases post with
  | nil =>
    rw [processLines_nil, finishBlocks_prependBlocks, processLines_nil]
    have hfin : finishBlocks
          ({ currentParagraph := TrimRightCR p0 :: ptail.map TrimRightCR } : MdState)
        = (flushParagraph
            ({ currentParagraph := TrimRightCR p0 :: ptail.map TrimRightCR } : MdState)).blocks := by
      simp [finishBlocks, flushParagraph]
    rw [hfin, hfl]
    simp [finishBlocks, flushParagraph, prependBlocks]
  | cons q rest =>
    have hq : isPlainLine (TrimRightCR q) = false := by
      rw [isPlainLine_TrimRightCR_eq]
      exact hpost q rest rfl
    rw [processLines_cons, processLines_cons]
    unfold processLine
    rw [processTrimmedLine_prependBlocks, processLines_prependBlocks, finishBlocks_prependBlocks,
      processTrimmedLine_flush_first _ _ rfl hq]
    rw [hfl, processTrimmedLine_prependBlocks, processLines_prependBlocks,
      finishBlocks_prependBlocks]
    simp

/-- C16, amended, at the run "one" with a carriage return at its end, "two"
after a heading and before a list item. -/
theorem C16_paragraph_flush_witness :
    MarkdownToBlocks (String.mk (Join (["# H".data] ++ ["one\r".data, "two".data]
        ++ ["- item".data, "tail".data])))
      = (processLines {} ["# H".data]).blocks
          ++ [Block.paragraph
                [{ Type_ := "text",
                   Text := some (String.mk (Join (["one\r".data, "two".data].map TrimRightCR))),
                   PlainText := String.mk (Join (["one\r".data, "two".data].map TrimRightCR)) }]
                "block"]
          ++ finishBlocks (processLines {} ["- item".data, "tail".data]) :=
  C16_paragraph_flush ["# H".data] ["one\r".data, "two".data] ["- item".data, "tail".data]
    (by decide) (by decide) (by decide) rfl rfl
    (by
      intro q rest h
      obtain ⟨rfl, _⟩ := List.cons.inj h
      decide)

/-! ### C17: numbered items -/

theorem MarkdownToBlocks_single_plain (line : List Char) (hlf : LF ∉ line)
    (hp : isPlainLine (TrimRightCR line) = true) :
    MarkdownToBlocks (String.mk line) = [createParagraph (String.mk (TrimRightCR line))] := by
  obtain ⟨c, hc, hcs⟩ := nonspace_of_isPlainLine _ hp
  have hc2 : c ∈ line := mem_of_mem_trimRightBy isCR line c hc
  have e : line = Join [line] := rfl
  rw [e, MarkdownToBlocks_of_lines [line] (by simp) (by simpa using hlf) c hc2 hcs,
    processLines_cons, processLines_nil]
  unfold processLine
  rw [processTrimmedLine_plain _ _ rfl hp]
  simp [finishBlocks, flushParagraph, Join]

theorem TrimSpace_cons_of_nonspace (c : Char) (l : List Char) (hc : isSpace c = false) :
    TrimSpace (c :: l) = c :: trimRightBy isSpace l := by
  unfold TrimSpace
  rw [trimRightBy_cons_of_neg isSpace c l hc, List.dropWhile_cons_of_neg (by simp [hc])]

theorem isPlainLine_digits (d : Char) (ds rest : List Char) (hd : d.isDigit = true)
    (hds : ∀ c ∈ ds, c.isDigit = true)
    (hhead : ∀ c, rest.head? = some c → c.isDigit = false)
    (hdot : HasPrefix rest ". ".data = false) :
    isPlainLine (d :: (ds ++ rest)) = true := by
  obtain ⟨_, hsp, h1, h2, h3, h4, h5⟩ := digit_facts d hd
  have hn : numberedRest (d :: (ds ++ rest)) = none := by
    simp only [numberedRest, hd, if_true]
    rw [dropWhile_isDigit_append ds rest hds hhead]
    cases rest with
    | nil => rfl
    | cons x xs =>
      cases xs with
      | nil => rfl
      | cons y ys =>
        by_cases hxy : (x.toNat == 46 && y.toNat == 32) = true
        · exfalso
          simp only [Bool.and_eq_true, beq_iff_eq] at hxy
          have hx : x = '.' := Char.ext (by
            have := hxy.1
            apply UInt32.ext
            simpa [Char.toNat] using this)
          have hy : y = ' ' := Char.ext (by
            have := hxy.2
            apply UInt32.ext
            simpa [Char.toNat] using this)
          subst hx hy
          simp [HasPrefix] at hdot
        · simp [hxy]
  have hts := TrimSpace_cons_of_nonspace d (ds ++ rest) hsp
  have f1 : "```".data = [Char.ofNat 96, Char.ofNat 96, Char.ofNat 96] := by decide
  simp [isPlainLine, matchesMarker, isBlankLine, HasPrefix, hn, hts, f1, Ne.symm h1, Ne.symm h2,
    Ne.symm h3, Ne.symm h4, Ne.symm h5, List.isPrefixOf, h2, h3]

theorem head_of_TrimRightCR (l : List Char) (c : Char) (h : (TrimRightCR l).head? = some c) :
    l.head? = some c := by
  have hp := trimRightBy_initial isCR l
  unfold TrimRightCR at h
  cases htl : trimRightBy isCR l with
  | nil => rw [htl] at h; cases h
  | cons x xs =>
    rw [htl] at h hp
    obtain ⟨r, hr⟩ := hp
    rw [← hr]
    simpa using h

theorem digits_no_LF (d : Char) (ds : List Char) (hd : d.isDigit = true)
    (hds : ∀ c ∈ ds, c.isDigit = true) : LF ∉ d :: ds := by
  intro h
  have hdig : LF.isDigit = true := by
    rcases List.mem_cons.mp h with e | e
    · rw [e]; exact hd
    · exact hds LF e
  revert hdig
  decide

/-- C17: a line of one or more ASCII digits, ". " and a text converts to
exactly one block, a numbered-list-item block whose one text run holds the
text trimmed, without the digits and the period; a line whose digits are
followed by something else than ". " converts to one paragraph block holding
the whole line ("1.x" and "1) x" among them), not to a numbered-list item. -/
theorem C17_numbered_items (d : Char) (ds : List Char) (hd : d.isDigit = true)
    (hds : ∀ c ∈ ds, c.isDigit = true) :
    (∀ t : List Char, LF ∉ t →
      MarkdownToBlocks (String.mk (d :: ds ++ ". ".data ++ t))
        = [Block.numberedListItem
             [{ Type_ := "text", Text := some (String.mk (TrimSpace t)),
                PlainText := String.mk (TrimSpace t) }] "block"]) ∧
    (∀ rest : List Char, LF ∉ rest →
      (∀ c, rest.head? = some c → c.isDigit = false) →
      HasPrefix rest ". ".data = false →
      MarkdownToBlocks (String.mk (d :: ds ++ rest))
        = [Block.paragraph
             [{ Type_ := "text", Text := some (String.mk (TrimRightCR (d :: ds ++ rest))),
                PlainText := String.mk (TrimRightCR (d :: ds ++ rest)) }] "block"]) ∧
    MarkdownToBlocks "12. x"
      = [Block.numberedListItem
           [{ Type_ := "text", Text := some "x", PlainText := "x" }] "block"] ∧
    MarkdownToBlocks "1.x"
      = [Block.paragraph [{ Type_ := "text", Text := some "1.x", PlainText := "1.x" }] "block"] ∧
    MarkdownToBlocks "1) x"
      = [Block.paragraph
           [{ Type_ := "text", Text := some "1) x", PlainText := "1) x" }] "block"] := by
  have hnolf := digits_no_LF d ds hd hds
  refine ⟨?_, ?_, rfl, rfl, rfl⟩
  · intro t ht
    apply MarkdownToBlocks_single_emit
    · exact processLine_numbered {} d ds t rfl hd hds
    · intro h
      simp only [List.cons_append, List.append_assoc, List.mem_cons, List.mem_append] at h
      rcases h with h | h | h | h | h | h
      · exact hnolf (h ▸ List.mem_cons_self _ _)
      · exact hnolf (List.mem_cons_of_mem _ h)
      · revert h
        decide
      · revert h
        decide
      · cases h
      · exact ht h
    · exact List.mem_append_left _ (List.mem_append_left _ (List.mem_cons_self d ds))
    · exact (digit_facts d hd).2.1
  · intro rest hrest hhead hdot
    apply MarkdownToBlocks_single_plain
    · intro h
      simp only [List.cons_append, List.mem_cons, List.mem_append] at h
      rcases h with h | h | h
      · exact hnolf (h ▸ List.mem_cons_self _ _)
      · exact hnolf (List.mem_cons_of_mem _ h)
      · exact hrest h
    · have hm : ∀ c ∈ d :: ds, isCR c = false := by
        intro c hc
        rcases List.mem_cons.mp hc with rfl | h
        · exact (digit_facts c hd).1
        · exact (digit_facts c (hds c h)).1
      rw [TrimRightCR_marker_append (d :: ds) rest (by simp) hm]
      apply isPlainLine_digits d ds _ hd hds
      · intro c hc
        exact hhead c (head_of_TrimRightCR rest c hc)
      · by_contra hcon
        have := HasPrefix_of_TrimRightCR rest _ (by simpa using hcon)
        rw [hdot] at this
        cases this

/-- C17 at the line "7. seven ", a numbered-list item "seven", and at the
line "7.seven", a paragraph. -/
theorem C17_numbered_items_witness :
    MarkdownToBlocks (String.mk ('7' :: [] ++ ". ".data ++ "seven ".data))
        = [Block.numberedListItem
             [{ Type_ := "text", Text := some (String.mk (TrimSpace "seven ".data)),
                PlainText := String.mk (TrimSpace "seven ".data) }] "block"] ∧
    MarkdownToBlocks (String.mk ('7' :: [] ++ ".seven".data))
        = [Block.paragraph
             [{ Type_ := "text",
                Text := some (String.mk (TrimRightCR ('7' :: [] ++ ".seven".data))),
                PlainText := String.mk (TrimRightCR ('7' :: [] ++ ".seven".data)) }] "block"] :=
  ⟨(C17_numbered_items '7' [] (by decide) (by decide)).1 "seven ".data (by decide),
   (C17_numbered_items '7' [] (by decide) (by decide)).2.1 ".seven".data (by decide)
     (by decide) (by decide)⟩

/-! ### C18: fenced code -/

theorem processLine_fence_open (st : MdState) (g : List Char) (hc : st.inCodeBlock = false) :
    processLine st ("```".data ++ g)
      = { flushParagraph st with inCodeBlock := true, codeLanguage := TrimSpace g } := by
  unfold processLine
  rw [TrimRightCR_marker_append _ _ (by decide) (by decide),
    processTrimmedLine_fence_open st _ hc, TrimSpace_TrimRightCR]

theorem processLine_fence_close (st : MdState) (g : List Char) (hc : st.inCodeBlock = true) :
    processLine st ("```".data ++ g)
      = { st with
          blocks :=
            if st.codeBlockContent.length > 0 then
              st.blocks ++
                [createCodeBlock (String.mk (Join st.codeBlockContent))
                  (String.mk st.codeLanguage)]
            else st.blocks
          inCodeBlock := false
          codeBlockContent := []
          codeLanguage := [] } := by
  unfold processLine
  rw [TrimRightCR_marker_append _ _ (by decide) (by decide),
    processTrimmedLine_fence_close st _ hc]

theorem processLines_code (code : List (List Char)) (st : MdState)
    (hc : st.inCodeBlock = true)
    (hcode : ∀ c ∈ code, HasPrefix c "```".data = false) :
    processLines st code
      = { st with codeBlockContent := st.codeBlockContent ++ code.map TrimRightCR } := by
  induction code generalizing st with
  | nil => simp [processLines]
  | cons c cs ih =>
    have h1 := hcode c (List.mem_cons_self _ _)
    have h2 : HasPrefix (TrimRightCR c) "```".data = false := by
      cases hpre : HasPrefix (TrimRightCR c) "```".data with
      | false => rfl
      | true =>
        rw [HasPrefix_of_TrimRightCR c _ hpre] at h1
        cases h1
    rw [processLines_cons]
    unfold processLine
    rw [processTrimmedLine_code st _ hc h2]
    have h := ih { st with codeBlockContent := st.codeBlockContent ++ [TrimRightCR c] } hc
      (fun x hx => hcode x (List.mem_cons_of_mem _ hx))
    rw [h]
    simp

/-- C18 as stated fails: between an opening fence tagged `go` and a closing
fence, the one line `x` with a carriage return at its end, which does not
start with the fence marker, gives a code block whose text is `x` without the
carriage return, which is not the line verbatim. -/
theorem C18_carriage_return_counterexample :
    (∀ c ∈ ["x\r".data], LF ∉ c ∧ HasPrefix c "```".data = false) ∧
    MarkdownToBlocks (String.mk (Join (("```".data ++ "go".data) :: ["x\r".data] ++ ["```".data])))
      = [Block.code [{ Type_ := "text", Text := some "x", PlainText := "x" }] "go" "block"] ∧
    String.mk (Join ["x\r".data]) = "x\r" ∧
    ("x" : String) ≠ "x\r" :=
  ⟨by decide, rfl, rfl, by decide⟩

/-- C18, amended: an opening fence with a language tag `g`, a non-empty list
of lines none of which starts with the fence marker (each without a line feed
inside), and a closing fence convert to exactly one block, a code block with
one text run, whose text is the lines, each without the carriage returns at
its end and otherwise as it is, joined by line feeds, and whose language is
`g` trimmed. -/
theorem C18_fenced_code (g : List Char) (code : List (List Char)) (hg : LF ∉ g)
    (hne : code ≠ [])
    (hcode : ∀ c ∈ code, LF ∉ c ∧ HasPrefix c "```".data = false) :
    MarkdownToBlocks (String.mk (Join (("```".data ++ g) :: code ++ ["```".data])))
      = [Block.code
           [{ Type_ := "text", Text := some (String.mk (Join (code.map TrimRightCR))),
              PlainText := String.mk (Join (code.map TrimRightCR)) }]
           (String.mk (TrimSpace g)) "block"] := by
  have hfence : LF ∉ "```".data := by decide
  rw [MarkdownToBlocks_of_lines _ (by simp) (by
      intro l hl
      simp only [List.cons_append, List.mem_cons, List.mem_append, List.mem_singleton,
        List.not_mem_nil, or_false] at hl
      rcases hl with rfl | hl | rfl
      · intro h
        have h2 : LF ∈ "```".data ++ g := h
        rcases List.mem_append.mp h2 with h | h
        · exact hfence h
        · exact hg h
      · exact (hcode l hl).1
      · exact hfence) (Char.ofNat 96)
      (mem_Join _ ("```".data ++ g) _ (by simp) (List.mem_append_left _ (by decide)))
      (by decide)]
  rw [List.cons_append, processLines_cons, processLine_fence_open _ g rfl, processLines_append,
    processLines_code code _ rfl (fun c hc => (hcode c hc).2), processLines_cons,
    processLines_nil]
  have e : "```".data = "```".data ++ [] := by simp
  rw [e, processLine_fence_close _ [] rfl]
  have hlen : 0 < code.length := List.length_pos.mpr hne
  simp [finishBlocks, flushParagraph, hlen, createCodeBlock, richTextOf]

/-- C18, amended, at the tag " go" and three lines that look like a heading
(with a carriage return at its end), a blank line and a list item. -/
theorem C18_fenced_code_witness :
    MarkdownToBlocks
        (String.mk (Join (("```".data ++ " go".data)
          :: ["# not a heading\r".data, "".data, "- not an item".data] ++ ["```".data])))
      = [Block.code
           [{ Type_ := "text",
              Text := some (String.mk (Join
                (["# not a heading\r".data, "".data, "- not an item".data].map TrimRightCR))),
              PlainText := String.mk (Join
                (["# not a heading\r".data, "".data, "- not an item".data].map TrimRightCR)) }]
           (String.mk (TrimSpace " go".data)) "block"] :=
  C18_fenced_code " go".data ["# not a heading\r".data, "".data, "- not an item".data]
    (by decide) (by decide) (by decide)

/-! ### C19 and C20: search filter and sort -/

theorem narrowSearchParams_Filter (config : MCPConfig) (args : GoMap) :
    (narrowSearchParams config args).Filter = ((lookup args "filter").asString).getD "" := by
  unfold narrowSearchParams
  cases (lookup args "query").asString <;> cases (lookup args "filter").asString <;>
    cases (lookup args "sortBy").asString <;> cases (lookup args "sortOrder").asString <;>
    cases (lookup args "startCursor").asString <;> cases (lookup args "pageSize").asFloat64 <;>
    rfl

theorem narrowSearchParams_SortBy (config : MCPConfig) (args : GoMap) :
    (narrowSearchParams config args).SortBy = ((lookup args "sortBy").asString).getD "" := by
  unfold narrowSearchParams
  cases (lookup args "query").asString <;> cases (lookup args "filter").asString <;>
    cases (lookup args "sortBy").asString <;> cases (lookup args "sortOrder").asString <;>
    cases (lookup args "startCursor").asString <;> cases (lookup args "pageSize").asFloat64 <;>
    rfl

theorem narrowSearchParams_SortOrder (config : MCPConfig) (args : GoMap) :
    (narrowSearchParams config args).SortOrder
      = ((lookup args "sortOrder").asString).getD "" := by
  unfold narrowSearchParams
  cases (lookup args "query").asString <;> cases (lookup args "filter").asString <;>
    cases (lookup args "sortBy").asString <;> cases (lookup args "sortOrder").asString <;>
    cases (lookup args "startCursor").asString <;> cases (lookup args "pageSize").asFloat64 <;>
    rfl

/-- C19: the custom search request built from an arguments map has the filter
`object = page` iff the `filter` argument is the string "page", the filter
`object = database` iff it is the string "database", and a nil filter in every
other case (another string, no entry, not a string); the provider struct then
holds that filter, or the zero filter when it is nil. -/
theorem C19_search_filter (config : MCPConfig) (args : GoMap) :
    ((buildCustomSearchRequest (narrowSearchParams config args)).Filter
        = some { Property := "object", Value := "page" } ↔
      (lookup args "filter").asString = some "page") ∧
    ((buildCustomSearchRequest (narrowSearchParams config args)).Filter
        = some { Property := "object", Value := "database" } ↔
      (lookup args "filter").asString = some "database") ∧
    ((buildCustomSearchRequest (narrowSearchParams config args)).Filter = none ↔
      ((lookup args "filter").asString ≠ some "page" ∧
        (lookup args "filter").asString ≠ some "database")) ∧
    (buildSearchRequest (narrowSearchParams config args)).Filter
      = ((buildCustomSearchRequest (narrowSearchParams config args)).Filter).getD
          { Value := "", Property := "" } := by
  have hf := narrowSearchParams_Filter config args
  simp only [buildSearchRequest, CustomSearchRequest.toSearchRequest, buildCustomSearchRequest, hf]
  cases h : (lookup args "filter").asString with
  | none => simp
  | some v =>
    simp only [Option.getD_some]
    by_cases h1 : v = "page"
    · subst h1
      simp
    · by_cases h2 : v = "database"
      · subst h2
        simp
      · simp [h1, h2]

/-- C20: the search request built from an arguments map has a sort object iff
`sortBy` and `sortOrder` are both non-empty strings; its timestamp is then
`last_edited_time`, and its direction is `descending` iff `sortOrder` is the
string "descending", and `ascending` otherwise. -/
theorem C20_search_sort (config : MCPConfig) (args : GoMap) :
    ((buildSearchRequest (narrowSearchParams config args)).Sort_.isSome = true ↔
      ∃ sortBy sortOrder, (lookup args "sortBy").asString = some sortBy ∧ sortBy ≠ "" ∧
        (lookup args "sortOrder").asString = some sortOrder ∧ sortOrder ≠ "") ∧
    (∀ sort, (buildSearchRequest (narrowSearchParams config args)).Sort_ = some sort →
      sort.Timestamp = "last_edited_time" ∧
      (sort.Direction = "descending" ↔ (lookup args "sortOrder").asString = some "descending") ∧
      ((lookup args "sortOrder").asString ≠ some "descending" → sort.Direction = "ascending")) := by
  have hb := narrowSearchParams_SortBy config args
  have ho := narrowSearchParams_SortOrder config args
  simp only [buildSearchRequest, CustomSearchRequest.toSearchRequest, buildCustomSearchRequest,
    hb, ho]
  cases h1 : (lookup args "sortBy").asString with
  | none => simp
  | some sortBy =>
    cases h2 : (lookup args "sortOrder").asString with
    | none => simp
    | some sortOrder =>
      simp only [Option.getD_some]
      by_cases e1 : sortBy = ""
      · simp [e1]
      · by_cases e2 : sortOrder = ""
        · simp [e2]
        · have hcond : (sortBy != "" && sortOrder != "") = true := by simp [e1, e2]
          rw [if_pos hcond]
          refine ⟨by simp [e1, e2], ?_⟩
          intro sort hs
          have hs2 := Option.some.inj hs
          rw [← hs2]
          by_cases e3 : sortOrder = "descending"
          · simp [e3]
          · simp [e3]

/-- C20 at `sortBy` "last_edited_time" and `sortOrder` "descending". -/
theorem C20_search_sort_witness :
    (buildSearchRequest
        (narrowSearchParams defaultServer.config
          [("sortBy", GoVal.str "last_edited_time"),
           ("sortOrder", GoVal.str "descending")])).Sort_
      = some { Direction := "descending", Timestamp := "last_edited_time" } ∧
    ("last_edited_time" = "last_edited_time" ∧
      ("descending" = "descending" ↔
        (lookup [("sortBy", GoVal.str "last_edited_time"), ("sortOrder", GoVal.str "descending")]
          "sortOrder").asString = some "descending") ∧
      ((lookup [("sortBy", GoVal.str "last_edited_time"), ("sortOrder", GoVal.str "descending")]
          "sortOrder").asString ≠ some "descending" → "descending" = "ascending")) :=
  ⟨rfl,
   (C20_search_sort defaultServer.config
      [("sortBy", GoVal.str "last_edited_time"), ("sortOrder", GoVal.str "descending")]).2
      { Direction := "descending", Timestamp := "last_edited_time" } rfl⟩

/-! ### C21: the page size of a search -/

theorem lookup_cons (k : String) (v : GoVal) (m : GoMap) (key : String) :
    lookup ((k, v) :: m) key = if k = key then v else lookup m key := by
  unfold lookup
  by_cases h : k = key
  · simp [List.find?, h]
  · have hb : (k == key) = false := by simp [h]
    simp only [List.find?, hb, if_neg h]

theorem lookup_of_not_mem (m : GoMap) (key : String) (h : ∀ v, (key, v) ∉ m) :
    lookup m key = GoVal.nil := by
  induction m with
  | nil => rfl
  | cons kv rest ih =>
    obtain ⟨k, v⟩ := kv
    rw [lookup_cons]
    have hk : k ≠ key := by
      intro e
      exact h v (by simp [e])
    rw [if_neg hk]
    exact ih (fun v hv => h v (List.mem_cons_of_mem _ hv))

theorem toolsCall_calls (s : MCPServer) (client : NotionClient) (enc : Encoder)
    (req : Request) (toolCall : ToolCall) (outcome : Outcome (Except String ToolResult))
    (hm : req.Method = "tools/call")
    (hp : parseToolCallParams req.Params = .ok toolCall)
    (hd : dispatchTool s client enc toolCall = some outcome) :
    (HandleRequest s client enc req).calls = outcome.calls := by
  rw [handleRequest_toolsCall s client enc req hm]
  unfold handleToolsCall
  rw [hp]
  simp only [hd]
  cases outcome with
  | panicked calls => rfl
  | returned value calls =>
    cases value <;> rfl

theorem handleNotionSearch_calls (s : MCPServer) (client : NotionClient) (enc : Encoder)
    (args : GoMap) :
    (handleNotionSearch s client enc args).calls
      = [ProviderCall.searchDo (buildSearchRequest (narrowSearchParams s.config args))] := by
  unfold handleNotionSearch
  simp only
  cases client.searchDo [] (buildSearchRequest (narrowSearchParams s.config args)) with
  | error err => rfl
  | ok searchResp =>
    simp only
    cases enc.searchResult _ <;> rfl

theorem narrowSearchParams_PageSize (config : MCPConfig) (args : GoMap) :
    (narrowSearchParams config args).PageSize
      = match (lookup args "pageSize").asFloat64 with
        | some pageSize => floatToInt pageSize
        | none => config.DefaultPageSize := by
  unfold narrowSearchParams
  cases (lookup args "query").asString <;> cases (lookup args "filter").asString <;>
    cases (lookup args "sortBy").asString <;> cases (lookup args "sortOrder").asString <;>
    cases (lookup args "startCursor").asString <;> cases (lookup args "pageSize").asFloat64 <;>
    rfl

theorem floatToInt_intCast (n : Int) : floatToInt (n : Rat) = n := by
  simp [floatToInt]

/-- C21: a `notion_search` call makes one provider search request; when the
arguments have no `pageSize` entry its page size is the `DefaultPageSize` of
the server's config, and when `pageSize` is the number `n` (an integer in the
range of `int`, as a JSON number is decoded) its page size is `n`. -/
theorem C21_search_page_size (s : MCPServer) (client : NotionClient) (enc : Encoder)
    (req : Request) (toolCall : ToolCall)
    (hm : req.Method = "tools/call")
    (hp : parseToolCallParams req.Params = .ok toolCall)
    (hn : toolCall.Name = "notion_search") :
    ∃ searchReq, (HandleRequest s client enc req).calls = [ProviderCall.searchDo searchReq] ∧
      ((∀ v, ("pageSize", v) ∉ toolCall.Arguments) →
        searchReq.PageSize = s.config.DefaultPageSize) ∧
      (∀ n : Int, -9223372036854775808 ≤ n → n ≤ 9223372036854775807 →
        lookup toolCall.Arguments "pageSize" = GoVal.float64 n → searchReq.PageSize = n) := by
  have hd : dispatchTool s client enc toolCall
      = some (handleNotionSearch s client enc toolCall.Arguments) := by
    simp [dispatchTool, hn]
  refine ⟨buildSearchRequest (narrowSearchParams s.config toolCall.Arguments), ?_, ?_, ?_⟩
  · rw [toolsCall_calls s client enc req toolCall _ hm hp hd, handleNotionSearch_calls]
  · intro h
    have hl := lookup_of_not_mem toolCall.Arguments "pageSize" h
    have hps := narrowSearchParams_PageSize s.config toolCall.Arguments
    rw [hl] at hps
    exact hps
  · intro n _ _ hl
    have hps := narrowSearchParams_PageSize s.config toolCall.Arguments
    rw [hl] at hps
    simp only [GoVal.asFloat64, floatToInt_intCast] at hps
    exact hps

/-- C21 at a call with `pageSize` 25 on the default server, whose default
page size is 10. -/
theorem C21_search_page_size_witness :
    ∃ searchReq,
      (HandleRequest defaultServer quietClient plainEncoder
          (mkToolCall "notion_search" [("pageSize", GoVal.float64 25)])).calls
        = [ProviderCall.searchDo searchReq] ∧
      ((∀ v, ("pageSize", v) ∉ [("pageSize", GoVal.float64 25)]) →
        searchReq.PageSize = defaultServer.config.DefaultPageSize) ∧
      (∀ n : Int, -9223372036854775808 ≤ n → n ≤ 9223372036854775807 →
        lookup [("pageSize", GoVal.float64 25)] "pageSize" = GoVal.float64 n →
        searchReq.PageSize = n) :=
  C21_search_page_size defaultServer quietClient plainEncoder
    (mkToolCall "notion_search" [("pageSize", GoVal.float64 25)])
    { Name := "notion_search", Arguments := [("pageSize", GoVal.float64 25)] }
    rfl rfl rfl

/-! ### C22: the page size through the typed facade -/

theorem callTool_calls (sdk : NotionMCPSDK) (client : NotionClient) (enc : Encoder)
    (toolCall : ToolCall) :
    (sdk.callTool client enc toolCall).calls
      = (HandleRequest sdk.server client enc
          { JSONRPC := "2.0", ID := intLit 1, Method := "tools/call",
            Params := GoVal.toolCall toolCall.Name toolCall.Arguments }).calls := by
  unfold NotionMCPSDK.callTool
  simp only
  cases HandleRequest sdk.server client enc
      { JSONRPC := "2.0", ID := intLit 1, Method := "tools/call",
        Params := GoVal.toolCall toolCall.Name toolCall.Arguments } with
  | panicked calls => rfl
  | returned resp calls =>
    simp only
    cases resp.Error with
    | some err => rfl
    | none =>
      simp only
      cases resp.Result.bind ResultVal.asToolResult <;> rfl

theorem sdkSearch_calls (sdk : NotionMCPSDK) (client : NotionClient) (enc : Encoder)
    (dec : Decoder) (params : NotionSearchParams) :
    (sdk.Search client enc dec params).calls
      = (sdk.callTool client enc { Name := "notion_search", Arguments := searchArgs params }).calls := by
  unfold NotionMCPSDK.Search
  cases sdk.callTool client enc { Name := "notion_search", Arguments := searchArgs params } with
  | panicked calls => rfl
  | returned value calls =>
    cases value with
    | error err => rfl
    | ok result =>
      simp only
      cases result.Content with
      | nil => rfl
      | cons content rest =>
        simp only
        cases dec.searchResult content.Text <;> rfl

theorem lookup_searchArgs_pageSize (params : NotionSearchParams) :
    lookup (searchArgs params) "pageSize" = intLit params.PageSize := by
  unfold searchArgs
  simp only [List.singleton_append, List.cons_append, List.nil_append, lookup_cons, if_true]

/-- C22 fails on the code: whatever page size the typed parameters carry, the
search request `NotionMCPSDK.Search` causes has the `DefaultPageSize` of the
config, because the facade hands `pageSize` over as an `int` and the handler
takes it only as a `float64`.  With the default config and the parameters of
the integration test (page size 5) the request asks for 10. -/
theorem C22_sdk_page_size_ignored :
    (∀ (sdk : NotionMCPSDK) (client : NotionClient) (enc : Encoder) (dec : Decoder)
        (params : NotionSearchParams),
      ∃ searchReq,
        (sdk.Search client enc dec params).calls = [ProviderCall.searchDo searchReq] ∧
        searchReq.PageSize = sdk.config.DefaultPageSize) ∧
    NewNotionMCPSDKWithDefaults "secret" = .ok defaultSDK ∧
    (defaultSDK.Search quietClient plainEncoder plainDecoder
        { Query := "MCP", Filter := "page", SortBy := "last_edited_time",
          SortOrder := "descending", PageSize := 5 }).calls
      = [ProviderCall.searchDo
          { Query := "MCP"
            Sort_ := some { Direction := "descending", Timestamp := "last_edited_time" }
            Filter := { Value := "page", Property := "object" }
            StartCursor := ""
            PageSize := 10 }] := by
  refine ⟨?_, rfl, rfl⟩
  intro sdk client enc dec params
  refine ⟨buildSearchRequest (narrowSearchParams sdk.server.config (searchArgs params)), ?_, ?_⟩
  · rw [sdkSearch_calls, callTool_calls]
    rw [toolsCall_calls sdk.server client enc
      { JSONRPC := "2.0", ID := intLit 1, Method := "tools/call",
        Params := GoVal.toolCall "notion_search" (searchArgs params) }
      { Name := "notion_search", Arguments := searchArgs params }
      (handleNotionSearch sdk.server client enc (searchArgs params)) rfl rfl
      (by simp [dispatchTool])]
    exact handleNotionSearch_calls _ _ _ _
  · have hps := narrowSearchParams_PageSize sdk.server.config (searchArgs params)
    rw [lookup_searchArgs_pageSize] at hps
    exact hps

/-! ### C23: the properties of a created page -/

theorem getProperty_nil (k : String) : getProperty [] k = none := rfl

theorem getProperty_cons (key : String) (value : PropertyValue) (m : Properties) (k : String) :
    getProperty ((key, value) :: m) k = if key = k then some value else getProperty m k := by
  unfold getProperty
  by_cases h : key = k
  · simp [List.find?, h]
  · have hb : (key == k) = false := by simp [h]
    simp only [List.find?, hb, if_neg h]

theorem mem_propertyKeys_iff (m : Properties) (k : String) :
    k ∈ propertyKeys m ↔ (getProperty m k).isSome = true := by
  induction m with
  | nil => simp [propertyKeys, getProperty_nil]
  | cons kv rest ih =>
    obtain ⟨key, value⟩ := kv
    rw [getProperty_cons]
    have hk : propertyKeys ((key, value) :: rest) = key :: propertyKeys rest := rfl
    rw [hk, List.mem_cons, ih]
    by_cases h : key = k
    · simp [h]
    · have h2 : ¬ k = key := fun e => h e.symm
      simp [h, h2]

theorem getProperty_append_singleton (m : Properties) (key : String) (value : PropertyValue)
    (k : String) :
    getProperty (m ++ [(key, value)]) k
      = match getProperty m k with
        | some v => some v
        | none => if key = k then some value else none := by
  induction m with
  | nil =>
    rw [List.nil_append, getProperty_cons, getProperty_nil]
  | cons kv rest ih =>
    obtain ⟨key2, value2⟩ := kv
    rw [List.cons_append, getProperty_cons, getProperty_cons, ih]
    by_cases h : key2 = k
    · simp [h]
    · simp [h]

theorem getProperty_map_replace (m : Properties) (key : String) (value : PropertyValue)
    (k : String) :
    getProperty (m.map (fun kv => if kv.1 == key then (key, value) else kv)) k
      = match getProperty m k with
        | some v => if k = key then some value else some v
        | none => none := by
  induction m with
  | nil => rfl
  | cons kv rest ih =>
    obtain ⟨key2, value2⟩ := kv
    rw [List.map_cons]
    by_cases h : key2 = key
    · have hb : (key2 == key) = true := by simp [h]
      simp only [hb, if_true]
      rw [getProperty_cons, getProperty_cons, ih]
      by_cases h2 : key = k
      · have h3 : key2 = k := h.trans h2
        simp [h2, h3]
      · have h3 : ¬ key2 = k := fun e => h2 (h.symm.trans e)
        simp [h2, h3]
    · have hb : (key2 == key) = false := by simp [h]
      simp only [hb]
      rw [getProperty_cons, getProperty_cons, ih]
      by_cases h2 : key2 = k
      · have h3 : ¬ k = key := fun e => h (h2.trans e)
        simp [h2, h3]
      · simp [h2]

theorem any_key_iff (m : Properties) (key : String) :
    m.any (fun kv => kv.1 == key) = (getProperty m key).isSome := by
  induction m with
  | nil => rfl
  | cons kv rest ih =>
    obtain ⟨key2, value2⟩ := kv
    rw [List.any_cons, getProperty_cons, ih]
    by_cases h : key2 = key
    · simp [h]
    · simp [h]

/-- Map write followed by map read. -/
theorem getProperty_setProperty (m : Properties) (key : String) (value : PropertyValue)
    (k : String) :
    getProperty (setProperty m key value) k = if k = key then some value else getProperty m k := by
  unfold setProperty
  rw [any_key_iff]
  cases hg : getProperty m key with
  | none =>
    simp only [Option.isSome_none, Bool.false_eq_true, if_false]
    rw [getProperty_append_singleton]
    by_cases h : k = key
    · subst h
      simp [hg]
    · have h2 : ¬ key = k := fun e => h e.symm
      cases getProperty m k <;> simp [h, h2]
  | some v =>
    simp only [Option.isSome_some, if_true]
    rw [getProperty_map_replace]
    by_cases h : k = key
    · subst h
      simp [hg]
    · cases getProperty m k <;> simp [h]

theorem lookup_of_not_mem_keys (m : GoMap) (key : String) (h : key ∉ m.map Prod.fst) :
    lookup m key = GoVal.nil := by
  apply lookup_of_not_mem
  intro v hv
  exact h (List.mem_map.mpr ⟨(key, v), hv, rfl⟩)

/-- The property loop, read key by key: on a map with distinct keys, a key
whose value is a string holds the rich-text property of that string, and every
other key holds what it held before the loop. -/
theorem getProperty_addStringProperties (properties : GoMap)
    (hnd : (properties.map Prod.fst).Nodup) (init : Properties) (k : String) :
    getProperty (addStringProperties properties init) k
      = match (lookup properties k).asString with
        | some strValue =>
          some (PropertyValue.richText [{ Type_ := "text", Text := some strValue }])
        | none => getProperty init k := by
  induction properties generalizing init with
  | nil => rfl
  | cons kv rest ih =>
    obtain ⟨key, value⟩ := kv
    have hnd2 : (rest.map Prod.fst).Nodup := (List.nodup_cons.mp hnd).2
    have hnot : key ∉ rest.map Prod.fst := (List.nodup_cons.mp hnd).1
    have hstep : addStringProperties ((key, value) :: rest) init
        = addStringProperties rest
            (match value.asString with
              | some strValue =>
                setProperty init key
                  (PropertyValue.richText [{ Type_ := "text", Text := some strValue }])
              | none => init) := rfl
    rw [hstep, ih hnd2, lookup_cons]
    by_cases h : key = k
    · subst h
      rw [lookup_of_not_mem_keys rest key hnot, if_pos rfl]
      have hnil : GoVal.nil.asString = none := rfl
      rw [hnil]
      cases hv : value.asString with
      | none => rfl
      | some strValue =>
        simp only
        rw [getProperty_setProperty, if_pos rfl]
    · rw [if_neg h]
      cases hl : (lookup rest k).asString with
      | some strValue => rfl
      | none =>
        simp only
        cases hv : value.asString with
        | none => rfl
        | some strValue =>
          simp only
          rw [getProperty_setProperty, if_neg (fun e => h e.symm)]

theorem narrowCreatePageParams_ok (args : GoMap) (params : NotionCreatePageParams)
    (h : narrowCreatePageParams args = .ok params) :
    (lookup args "parentId").asString = some params.ParentID ∧
    (lookup args "title").asString = some params.Title ∧
    params.Content = ((lookup args "content").asString).getD "" ∧
    params.Properties = ((lookup args "properties").asMap).getD [] ∧
    narrowIcon args = some params.Icon ∧
    narrowCover args = some params.Cover := by
  unfold narrowCreatePageParams at h
  cases hparent : (lookup args "parentId").asString with
  | none => simp [hparent] at h
  | some parentID =>
    cases htitle : (lookup args "title").asString with
    | none => simp [hparent, htitle] at h
    | some title =>
      cases hicon : narrowIcon args with
      | none => simp [hparent, htitle, hicon] at h
      | some icon =>
        cases hcover : narrowCover args with
        | none => simp [hparent, htitle, hicon, hcover] at h
        | some cover =>
          simp only [hparent, htitle, hicon, hcover] at h
          cases hc : (lookup args "content").asString <;>
            cases hp : (lookup args "properties").asMap <;>
            simp only [hc, hp] at h <;>
            cases h <;>
            exact ⟨rfl, rfl, rfl, rfl, rfl, rfl⟩

/-- The result and the calls of the tail of the page handlers: neither depends
on how the provider answers the append. -/
theorem finishPage_eq (client : NotionClient) (enc : Encoder) (content : String) (page : Page)
    (calls : List ProviderCall) :
    finishPage client enc content page calls
      = .returned
          (match enc.pageResult (convertToNotionPageResult page) with
            | .error err => .error ("failed to marshal page result: " ++ err)
            | .ok resultJSON => .ok (textResult resultJSON))
          (if content = "" then calls
            else calls ++
              [ProviderCall.blockAppendChildren page.ID
                { Children := [Block.paragraph [richTextOf content]] }]) := by
  unfold finishPage
  by_cases hc : content = ""
  · subst hc
    simp only [if_true]
    cases enc.pageResult (convertToNotionPageResult page) <;> rfl
  · have hb : (content != "") = true := by simp [hc]
    simp only [hb, if_true, if_neg hc, parseContentToBlocks, List.map_cons, List.map_nil,
      List.length_singleton, gt_iff_lt, Nat.lt_one_iff, Nat.zero_lt_one]
    cases client.blockAppendChildren calls page.ID
        { Children := [Block.paragraph [richTextOf content]] } <;>
      cases enc.pageResult (convertToNotionPageResult page) <;> rfl

theorem handleNotionCreatePage_calls (client : NotionClient) (enc : Encoder) (args : GoMap)
    (params : NotionCreatePageParams) (h : narrowCreatePageParams args = .ok params) :
    (handleNotionCreatePage client enc args).calls
      = ProviderCall.pageCreate (buildCreateRequest params) ::
          (match client.pageCreate [] (buildCreateRequest params) with
            | .error _ => []
            | .ok page =>
              if params.Content = "" then []
              else [ProviderCall.blockAppendChildren page.ID
                { Children := [Block.paragraph [richTextOf params.Content]] }]) := by
  unfold handleNotionCreatePage
  simp only [h]
  cases client.pageCreate [] (buildCreateRequest params) with
  | error err => rfl
  | ok page =>
    simp only [finishPage_eq]
    by_cases hc : params.Content = ""
    · simp [hc, Outcome.calls]
    · simp [hc, Outcome.calls]

/-- C23: for a create-page call whose `properties` argument is the map `P`,
the property keys of the create request are `title` and the keys of `P` whose
value is a string; each of those keys holds the rich-text property whose one
run has the content `P[k]`; and a key other than `title` whose value in `P` is
not a string is not in the request, which is issued all the same. -/
theorem C23_create_properties (s : MCPServer) (client : NotionClient) (enc : Encoder)
    (req : Request) (toolCall : ToolCall) (params : NotionCreatePageParams) (P : GoMap)
    (hm : req.Method = "tools/call")
    (hp : parseToolCallParams req.Params = .ok toolCall)
    (hn : toolCall.Name = "notion_create_page")
    (hnarrow : narrowCreatePageParams toolCall.Arguments = .ok params)
    (hP : (lookup toolCall.Arguments "properties").asMap = some P)
    (hnd : (P.map Prod.fst).Nodup) :
    ∃ createReq rest,
      (HandleRequest s client enc req).calls = ProviderCall.pageCreate createReq :: rest ∧
      (∀ k, k ∈ propertyKeys createReq.Properties ↔
        (k = "title" ∨ ∃ strValue, (lookup P k).asString = some strValue)) ∧
      (∀ k strValue, (lookup P k).asString = some strValue →
        getProperty createReq.Properties k
          = some (PropertyValue.richText [{ Type_ := "text", Text := some strValue }])) ∧
      (∀ k, k ≠ "title" → (lookup P k).asString = none →
        k ∉ propertyKeys createReq.Properties) := by
  have hd : dispatchTool s client enc toolCall
      = some (handleNotionCreatePage client enc toolCall.Arguments) := by
    simp [dispatchTool, hn]
  have hprops : params.Properties = P := by
    rw [(narrowCreatePageParams_ok _ _ hnarrow).2.2.2.1, hP]
    rfl
  have hget : ∀ k, getProperty (buildCreateRequest params).Properties k
      = match (lookup P k).asString with
        | some strValue =>
          some (PropertyValue.richText [{ Type_ := "text", Text := some strValue }])
        | none =>
          if "title" = k then
            some (PropertyValue.title [{ Type_ := "text", Text := some params.Title }])
          else none := by
    intro k
    unfold buildCreateRequest
    simp only [hprops]
    rw [getProperty_addStringProperties P hnd, getProperty_cons, getProperty_nil]
  refine ⟨buildCreateRequest params,
    (match client.pageCreate [] (buildCreateRequest params) with
      | .error _ => []
      | .ok page =>
        if params.Content = "" then []
        else [ProviderCall.blockAppendChildren page.ID
          { Children := [Block.paragraph [richTextOf params.Content]] }]),
    ?_, ?_, ?_, ?_⟩
  · rw [toolsCall_calls s client enc req toolCall _ hm hp hd,
      handleNotionCreatePage_calls client enc _ params hnarrow]
  · intro k
    rw [mem_propertyKeys_iff, hget]
    cases hl : (lookup P k).asString with
    | some strValue => simp
    | none =>
      by_cases hk : "title" = k
      · simp [hk.symm]
      · have hk2 : ¬ k = "title" := fun e => hk e.symm
        simp [hk, hk2]
  · intro k strValue hl
    rw [hget, hl]
  · intro k hk hl
    rw [mem_propertyKeys_iff, hget, hl]
    have hk2 : ¬ "title" = k := fun e => hk e.symm
    simp [hk2]

/-- C23 at a call whose properties hold one string and one number. -/
theorem C23_create_properties_witness :
    ∃ createReq rest,
      (HandleRequest defaultServer quietClient plainEncoder
          (mkToolCall "notion_create_page"
            [("parentId", GoVal.str "p"), ("title", GoVal.str "t"),
             ("properties", GoVal.map
               [("Status", GoVal.str "open"), ("Count", GoVal.float64 3)])])).calls
        = ProviderCall.pageCreate createReq :: rest ∧
      (∀ k, k ∈ propertyKeys createReq.Properties ↔
        (k = "title" ∨ ∃ strValue,
          (lookup [("Status", GoVal.str "open"), ("Count", GoVal.float64 3)] k).asString
            = some strValue)) ∧
      (∀ k strValue,
        (lookup [("Status", GoVal.str "open"), ("Count", GoVal.float64 3)] k).asString
            = some strValue →
        getProperty createReq.Properties k
          = some (PropertyValue.richText [{ Type_ := "text", Text := some strValue }])) ∧
      (∀ k, k ≠ "title" →
        (lookup [("Status", GoVal.str "open"), ("Count", GoVal.float64 3)] k).asString = none →
        k ∉ propertyKeys createReq.Properties) :=
  C23_create_properties defaultServer quietClient plainEncoder
    (mkToolCall "notion_create_page"
      [("parentId", GoVal.str "p"), ("title", GoVal.str "t"),
       ("properties", GoVal.map [("Status", GoVal.str "open"), ("Count", GoVal.float64 3)])])
    { Name := "notion_create_page"
      Arguments :=
        [("parentId", GoVal.str "p"), ("title", GoVal.str "t"),
         ("properties", GoVal.map [("Status", GoVal.str "open"), ("Count", GoVal.float64 3)])] }
    { ParentID := "p", Title := "t"
      Properties := [("Status", GoVal.str "open"), ("Count", GoVal.float64 3)] }
    [("Status", GoVal.str "open"), ("Count", GoVal.float64 3)]
    rfl rfl rfl rfl rfl (by decide)

/-! ### C24: icon and cover of a created page -/

/-- The calls of a create-page request that arrives as a JSON document, when
the narrowing of its arguments ends in typed parameters. -/
theorem createPage_calls (s : MCPServer) (client : NotionClient) (enc : Encoder)
    (req : Request) (args : GoMap) (params : NotionCreatePageParams)
    (hm : req.Method = "tools/call")
    (hp : parseToolCallParams req.Params = .ok { Name := "notion_create_page", Arguments := args })
    (hnarrow : narrowCreatePageParams args = .ok params) :
    (HandleRequest s client enc req).calls
      = ProviderCall.pageCreate (buildCreateRequest params) ::
          (match client.pageCreate [] (buildCreateRequest params) with
            | .error _ => []
            | .ok page =>
              if params.Content = "" then []
              else [ProviderCall.blockAppendChildren page.ID
                { Children := [Block.paragraph [richTextOf params.Content]] }]) := by
  rw [toolsCall_calls s client enc req _ (handleNotionCreatePage client enc args) hm hp
      (by simp [dispatchTool]),
    handleNotionCreatePage_calls client enc _ params hnarrow]

/-- C24 fails on the code.  An icon argument of type `external` with a `url`
makes the call panic when it has no `emoji` entry, and is left out of the
create request when all three entries are strings; an `emoji` icon without a
`url` entry and a cover without a `type` entry panic as well.  The request
carries an emoji icon, and an external cover, only when every entry the
handler reads is a string. -/
theorem C24_icon_and_cover :
    (∀ (s : MCPServer) (client : NotionClient) (enc : Encoder) (u : String),
      HandleRequest s client enc
          (mkToolCall "notion_create_page"
            [("parentId", GoVal.str "p"), ("title", GoVal.str "t"),
             ("icon", GoVal.map [("type", GoVal.str "external"), ("url", GoVal.str u)])])
        = .panicked []) ∧
    (∀ (s : MCPServer) (client : NotionClient) (enc : Encoder) (u : String),
      ∃ createReq rest,
        (HandleRequest s client enc
            (mkToolCall "notion_create_page"
              [("parentId", GoVal.str "p"), ("title", GoVal.str "t"),
               ("icon", GoVal.map
                 [("type", GoVal.str "external"), ("emoji", GoVal.str ""),
                  ("url", GoVal.str u)])])).calls
          = ProviderCall.pageCreate createReq :: rest ∧
        createReq.Icon = none) ∧
    (∀ (s : MCPServer) (client : NotionClient) (enc : Encoder) (e : String),
      HandleRequest s client enc
          (mkToolCall "notion_create_page"
            [("parentId", GoVal.str "p"), ("title", GoVal.str "t"),
             ("icon", GoVal.map [("type", GoVal.str "emoji"), ("emoji", GoVal.str e)])])
        = .panicked []) ∧
    (∀ (s : MCPServer) (client : NotionClient) (enc : Encoder) (c : String),
      HandleRequest s client enc
          (mkToolCall "notion_create_page"
            [("parentId", GoVal.str "p"), ("title", GoVal.str "t"),
             ("cover", GoVal.map [("url", GoVal.str c)])])
        = .panicked []) ∧
    (∀ (s : MCPServer) (client : NotionClient) (enc : Encoder) (e c : String),
      ∃ createReq rest,
        (HandleRequest s client enc
            (mkToolCall "notion_create_page"
              [("parentId", GoVal.str "p"), ("title", GoVal.str "t"),
               ("icon", GoVal.map
                 [("type", GoVal.str "emoji"), ("emoji", GoVal.str e), ("url", GoVal.str "")]),
               ("cover", GoVal.map
                 [("type", GoVal.str "external"), ("url", GoVal.str c)])])).calls
          = ProviderCall.pageCreate createReq :: rest ∧
        createReq.Icon = some { Type_ := "emoji", Emoji := some e, External := none } ∧
        createReq.Cover
          = some { Type_ := "external", External := some { URL := c }, GetURL := "" }) := by
  refine ⟨fun _ _ _ _ => rfl, ?_, fun _ _ _ _ => rfl, fun _ _ _ _ => rfl, ?_⟩
  · intro s client enc u
    exact ⟨_, _,
      createPage_calls s client enc _ _
        { ParentID := "p", Title := "t"
          Icon := some { Type_ := "external", Emoji := "", URL := u } } rfl rfl rfl,
      rfl⟩
  · intro s client enc e c
    exact ⟨_, _,
      createPage_calls s client enc _ _
        { ParentID := "p", Title := "t"
          Icon := some { Type_ := "emoji", Emoji := e, URL := "" }
          Cover := some { Type_ := "external", URL := c } } rfl rfl rfl,
      rfl, rfl⟩

/-! ### C25: a failed append after create or update -/

theorem narrowUpdatePageParams_ok (args : GoMap) (params : NotionUpdatePageParams)
    (h : narrowUpdatePageParams args = .ok params) :
    (lookup args "pageId").asString = some params.PageID ∧
    params.Title = ((lookup args "title").asString).getD "" ∧
    params.Content = ((lookup args "content").asString).getD "" ∧
    params.Properties = ((lookup args "properties").asMap).getD [] ∧
    params.Archived = (lookup args "archived").asBool := by
  unfold narrowUpdatePageParams at h
  cases hpage : (lookup args "pageId").asString with
  | none => simp [hpage] at h
  | some pageID =>
    simp only [hpage] at h
    cases ht : (lookup args "title").asString <;>
      cases hc : (lookup args "content").asString <;>
      cases hp : (lookup args "properties").asMap <;>
      cases ha : (lookup args "archived").asBool <;>
      simp only [ht, hc, hp, ha] at h <;>
      cases h <;>
      exact ⟨rfl, rfl, rfl, rfl, rfl⟩

/-- The create-page handler once the page is created: the outcome is fixed by
the page and the encoder. -/
theorem handleNotionCreatePage_created (client : NotionClient) (enc : Encoder) (args : GoMap)
    (params : NotionCreatePageParams) (page : Page)
    (hnarrow : narrowCreatePageParams args = .ok params)
    (hc : client.pageCreate [] (buildCreateRequest params) = .ok page) :
    handleNotionCreatePage client enc args
      = .returned
          (match enc.pageResult (convertToNotionPageResult page) with
            | .error err => .error ("failed to marshal page result: " ++ err)
            | .ok resultJSON => .ok (textResult resultJSON))
          (if params.Content = "" then [ProviderCall.pageCreate (buildCreateRequest params)]
            else [ProviderCall.pageCreate (buildCreateRequest params)] ++
              [ProviderCall.blockAppendChildren page.ID
                { Children := [Block.paragraph [richTextOf params.Content]] }]) := by
  unfold handleNotionCreatePage
  simp only [hnarrow, hc, finishPage_eq]

/-- The update-page handler once the page is updated. -/
theorem handleNotionUpdatePage_updated (client : NotionClient) (enc : Encoder) (args : GoMap)
    (params : NotionUpdatePageParams) (page : Page)
    (hnarrow : narrowUpdatePageParams args = .ok params)
    (hc : client.pageUpdate [] params.PageID (buildUpdateRequest params) = .ok page) :
    handleNotionUpdatePage client enc args
      = .returned
          (match enc.pageResult (convertToNotionPageResult page) with
            | .error err => .error ("failed to marshal page result: " ++ err)
            | .ok resultJSON => .ok (textResult resultJSON))
          (if params.Content = "" then
              [ProviderCall.pageUpdate params.PageID (buildUpdateRequest params)]
            else [ProviderCall.pageUpdate params.PageID (buildUpdateRequest params)] ++
              [ProviderCall.blockAppendChildren page.ID
                { Children := [Block.paragraph [richTextOf params.Content]] }]) := by
  unfold handleNotionUpdatePage
  simp only [hnarrow, hc, finishPage_eq]

/-- C25: for create-page and update-page with content that is not empty, when
the create (update) call answers with a page and the append call that follows
fails, the response is the success envelope whose one text item is the
encoding of the conversion of that page, after the two provider calls; and
every provider that answers the create (update) call with the same page, however
it answers the append, gets the same response. -/
theorem C25_append_failure_swallowed (s : MCPServer) (client : NotionClient) (enc : Encoder)
    (req : Request) (toolCall : ToolCall) (text : String)
    (hm : req.Method = "tools/call")
    (hp : parseToolCallParams req.Params = .ok toolCall) :
    (∀ params page err, toolCall.Name = "notion_create_page" →
      narrowCreatePageParams toolCall.Arguments = .ok params →
      params.Content ≠ "" →
      client.pageCreate [] (buildCreateRequest params) = .ok page →
      client.blockAppendChildren [ProviderCall.pageCreate (buildCreateRequest params)] page.ID
          { Children := parseContentToBlocks params.Content } = .error err →
      enc.pageResult (convertToNotionPageResult page) = .ok text →
      HandleRequest s client enc req
        = .returned
            { JSONRPC := "2.0", ID := req.ID, Error := none,
              Result := some (ResultVal.toolResult
                { Content := [{ Type_ := "text", Text := text }], IsError := false }) }
            [ProviderCall.pageCreate (buildCreateRequest params),
             ProviderCall.blockAppendChildren page.ID
               { Children := parseContentToBlocks params.Content }] ∧
      ∀ other : NotionClient, other.pageCreate [] (buildCreateRequest params) = .ok page →
        HandleRequest s other enc req = HandleRequest s client enc req) ∧
    (∀ params page err, toolCall.Name = "notion_update_page" →
      narrowUpdatePageParams toolCall.Arguments = .ok params →
      params.Content ≠ "" →
      client.pageUpdate [] params.PageID (buildUpdateRequest params) = .ok page →
      client.blockAppendChildren
          [ProviderCall.pageUpdate params.PageID (buildUpdateRequest params)] page.ID
          { Children := parseContentToBlocks params.Content } = .error err →
      enc.pageResult (convertToNotionPageResult page) = .ok text →
      HandleRequest s client enc req
        = .returned
            { JSONRPC := "2.0", ID := req.ID, Error := none,
              Result := some (ResultVal.toolResult
                { Content := [{ Type_ := "text", Text := text }], IsError := false }) }
            [ProviderCall.pageUpdate params.PageID (buildUpdateRequest params),
             ProviderCall.blockAppendChildren page.ID
               { Children := parseContentToBlocks params.Content }] ∧
      ∀ other : NotionClient,
        other.pageUpdate [] params.PageID (buildUpdateRequest params) = .ok page →
        HandleRequest s other enc req = HandleRequest s client enc req) := by
  refine ⟨?_, ?_⟩
  · intro params page _ hn hnarrow hcontent hc _ he
    have key : ∀ c : NotionClient, c.pageCreate [] (buildCreateRequest params) = .ok page →
        HandleRequest s c enc req
          = .returned
              { JSONRPC := "2.0", ID := req.ID, Error := none,
                Result := some (ResultVal.toolResult
                  { Content := [{ Type_ := "text", Text := text }], IsError := false }) }
              [ProviderCall.pageCreate (buildCreateRequest params),
               ProviderCall.blockAppendChildren page.ID
                 { Children := parseContentToBlocks params.Content }] := by
      intro c hcc
      refine toolsCall_handler_ok s c enc req toolCall _ _ hm hp ?_
      simp [dispatchTool, hn, handleNotionCreatePage_created c enc _ params page hnarrow hcc,
        he, hcontent, textResult, parseContentToBlocks]
    refine ⟨key client hc, ?_⟩
    intro other ho
    rw [key other ho, key client hc]
  · intro params page _ hn hnarrow hcontent hc _ he
    have key : ∀ c : NotionClient,
        c.pageUpdate [] params.PageID (buildUpdateRequest params) = .ok page →
        HandleRequest s c enc req
          = .returned
              { JSONRPC := "2.0", ID := req.ID, Error := none,
                Result := some (ResultVal.toolResult
                  { Content := [{ Type_ := "text", Text := text }], IsError := false }) }
              [ProviderCall.pageUpdate params.PageID (buildUpdateRequest params),
               ProviderCall.blockAppendChildren page.ID
                 { Children := parseContentToBlocks params.Content }] := by
      intro c hcc
      refine toolsCall_handler_ok s c enc req toolCall _ _ hm hp ?_
      simp [dispatchTool, hn, handleNotionUpdatePage_updated c enc _ params page hnarrow hcc,
        he, hcontent, textResult, parseContentToBlocks]
    refine ⟨key client hc, ?_⟩
    intro other ho
    rw [key other ho, key client hc]

/-- C25 at a create-page call with the content "hello", on a provider that
creates the page `page-1` and then fails the append. -/
theorem C25_append_failure_swallowed_witness :
    HandleRequest defaultServer (appendFailingClient "boom") plainEncoder
        (mkToolCall "notion_create_page"
          [("parentId", GoVal.str "p"), ("title", GoVal.str "t"),
           ("content", GoVal.str "hello")])
      = .returned
          { JSONRPC := "2.0", ID := GoVal.float64 1, Error := none,
            Result := some (ResultVal.toolResult
              { Content := [{ Type_ := "text", Text := "page" }], IsError := false }) }
          [ProviderCall.pageCreate
             (buildCreateRequest { ParentID := "p", Title := "t", Content := "hello" }),
           ProviderCall.blockAppendChildren "page-1"
             { Children := parseContentToBlocks "hello" }] ∧
    ∀ other : NotionClient,
      other.pageCreate []
          (buildCreateRequest { ParentID := "p", Title := "t", Content := "hello" })
        = .ok { Object := "page", ID := "page-1" } →
      HandleRequest defaultServer other plainEncoder
          (mkToolCall "notion_create_page"
            [("parentId", GoVal.str "p"), ("title", GoVal.str "t"),
             ("content", GoVal.str "hello")])
        = HandleRequest defaultServer (appendFailingClient "boom") plainEncoder
            (mkToolCall "notion_create_page"
              [("parentId", GoVal.str "p"), ("title", GoVal.str "t"),
               ("content", GoVal.str "hello")]) :=
  (C25_append_failure_swallowed defaultServer (appendFailingClient "boom") plainEncoder
    (mkToolCall "notion_create_page"
      [("parentId", GoVal.str "p"), ("title", GoVal.str "t"), ("content", GoVal.str "hello")])
    { Name := "notion_create_page"
      Arguments :=
        [("parentId", GoVal.str "p"), ("title", GoVal.str "t"),
         ("content", GoVal.str "hello")] }
    "page" rfl rfl).1
    { ParentID := "p", Title := "t", Content := "hello" }
    { Object := "page", ID := "page-1" } "boom" rfl rfl (by decide) rfl rfl rfl

/-! ### C26: the children appended after a create -/

/-- What the create handler appends for a content: for a create-page call
whose content `c` is not empty and whose create call answers with a page, the
provider calls are the create call and then one append call on the ID of that
page, whose children are the one paragraph block with the single run of text
`c`, as it is. -/
theorem createPage_content_one_paragraph (s : MCPServer) (client : NotionClient)
    (enc : Encoder) (req : Request) (toolCall : ToolCall) (params : NotionCreatePageParams)
    (page : Page) (c : String)
    (hm : req.Method = "tools/call")
    (hp : parseToolCallParams req.Params = .ok toolCall)
    (hn : toolCall.Name = "notion_create_page")
    (hnarrow : narrowCreatePageParams toolCall.Arguments = .ok params)
    (hcontent : (lookup toolCall.Arguments "content").asString = some c)
    (hne : c ≠ "")
    (hc : client.pageCreate [] (buildCreateRequest params) = .ok page) :
    (HandleRequest s client enc req).calls
      = [ProviderCall.pageCreate (buildCreateRequest params),
         ProviderCall.blockAppendChildren page.ID
           { Children :=
               [Block.paragraph [{ Type_ := "text", Text := some c, PlainText := c }] ""] }] := by
  have hd : dispatchTool s client enc toolCall
      = some (handleNotionCreatePage client enc toolCall.Arguments) := by
    simp [dispatchTool, hn]
  have hpc : params.Content = c := by
    rw [(narrowCreatePageParams_ok _ _ hnarrow).2.2.1, hcontent]
    rfl
  rw [toolsCall_calls s client enc req toolCall _ hm hp hd,
    handleNotionCreatePage_calls client enc _ params hnarrow, hc, hpc]
  simp [hne, richTextOf]

/-- C26 fails on the code: the children of the append call are not the
Markdown conversion of the content.  `parseContentToBlocks` makes of every
content one paragraph block holding the content as it is; for the content
`# T`, blank line, `body` the create-page call makes the create call and then
one append call on the created page `page-1` whose children are that one
paragraph, while `MarkdownToBlocks` of the same content is a heading-1 block
"T" followed by a paragraph block "body". -/
theorem C26_content_not_converted :
    (∀ c : String,
      parseContentToBlocks c
        = [Block.paragraph [{ Type_ := "text", Text := some c, PlainText := c }] ""]) ∧
    (HandleRequest defaultServer pageClient plainEncoder
        (mkToolCall "notion_create_page"
          [("parentId", GoVal.str "p"), ("title", GoVal.str "t"),
           ("content", GoVal.str "# T\n\nbody")])).calls
      = [ProviderCall.pageCreate
           (buildCreateRequest { ParentID := "p", Title := "t", Content := "# T\n\nbody" }),
         ProviderCall.blockAppendChildren "page-1"
           { Children :=
               [Block.paragraph
                 [{ Type_ := "text", Text := some "# T\n\nbody", PlainText := "# T\n\nbody" }]
                 ""] }] ∧
    MarkdownToBlocks "# T\n\nbody"
      = [Block.heading1 [{ Type_ := "text", Text := some "T", PlainText := "T" }] "block",
         Block.paragraph [{ Type_ := "text", Text := some "body", PlainText := "body" }]
           "block"] ∧
    [Block.paragraph
        [{ Type_ := "text", Text := some "# T\n\nbody", PlainText := "# T\n\nbody" }] ""]
      ≠ MarkdownToBlocks "# T\n\nbody" := by
  refine ⟨fun _ => rfl, rfl, rfl, ?_⟩
  intro h
  have e : MarkdownToBlocks "# T\n\nbody" = [createHeading1 "T", createParagraph "body"] := rfl
  rw [e] at h
  exact absurd (congrArg List.length h) (by decide)

/-! ### C27: partial update -/

/-- The property loop of the update handler, read key by key. -/
theorem getProperty_addStringPropertiesOpt (properties : GoMap)
    (hnd : (properties.map Prod.fst).Nodup) (init : Option Properties) (k : String) :
    getProperty ((addStringPropertiesOpt properties init).getD []) k
      = match (lookup properties k).asString with
        | some strValue =>
          some (PropertyValue.richText [{ Type_ := "text", Text := some strValue }])
        | none => getProperty (init.getD []) k := by
  induction properties generalizing init with
  | nil => rfl
  | cons kv rest ih =>
    obtain ⟨key, value⟩ := kv
    have hnd2 : (rest.map Prod.fst).Nodup := (List.nodup_cons.mp hnd).2
    have hnot : key ∉ rest.map Prod.fst := (List.nodup_cons.mp hnd).1
    have hstep : addStringPropertiesOpt ((key, value) :: rest) init
        = addStringPropertiesOpt rest
            (match value.asString with
              | some strValue =>
                some (setProperty (init.getD []) key
                  (PropertyValue.richText [{ Type_ := "text", Text := some strValue }]))
              | none => init) := rfl
    rw [hstep, ih hnd2, lookup_cons]
    by_cases h : key = k
    · subst h
      rw [lookup_of_not_mem_keys rest key hnot, if_pos rfl]
      have hnil : GoVal.nil.asString = none := rfl
      rw [hnil]
      cases hv : value.asString with
      | none => rfl
      | some strValue =>
        simp only [Option.getD_some]
        rw [getProperty_setProperty, if_pos rfl]
    · rw [if_neg h]
      cases hl : (lookup rest k).asString with
      | some strValue => rfl
      | none =>
        simp only
        cases hv : value.asString with
        | none => rfl
        | some strValue =>
          simp only [Option.getD_some]
          rw [getProperty_setProperty, if_neg (fun e => h e.symm)]

theorem addStringPropertiesOpt_nil (init : Option Properties) :
    addStringPropertiesOpt [] init = init := rfl

theorem handleNotionUpdatePage_calls (client : NotionClient) (enc : Encoder) (args : GoMap)
    (params : NotionUpdatePageParams) (h : narrowUpdatePageParams args = .ok params) :
    (handleNotionUpdatePage client enc args).calls
      = ProviderCall.pageUpdate params.PageID (buildUpdateRequest params) ::
          (match client.pageUpdate [] params.PageID (buildUpdateRequest params) with
            | .error _ => []
            | .ok page =>
              if params.Content = "" then []
              else [ProviderCall.blockAppendChildren page.ID
                { Children := [Block.paragraph [richTextOf params.Content]] }]) := by
  unfold handleNotionUpdatePage
  simp only [h]
  cases client.pageUpdate [] params.PageID (buildUpdateRequest params) with
  | error err => rfl
  | ok page =>
    simp only [finishPage_eq]
    by_cases hc : params.Content = ""
    · simp [hc, Outcome.calls]
    · simp [hc, Outcome.calls]

/-- C27 as stated fails: an update-page call whose `title` and `content`
arguments are present as empty strings makes an update request without
properties and no append call; and a call with a content whose update call
fails makes no append call. -/
theorem C27_present_but_empty_counterexample :
    (lookup [("pageId", GoVal.str "p"), ("title", GoVal.str ""), ("content", GoVal.str "")]
        "title").asString = some "" ∧
    (lookup [("pageId", GoVal.str "p"), ("title", GoVal.str ""), ("content", GoVal.str "")]
        "content").asString = some "" ∧
    (HandleRequest defaultServer pageClient plainEncoder
        (mkToolCall "notion_update_page"
          [("pageId", GoVal.str "p"), ("title", GoVal.str ""), ("content", GoVal.str "")])).calls
      = [ProviderCall.pageUpdate "p" { Properties := none, Archived := false }] ∧
    (HandleRequest defaultServer (failingClient "down") plainEncoder
        (mkToolCall "notion_update_page"
          [("pageId", GoVal.str "p"), ("content", GoVal.str "more")])).calls
      = [ProviderCall.pageUpdate "p" { Properties := none, Archived := false }] :=
  ⟨rfl, rfl, rfl, rfl⟩

/-- C27, amended: an update-page call with the string `pageId` makes one
update request on that page.  With `P` the `properties` argument (empty when
absent): when `P` holds no string under the key `title`, the request contains
a title property iff the `title` argument is a string that is not empty, and
then it is the entry `title` with the one run of that string; the request
contains a rich-text property for the key `k` iff `P[k]` is a string, and then
it has the one run of that string; the archived flag is set only when an
`archived` boolean is present, to that boolean, and is false otherwise; the
append call follows iff the update call answers with a page and the `content`
argument is a string that is not empty.  With no `title`, no `properties` and
no `content` the request has no property map and no append call is made. -/
theorem C27_partial_update (s : MCPServer) (client : NotionClient) (enc : Encoder)
    (req : Request) (toolCall : ToolCall) (params : NotionUpdatePageParams) (P : GoMap)
    (hm : req.Method = "tools/call")
    (hp : parseToolCallParams req.Params = .ok toolCall)
    (hn : toolCall.Name = "notion_update_page")
    (hnarrow : narrowUpdatePageParams toolCall.Arguments = .ok params)
    (hP : P = ((lookup toolCall.Arguments "properties").asMap).getD [])
    (hnd : (P.map Prod.fst).Nodup) :
    ∃ updateReq rest,
      (lookup toolCall.Arguments "pageId").asString = some params.PageID ∧
      (HandleRequest s client enc req).calls
        = ProviderCall.pageUpdate params.PageID updateReq :: rest ∧
      ((lookup P "title").asString = none →
        ∀ k runs, getProperty (updateReq.Properties.getD []) k
              = some (PropertyValue.title runs) ↔
            (k = "title" ∧ ∃ t, (lookup toolCall.Arguments "title").asString = some t ∧ t ≠ "" ∧
              runs = [{ Type_ := "text", Text := some t }])) ∧
      (∀ k runs, getProperty (updateReq.Properties.getD []) k
            = some (PropertyValue.richText runs) ↔
          ∃ v, (lookup P k).asString = some v ∧
            runs = [{ Type_ := "text", Text := some v }]) ∧
      (∀ b, (lookup toolCall.Arguments "archived").asBool = some b → updateReq.Archived = b) ∧
      ((lookup toolCall.Arguments "archived").asBool = none → updateReq.Archived = false) ∧
      rest = (match client.pageUpdate [] params.PageID updateReq with
        | .error _ => []
        | .ok page =>
          match (lookup toolCall.Arguments "content").asString with
          | some c =>
            if c = "" then []
            else [ProviderCall.blockAppendChildren page.ID
              { Children :=
                  [Block.paragraph [{ Type_ := "text", Text := some c, PlainText := c }] ""] }]
          | none => []) ∧
      ((lookup toolCall.Arguments "title").asString = none →
        (lookup toolCall.Arguments "properties").asMap = none →
        (lookup toolCall.Arguments "content").asString = none →
        updateReq.Properties = none ∧ rest = []) := by
  have hd : dispatchTool s client enc toolCall
      = some (handleNotionUpdatePage client enc toolCall.Arguments) := by
    simp [dispatchTool, hn]
  obtain ⟨hpage, htitle, hcontent, hprops, harch⟩ := narrowUpdatePageParams_ok _ _ hnarrow
  have hprops2 : params.Properties = P := by rw [hprops, hP]
  have hget : ∀ k, getProperty ((buildUpdateRequest params).Properties.getD []) k
      = match (lookup P k).asString with
        | some strValue =>
          some (PropertyValue.richText [{ Type_ := "text", Text := some strValue }])
        | none =>
          if params.Title ≠ "" ∧ "title" = k then
            some (PropertyValue.title [{ Type_ := "text", Text := some params.Title }])
          else none := by
    intro k
    unfold buildUpdateRequest
    simp only [hprops2]
    rw [getProperty_addStringPropertiesOpt P hnd]
    by_cases ht : params.Title = ""
    · simp [ht, getProperty_nil]
    · have hb : (params.Title != "") = true := by simp [ht]
      simp only [hb, if_true, Option.getD_some, getProperty_cons, getProperty_nil, ne_eq, ht,
        not_false_eq_true, true_and]
  have hrest : (match client.pageUpdate [] params.PageID (buildUpdateRequest params) with
      | .error _ => []
      | .ok page =>
        if params.Content = "" then []
        else [ProviderCall.blockAppendChildren page.ID
          { Children := [Block.paragraph [richTextOf params.Content]] }])
      = (match client.pageUpdate [] params.PageID (buildUpdateRequest params) with
        | .error _ => []
        | .ok page =>
          match (lookup toolCall.Arguments "content").asString with
          | some c =>
            if c = "" then []
            else [ProviderCall.blockAppendChildren page.ID
              { Children :=
                  [Block.paragraph [{ Type_ := "text", Text := some c, PlainText := c }] ""] }]
          | none => []) := by
    cases client.pageUpdate [] params.PageID (buildUpdateRequest params) with
    | error err => rfl
    | ok page =>
      simp only [hcontent]
      cases (lookup toolCall.Arguments "content").asString with
      | none => simp
      | some c => simp [richTextOf]
  refine ⟨buildUpdateRequest params,
    (match client.pageUpdate [] params.PageID (buildUpdateRequest params) with
      | .error _ => []
      | .ok page =>
        if params.Content = "" then []
        else [ProviderCall.blockAppendChildren page.ID
          { Children := [Block.paragraph [richTextOf params.Content]] }]),
    hpage, ?_, ?_, ?_, ?_, ?_, hrest, ?_⟩
  · rw [toolsCall_calls s client enc req toolCall _ hm hp hd,
      handleNotionUpdatePage_calls client enc _ params hnarrow]
  · intro hPt k runs
    rw [hget, htitle]
    by_cases hk : k = "title"
    · subst hk
      rw [hPt]
      cases hta : (lookup toolCall.Arguments "title").asString with
      | none => simp
      | some title =>
        simp only [Option.getD_some]
        by_cases he : title = ""
        · subst he
          simp
        · simp [he]
          constructor
          · intro h
            exact h.symm
          · intro h
            exact h.symm
    · have hk2 : ¬ ("title" = k) := fun e => hk e.symm
      cases hl : (lookup P k).asString with
      | some strValue => simp [hk]
      | none => simp [hk, hk2]
  · intro k runs
    rw [hget]
    cases hl : (lookup P k).asString with
    | some strValue =>
      simp
      constructor
      · intro h
        exact h.symm
      · intro h
        exact h.symm
    | none =>
      by_cases hc : params.Title ≠ "" ∧ "title" = k
      · simp [hc]
      · simp [hc]
  · intro b hb
    unfold buildUpdateRequest
    simp only [harch, hb]
  · intro hb
    unfold buildUpdateRequest
    simp only [harch, hb]
  · intro ht hpr hco
    refine ⟨?_, ?_⟩
    · unfold buildUpdateRequest
      simp [htitle, ht, hprops, hpr, addStringPropertiesOpt_nil]
    · rw [hrest]
      cases client.pageUpdate [] params.PageID (buildUpdateRequest params) with
      | error err => rfl
      | ok page => simp [hco]

/-- C27, amended, at a call that gives a title, content, two properties (one
of them a number) and the archived flag. -/
theorem C27_partial_update_witness :
    ∃ updateReq rest,
      (lookup
          [("pageId", GoVal.str "p"), ("title", GoVal.str "New"), ("content", GoVal.str "more"),
           ("properties", GoVal.map [("Status", GoVal.str "open"), ("Count", GoVal.float64 3)]),
           ("archived", GoVal.bool true)]
          "pageId").asString = some "p" ∧
      (HandleRequest defaultServer pageClient plainEncoder
          (mkToolCall "notion_update_page"
            [("pageId", GoVal.str "p"), ("title", GoVal.str "New"), ("content", GoVal.str "more"),
             ("properties", GoVal.map [("Status", GoVal.str "open"), ("Count", GoVal.float64 3)]),
             ("archived", GoVal.bool true)])).calls
        = ProviderCall.pageUpdate "p" updateReq :: rest ∧
      ((lookup
            [("Status", GoVal.str "open"), ("Count", GoVal.float64 3)]
             "title").asString = none →
        ∀ k runs, getProperty (updateReq.Properties.getD []) k
              = some (PropertyValue.title runs) ↔
            (k = "title" ∧ ∃ t, (lookup
          [("pageId", GoVal.str "p"), ("title", GoVal.str "New"), ("content", GoVal.str "more"),
           ("properties", GoVal.map [("Status", GoVal.str "open"), ("Count", GoVal.float64 3)]),
           ("archived", GoVal.bool true)]
          "title").asString = some t ∧ t ≠ "" ∧
              runs = [{ Type_ := "text", Text := some t }])) ∧
      (∀ k runs, getProperty (updateReq.Properties.getD []) k
            = some (PropertyValue.richText runs) ↔
          ∃ v, (lookup
            [("Status", GoVal.str "open"), ("Count", GoVal.float64 3)]
             k).asString = some v ∧
            runs = [{ Type_ := "text", Text := some v }]) ∧
      (∀ b, (lookup
          [("pageId", GoVal.str "p"), ("title", GoVal.str "New"), ("content", GoVal.str "more"),
           ("properties", GoVal.map [("Status", GoVal.str "open"), ("Count", GoVal.float64 3)]),
           ("archived", GoVal.bool true)]
          "archived").asBool = some b → updateReq.Archived = b) ∧
      ((lookup
          [("pageId", GoVal.str "p"), ("title", GoVal.str "New"), ("content", GoVal.str "more"),
           ("properties", GoVal.map [("Status", GoVal.str "open"), ("Count", GoVal.float64 3)]),
           ("archived", GoVal.bool true)]
          "archived").asBool = none → updateReq.Archived = false) ∧
      rest = (match pageClient.pageUpdate [] "p" updateReq with
        | .error _ => []
        | .ok page =>
          match (lookup
          [("pageId", GoVal.str "p"), ("title", GoVal.str "New"), ("content", GoVal.str "more"),
           ("properties", GoVal.map [("Status", GoVal.str "open"), ("Count", GoVal.float64 3)]),
           ("archived", GoVal.bool true)]
          "content").asString with
          | some c =>
            if c = "" then []
            else [ProviderCall.blockAppendChildren page.ID
              { Children :=
                  [Block.paragraph [{ Type_ := "text", Text := some c, PlainText := c }] ""] }]
          | none => []) ∧
      ((lookup
          [("pageId", GoVal.str "p"), ("title", GoVal.str "New"), ("content", GoVal.str "more"),
           ("properties", GoVal.map [("Status", GoVal.str "open"), ("Count", GoVal.float64 3)]),
           ("archived", GoVal.bool true)]
          "title").asString = none →
        (lookup
          [("pageId", GoVal.str "p"), ("title", GoVal.str "New"), ("content", GoVal.str "more"),
           ("properties", GoVal.map [("Status", GoVal.str "open"), ("Count", GoVal.float64 3)]),
           ("archived", GoVal.bool true)]
          "properties").asMap = none →
        (lookup
          [("pageId", GoVal.str "p"), ("title", GoVal.str "New"), ("content", GoVal.str "more"),
           ("properties", GoVal.map [("Status", GoVal.str "open"), ("Count", GoVal.float64 3)]),
           ("archived", GoVal.bool true)]
          "content").asString = none →
        updateReq.Properties = none ∧ rest = []) :=
  C27_partial_update defaultServer pageClient plainEncoder
    (mkToolCall "notion_update_page"
      [("pageId", GoVal.str "p"), ("title", GoVal.str "New"), ("content", GoVal.str "more"),
         ("properties", GoVal.map [("Status", GoVal.str "open"), ("Count", GoVal.float64 3)]),
         ("archived", GoVal.bool true)])
    { Name := "notion_update_page"
      Arguments :=
        [("pageId", GoVal.str "p"), ("title", GoVal.str "New"), ("content", GoVal.str "more"),
         ("properties", GoVal.map [("Status", GoVal.str "open"), ("Count", GoVal.float64 3)]),
         ("archived", GoVal.bool true)] }
    { PageID := "p", Title := "New", Content := "more"
      Properties := [("Status", GoVal.str "open"), ("Count", GoVal.float64 3)]
      Archived := some true }
    [("Status", GoVal.str "open"), ("Count", GoVal.float64 3)]
    rfl rfl rfl rfl rfl (by decide)

/-! ### C28: the block builder of the append tool -/

theorem handleNotionAppendBlock_calls (client : NotionClient) (enc : Encoder) (args : GoMap)
    (params : NotionAppendBlockParams) (h : narrowAppendBlockParams args = .ok params) :
    (handleNotionAppendBlock client enc args).calls
      = [ProviderCall.blockAppendChildren params.PageID
          { Children := parseContentToBlocksWithType params.Content params.BlockType }] := by
  unfold handleNotionAppendBlock
  simp only [h]
  cases client.blockAppendChildren [] params.PageID
      { Children := parseContentToBlocksWithType params.Content params.BlockType } with
  | error err => rfl
  | ok result =>
    simp only
    cases convertBlockItems result.Results with
    | none => rfl
    | some items =>
      simp only
      cases enc.blockResult { Object := result.Object, Results := items } <;> rfl

/-- The block builder of the append tool: one block, with the content as its
one run, of the kind asked for when that is one of the ten, else a
paragraph. -/
theorem parseContentToBlocksWithType_spec (content blockType : String) :
    ∃ block, parseContentToBlocksWithType content blockType = [block] ∧
      block.richTextRuns = [{ Type_ := "text", Text := some content, PlainText := content }] ∧
      block.GetType = if blockType ∈ blockKinds then blockType else "paragraph" := by
  by_cases h1 : blockType = "heading_1"
  · subst h1
    exact ⟨_, rfl, rfl, rfl⟩
  by_cases h2 : blockType = "heading_2"
  · subst h2
    exact ⟨_, rfl, rfl, rfl⟩
  by_cases h3 : blockType = "heading_3"
  · subst h3
    exact ⟨_, rfl, rfl, rfl⟩
  by_cases h4 : blockType = "bulleted_list_item"
  · subst h4
    exact ⟨_, rfl, rfl, rfl⟩
  by_cases h5 : blockType = "numbered_list_item"
  · subst h5
    exact ⟨_, rfl, rfl, rfl⟩
  by_cases h6 : blockType = "to_do"
  · subst h6
    exact ⟨_, rfl, rfl, rfl⟩
  by_cases h7 : blockType = "code"
  · subst h7
    exact ⟨_, rfl, rfl, rfl⟩
  by_cases h8 : blockType = "quote"
  · subst h8
    exact ⟨_, rfl, rfl, rfl⟩
  by_cases h9 : blockType = "callout"
  · subst h9
    exact ⟨_, rfl, rfl, rfl⟩
  refine ⟨Block.paragraph [richTextOf content], ?_, rfl, ?_⟩
  · unfold parseContentToBlocksWithType
    simp [h1, h2, h3, h4, h5, h6, h7, h8, h9]
  · by_cases h0 : blockType = "paragraph"
    · subst h0
      rfl
    · have hnot : blockType ∉ blockKinds := by
        simp [blockKinds, h0, h1, h2, h3, h4, h5, h6, h7, h8, h9]
      rw [if_neg hnot]
      rfl

/-- C28: for every content `c` and block type `b` the builder of the append
tool returns exactly one block, whose one run has the text `c` unchanged and
whose kind is `b` when `b` is one of the ten kinds and `paragraph` otherwise;
and an append-block call hands that one block to the provider, built for the
`blockType` argument when it is a string and for `paragraph` when it is absent
or not a string. -/
theorem C28_append_block_builder (s : MCPServer) (client : NotionClient) (enc : Encoder)
    (req : Request) (toolCall : ToolCall) (pageID c : String)
    (hm : req.Method = "tools/call")
    (hp : parseToolCallParams req.Params = .ok toolCall)
    (hn : toolCall.Name = "notion_append_block")
    (hpage : (lookup toolCall.Arguments "pageId").asString = some pageID)
    (hcontent : (lookup toolCall.Arguments "content").asString = some c) :
    (∀ content blockType : String,
      ∃ block, parseContentToBlocksWithType content blockType = [block] ∧
        block.richTextRuns
          = [{ Type_ := "text", Text := some content, PlainText := content }] ∧
        block.GetType = if blockType ∈ blockKinds then blockType else "paragraph") ∧
    ∃ block,
      (HandleRequest s client enc req).calls
        = [ProviderCall.blockAppendChildren pageID { Children := [block] }] ∧
      block.richTextRuns = [{ Type_ := "text", Text := some c, PlainText := c }] ∧
      block.GetType
        = match (lookup toolCall.Arguments "blockType").asString with
          | some b => if b ∈ blockKinds then b else "paragraph"
          | none => "paragraph" := by
  refine ⟨parseContentToBlocksWithType_spec, ?_⟩
  have hd : dispatchTool s client enc toolCall
      = some (handleNotionAppendBlock client enc toolCall.Arguments) := by
    simp [dispatchTool, hn]
  rw [toolsCall_calls s client enc req toolCall _ hm hp hd]
  cases hb : (lookup toolCall.Arguments "blockType").asString with
  | none =>
    have hnarrow : narrowAppendBlockParams toolCall.Arguments
        = .ok { PageID := pageID, Content := c, BlockType := "paragraph" } := by
      simp [narrowAppendBlockParams, hpage, hcontent, hb]
    rw [handleNotionAppendBlock_calls client enc _ _ hnarrow]
    exact ⟨Block.paragraph [richTextOf c], rfl, rfl, rfl⟩
  | some b =>
    have hnarrow : narrowAppendBlockParams toolCall.Arguments
        = .ok { PageID := pageID, Content := c, BlockType := b } := by
      simp [narrowAppendBlockParams, hpage, hcontent, hb]
    rw [handleNotionAppendBlock_calls client enc _ _ hnarrow]
    obtain ⟨block, h1, h2, h3⟩ := parseContentToBlocksWithType_spec c b
    exact ⟨block, by simp only [h1], h2, h3⟩

/-- C28 at an append-block call with the block type `to_do`. -/
theorem C28_append_block_builder_witness :
    (∀ content blockType : String,
      ∃ block, parseContentToBlocksWithType content blockType = [block] ∧
        block.richTextRuns
          = [{ Type_ := "text", Text := some content, PlainText := content }] ∧
        block.GetType = if blockType ∈ blockKinds then blockType else "paragraph") ∧
    ∃ block,
      (HandleRequest defaultServer quietClient plainEncoder
          (mkToolCall "notion_append_block"
            [("pageId", GoVal.str "p"), ("content", GoVal.str "buy milk"),
             ("blockType", GoVal.str "to_do")])).calls
        = [ProviderCall.blockAppendChildren "p" { Children := [block] }] ∧
      block.richTextRuns
        = [{ Type_ := "text", Text := some "buy milk", PlainText := "buy milk" }] ∧
      block.GetType
        = match (lookup
              [("pageId", GoVal.str "p"), ("content", GoVal.str "buy milk"),
               ("blockType", GoVal.str "to_do")] "blockType").asString with
          | some b => if b ∈ blockKinds then b else "paragraph"
          | none => "paragraph" :=
  C28_append_block_builder defaultServer quietClient plainEncoder
    (mkToolCall "notion_append_block"
      [("pageId", GoVal.str "p"), ("content", GoVal.str "buy milk"),
       ("blockType", GoVal.str "to_do")])
    { Name := "notion_append_block"
      Arguments :=
        [("pageId", GoVal.str "p"), ("content", GoVal.str "buy milk"),
         ("blockType", GoVal.str "to_do")] }
    "p" "buy milk" rfl rfl rfl rfl rfl

/-! ### C29: the workspace resource -/

theorem foldWorkspace_eq (results : List NObject) :
    foldWorkspace results
      = { totalPages := (results.countP (fun item => item.GetObject == "page") : Nat)
          totalDatabases := (results.countP (fun item => item.GetObject == "database") : Nat)
          recentItems := results.map convertToNotionItem } := by
  have key : ∀ (items : List NObject) (info : WorkspaceInfo),
      items.foldl
          (fun info item =>
            let info : WorkspaceInfo :=
              { info with recentItems := info.recentItems ++ [convertToNotionItem item] }
            if item.GetObject == "page" then { info with totalPages := info.totalPages + 1 }
            else if item.GetObject == "database" then
              { info with totalDatabases := info.totalDatabases + 1 }
            else info)
          info
        = { totalPages :=
              info.totalPages + (items.countP (fun item => item.GetObject == "page") : Nat)
            totalDatabases :=
              info.totalDatabases
                + (items.countP (fun item => item.GetObject == "database") : Nat)
            recentItems := info.recentItems ++ items.map convertToNotionItem } := by
    intro items
    induction items with
    | nil =>
      intro info
      simp
    | cons item rest ih =>
      intro info
      rw [List.foldl_cons, ih]
      by_cases hpage : item.GetObject = "page"
      · have hdb : ¬ item.GetObject = "database" := by
          rw [hpage]
          decide
        simp [hpage, List.countP_cons]
        omega
      · by_cases hdb : item.GetObject = "database"
        · simp [hdb, List.countP_cons]
          omega
        · simp [hpage, hdb, List.countP_cons]
  unfold foldWorkspace
  rw [key]
  simp

theorem countP_page_database_le (results : List NObject) :
    results.countP (fun item => item.GetObject == "page")
        + results.countP (fun item => item.GetObject == "database")
      ≤ results.length := by
  induction results with
  | nil => simp
  | cons item rest ih =>
    by_cases hpage : item.GetObject = "page"
    · have hdb : ¬ item.GetObject = "database" := by
        rw [hpage]
        decide
      simp [hpage, List.countP_cons]
      omega
    · by_cases hdb : item.GetObject = "database"
      · simp [hdb, List.countP_cons]
        omega
      · simp [hpage, hdb, List.countP_cons]
        omega

/-- C29: reading `notion://workspace` makes exactly one provider call, the
search with page size 100 and no query, filter, sort or cursor; when it answers
with the hits `r_1..r_n`, what is encoded into the one text item of the
response has `totalPages` the number of hits whose object is `page`,
`totalDatabases` the number of hits whose object is `database`, and
`recentItems` the conversions of the hits in their order, so that the two
totals add up to at most `n`, the length of `recentItems`. -/
theorem C29_workspace_resource (s : MCPServer) (client : NotionClient) (enc : Encoder)
    (req : Request) (params : GoMap) (searchResp : SearchResponse)
    (hm : req.Method = "resources/read")
    (hp : parseMapParams req.Params = .ok params)
    (huri : (lookup params "uri").asString = some "notion://workspace")
    (hs : client.searchDo []
        { Query := "", Sort_ := none, Filter := { Value := "", Property := "" },
          StartCursor := "", PageSize := 100 } = .ok searchResp) :
    HandleRequest s client enc req
      = .returned
          (match enc.workspaceInfo
              { totalPages :=
                  (searchResp.Results.countP (fun item => item.GetObject == "page") : Nat)
                totalDatabases :=
                  (searchResp.Results.countP (fun item => item.GetObject == "database") : Nat)
                recentItems := searchResp.Results.map convertToNotionItem } with
            | .ok workspaceJSON =>
              { JSONRPC := "2.0", ID := req.ID, Error := none,
                Result := some (ResultVal.contents [{ Type_ := "text", Text := workspaceJSON }]) }
            | .error err =>
              { JSONRPC := "2.0", ID := req.ID, Result := none,
                Error := some
                  { Code := -32603
                    Message := "failed to marshal workspace info: " ++ err } })
          [ProviderCall.searchDo
            { Query := "", Sort_ := none, Filter := { Value := "", Property := "" },
              StartCursor := "", PageSize := 100 }] ∧
    searchResp.Results.countP (fun item => item.GetObject == "page")
        + searchResp.Results.countP (fun item => item.GetObject == "database")
      ≤ searchResp.Results.length ∧
    (searchResp.Results.map convertToNotionItem).length = searchResp.Results.length := by
  refine ⟨?_, countP_page_database_le _, List.length_map _ _⟩
  rw [handleRequest_resourcesRead s client enc req hm]
  unfold handleResourcesRead
  rw [hp]
  simp only [huri]
  unfold handleWorkspaceResource
  simp only [hs, foldWorkspace_eq]
  cases enc.workspaceInfo
      { totalPages := (searchResp.Results.countP (fun item => item.GetObject == "page") : Nat)
        totalDatabases :=
          (searchResp.Results.countP (fun item => item.GetObject == "database") : Nat)
        recentItems := searchResp.Results.map convertToNotionItem } with
  | error err => rfl
  | ok workspaceJSON => rfl

/-- C29 on a provider that answers with two pages, a database and a hit of
another kind. -/
theorem C29_workspace_resource_witness :
    HandleRequest defaultServer workspaceClient plainEncoder
        (mkRequest "resources/read" (GoVal.map [("uri", GoVal.str "notion://workspace")]))
      = .returned
          (match plainEncoder.workspaceInfo
              { totalPages :=
                  (workspaceHits.countP (fun item => item.GetObject == "page") : Nat)
                totalDatabases :=
                  (workspaceHits.countP (fun item => item.GetObject == "database") : Nat)
                recentItems := workspaceHits.map convertToNotionItem } with
            | .ok workspaceJSON =>
              { JSONRPC := "2.0", ID := GoVal.float64 1, Error := none,
                Result := some (ResultVal.contents [{ Type_ := "text", Text := workspaceJSON }]) }
            | .error err =>
              { JSONRPC := "2.0", ID := GoVal.float64 1, Result := none,
                Error := some
                  { Code := -32603
                    Message := "failed to marshal workspace info: " ++ err } })
          [ProviderCall.searchDo
            { Query := "", Sort_ := none, Filter := { Value := "", Property := "" },
              StartCursor := "", PageSize := 100 }] ∧
    workspaceHits.countP (fun item => item.GetObject == "page")
        + workspaceHits.countP (fun item => item.GetObject == "database")
      ≤ workspaceHits.length ∧
    (workspaceHits.map convertToNotionItem).length = workspaceHits.length :=
  C29_workspace_resource defaultServer workspaceClient plainEncoder
    (mkRequest "resources/read" (GoVal.map [("uri", GoVal.str "notion://workspace")]))
    [("uri", GoVal.str "notion://workspace")]
    { Object := "list", Results := workspaceHits } rfl rfl rfl rfl

/-! ### C30: the workspace summary through the typed facade -/

/-- C30 fails on the code: `NotionMCPSDK.GetWorkspaceInfo` returns an error
for every provider, encoder and decoder.  When the search succeeds and the
summary is encoded, the response carries the contents as a `[]Content`, the
assertion to `[]interface{}` fails, and the error is "no workspace info
found"; the decoder is never reached. -/
theorem C30_workspace_info_always_fails :
    (∀ (sdk : NotionMCPSDK) (client : NotionClient) (enc : Encoder) (dec : Decoder),
      sdk.GetWorkspaceInfo client enc dec
        = .returned
            (.error
              (match client.searchDo []
                  { Query := "", Sort_ := none, Filter := { Value := "", Property := "" },
                    StartCursor := "", PageSize := 100 } with
                | .error err =>
                  "failed to get workspace info: " ++ ("failed to get workspace info: " ++ err)
                | .ok searchResp =>
                  match enc.workspaceInfo (foldWorkspace searchResp.Results) with
                  | .error err =>
                    "failed to get workspace info: "
                      ++ ("failed to marshal workspace info: " ++ err)
                  | .ok _ => "no workspace info found"))
            [ProviderCall.searchDo
              { Query := "", Sort_ := none, Filter := { Value := "", Property := "" },
                StartCursor := "", PageSize := 100 }]) ∧
    defaultSDK.GetWorkspaceInfo workspaceClient plainEncoder plainDecoder
      = .returned (.error "no workspace info found")
          [ProviderCall.searchDo
            { Query := "", Sort_ := none, Filter := { Value := "", Property := "" },
              StartCursor := "", PageSize := 100 }] := by
  refine ⟨?_, rfl⟩
  intro sdk client enc dec
  have h : HandleRequest sdk.server client enc
      { JSONRPC := "2.0", ID := intLit 1, Method := "resources/read",
        Params := GoVal.map [("uri", GoVal.str "notion://workspace")] }
      = match handleWorkspaceResource client enc with
        | .panicked calls => .panicked calls
        | .returned (.error err) calls =>
          .returned
            (errorResponse
              { JSONRPC := "2.0", ID := intLit 1, Method := "resources/read",
                Params := GoVal.map [("uri", GoVal.str "notion://workspace")] }
              ErrCodeInternalError err) calls
        | .returned (.ok content) calls =>
          .returned
            (resultResponse
              { JSONRPC := "2.0", ID := intLit 1, Method := "resources/read",
                Params := GoVal.map [("uri", GoVal.str "notion://workspace")] }
              (ResultVal.contents content)) calls := rfl
  unfold NotionMCPSDK.GetWorkspaceInfo
  simp only [h]
  unfold handleWorkspaceResource
  cases hs : client.searchDo []
      { Query := "", Sort_ := none, Filter := { Value := "", Property := "" },
        StartCursor := "", PageSize := 100 } with
  | error err =>
    simp only [hs]
    rfl
  | ok searchResp =>
    simp only [hs]
    cases he : enc.workspaceInfo (foldWorkspace searchResp.Results) with
    | error err =>
      simp only [he]
      rfl
    | ok workspaceJSON =>
      simp only [he]
      rfl

/-! ### C31: validation of the config -/

theorem validate_eq_inPlace (c : MCPConfig) :
    c.Validate
      = match c.ValidateInPlace.2 with
        | some err => .error err
        | none => .ok c.ValidateInPlace.1 := by
  unfold MCPConfig.Validate MCPConfig.ValidateInPlace
  by_cases h : c.NotionToken = ""
  · simp [h]
  · simp [h]

/-- C31: `Validate` returns an error iff the token is empty, and then assigns
nothing; otherwise it replaces each of `DefaultPageSize`, `MaxRetries` and
`Timeout` that is at most 0 by 10, 3 and 30, keeps each that is positive, and
keeps the token and the server name and version.  Validating again changes
nothing, and `NewNotionMCPSDKWithDefaults` on a token that is not empty gives
a facade with page size 10, retries 3 and timeout 30. -/
theorem C31_validate (c : MCPConfig) :
    (c.ValidateInPlace.2.isSome = true ↔ c.NotionToken = "") ∧
    (c.NotionToken = "" →
      c.ValidateInPlace
          = (c, some { Code := -32602, Message := "Invalid params: notionToken is required" }) ∧
        c.Validate
          = .error { Code := -32602, Message := "Invalid params: notionToken is required" }) ∧
    (c.NotionToken ≠ "" →
      c.ValidateInPlace
          = ({ NotionToken := c.NotionToken
               ServerName := c.ServerName
               ServerVersion := c.ServerVersion
               DefaultPageSize := if c.DefaultPageSize ≤ 0 then 10 else c.DefaultPageSize
               MaxRetries := if c.MaxRetries ≤ 0 then 3 else c.MaxRetries
               Timeout := if c.Timeout ≤ 0 then 30 else c.Timeout }, none) ∧
        c.Validate = .ok c.ValidateInPlace.1) ∧
    c.ValidateInPlace.1.ValidateInPlace = c.ValidateInPlace ∧
    (∀ t : String, t ≠ "" →
      ∃ sdk, NewNotionMCPSDKWithDefaults t = .ok sdk ∧
        sdk.config
          = { NotionToken := t
              ServerName := "notion-mcp-server"
              ServerVersion := "1.0.0"
              DefaultPageSize := 10
              MaxRetries := 3
              Timeout := 30 }) := by
  have hok : c.NotionToken ≠ "" →
      c.ValidateInPlace
        = ({ NotionToken := c.NotionToken
             ServerName := c.ServerName
             ServerVersion := c.ServerVersion
             DefaultPageSize := if c.DefaultPageSize ≤ 0 then 10 else c.DefaultPageSize
             MaxRetries := if c.MaxRetries ≤ 0 then 3 else c.MaxRetries
             Timeout := if c.Timeout ≤ 0 then 30 else c.Timeout }, none) := by
    intro h
    unfold MCPConfig.ValidateInPlace
    by_cases h1 : c.DefaultPageSize ≤ 0 <;> by_cases h2 : c.MaxRetries ≤ 0 <;>
      by_cases h3 : c.Timeout ≤ 0 <;> simp [h, h1, h2, h3]
  have hfail : c.NotionToken = "" →
      c.ValidateInPlace
        = (c, some { Code := -32602, Message := "Invalid params: notionToken is required" }) := by
    intro h
    unfold MCPConfig.ValidateInPlace
    simp [h]
  refine ⟨?_, ?_, ?_, ?_, ?_⟩
  · by_cases h : c.NotionToken = ""
    · simp [hfail h, h]
    · simp [hok h, h]
  · intro h
    refine ⟨hfail h, ?_⟩
    rw [validate_eq_inPlace, hfail h]
  · intro h
    refine ⟨hok h, ?_⟩
    rw [validate_eq_inPlace, hok h]
  · by_cases h : c.NotionToken = ""
    · rw [hfail h]
      exact hfail h
    · rw [hok h]
      unfold MCPConfig.ValidateInPlace
      by_cases h1 : c.DefaultPageSize ≤ 0 <;> by_cases h2 : c.MaxRetries ≤ 0 <;>
        by_cases h3 : c.Timeout ≤ 0 <;> simp [h, h1, h2, h3]
  · intro t ht
    refine ⟨{ server :=
        { config :=
            { NotionToken := t
              ServerName := "notion-mcp-server"
              ServerVersion := "1.0.0"
              DefaultPageSize := 10
              MaxRetries := 3
              Timeout := 30 }
          tools := getDefaultTools
          resources := getDefaultResources } }, ?_, rfl⟩
    unfold NewNotionMCPSDKWithDefaults NewNotionMCPSDK NewMCPServer MCPConfig.Validate
    simp [ht, DefaultMCPConfig]

/-- C31 at a config with a token, page size 0, retries -1 and timeout 45. -/
theorem C31_validate_witness :
    ({ NotionToken := "secret", DefaultPageSize := 0, MaxRetries := -1,
       Timeout := 45 } : MCPConfig).ValidateInPlace
        = ({ NotionToken := "secret"
             ServerName := ""
             ServerVersion := ""
             DefaultPageSize := if (0 : Int) ≤ 0 then 10 else 0
             MaxRetries := if (-1 : Int) ≤ 0 then 3 else -1
             Timeout := if (45 : Int) ≤ 0 then 30 else 45 }, none) ∧
      ({ NotionToken := "secret", DefaultPageSize := 0, MaxRetries := -1,
         Timeout := 45 } : MCPConfig).Validate
        = .ok
            ({ NotionToken := "secret", DefaultPageSize := 0, MaxRetries := -1,
               Timeout := 45 } : MCPConfig).ValidateInPlace.1 :=
  (C31_validate
    { NotionToken := "secret", DefaultPageSize := 0, MaxRetries := -1, Timeout := 45 }).2.2.1
    (by decide)

/-! ### C32: the config setters -/

/-- C32: `SetDefaultPageSize n` sets the page size to `n` when `1 ≤ n ≤ 100`
and leaves it as it was otherwise; `SetTimeout n` and `SetMaxRetries n` set
their field to `n` when `n > 0` and leave it otherwise; each leaves every
other field of the config, and the catalogs of the server, as they were.  So
0 and 150 change nothing and 50 sets the page size to 50. -/
theorem C32_config_setters (sdk : NotionMCPSDK) (n : Int) :
    (sdk.SetDefaultPageSize n).GetConfig
      = { sdk.GetConfig with
          DefaultPageSize := if 1 ≤ n ∧ n ≤ 100 then n else sdk.GetConfig.DefaultPageSize } ∧
    (sdk.SetTimeout n).GetConfig
      = { sdk.GetConfig with Timeout := if n > 0 then n else sdk.GetConfig.Timeout } ∧
    (sdk.SetMaxRetries n).GetConfig
      = { sdk.GetConfig with MaxRetries := if n > 0 then n else sdk.GetConfig.MaxRetries } ∧
    ((sdk.SetDefaultPageSize n).GetTools = sdk.GetTools ∧
      (sdk.SetDefaultPageSize n).GetResources = sdk.GetResources ∧
      (sdk.SetTimeout n).GetTools = sdk.GetTools ∧
      (sdk.SetTimeout n).GetResources = sdk.GetResources ∧
      (sdk.SetMaxRetries n).GetTools = sdk.GetTools ∧
      (sdk.SetMaxRetries n).GetResources = sdk.GetResources) ∧
    (sdk.SetDefaultPageSize 0 = sdk ∧ sdk.SetDefaultPageSize 150 = sdk ∧
      (sdk.SetDefaultPageSize 50).GetConfig.DefaultPageSize = 50) := by
  refine ⟨?_, ?_, ?_, ⟨?_, ?_, ?_, ?_, ?_, ?_⟩, ⟨rfl, rfl, rfl⟩⟩
  · unfold NotionMCPSDK.SetDefaultPageSize NotionMCPSDK.GetConfig NotionMCPSDK.config
    by_cases h : n > 0 ∧ n ≤ 100
    · have h2 : 1 ≤ n ∧ n ≤ 100 := ⟨by omega, h.2⟩
      simp [h, h2]
    · have h2 : ¬ (1 ≤ n ∧ n ≤ 100) := fun e => h ⟨by omega, e.2⟩
      simp [h, h2]
  · unfold NotionMCPSDK.SetTimeout NotionMCPSDK.GetConfig NotionMCPSDK.config
    by_cases h : n > 0
    · simp [h]
    · simp [h]
  · unfold NotionMCPSDK.SetMaxRetries NotionMCPSDK.GetConfig NotionMCPSDK.config
    by_cases h : n > 0
    · simp [h]
    · simp [h]
  · unfold NotionMCPSDK.SetDefaultPageSize NotionMCPSDK.GetTools
    by_cases h : n > 0 ∧ n ≤ 100 <;> simp [h]
  · unfold NotionMCPSDK.SetDefaultPageSize NotionMCPSDK.GetResources
    by_cases h : n > 0 ∧ n ≤ 100 <;> simp [h]
  · unfold NotionMCPSDK.SetTimeout NotionMCPSDK.GetTools
    by_cases h : n > 0 <;> simp [h]
  · unfold NotionMCPSDK.SetTimeout NotionMCPSDK.GetResources
    by_cases h : n > 0 <;> simp [h]
  · unfold NotionMCPSDK.SetMaxRetries NotionMCPSDK.GetTools
    by_cases h : n > 0 <;> simp [h]
  · unfold NotionMCPSDK.SetMaxRetries NotionMCPSDK.GetResources
    by_cases h : n > 0 <;> simp [h]

/-! ### C33: converters on absent input -/

/-- C33: `convertParent`, `convertIcon` and `convertCover` return nil iff
their input is nil, and `convertToUser` returns nil iff its input is nil or has
an empty ID; on any other input each returns the copy of the fields, the icon
with `Emoji` and `URL` filled from the sub-objects that are there and empty
otherwise.  Each is a total function: no input makes it fail. -/
theorem C33_converters :
    (∀ parent : Option NParent, convertParent parent = none ↔ parent = none) ∧
    (∀ p : NParent,
      convertParent (some p)
        = some
            { Type_ := p.Type_, PageID := p.PageID, DatabaseID := p.DatabaseID,
              BlockID := p.BlockID, Workspace := p.Workspace }) ∧
    (∀ icon : Option NIcon, convertIcon icon = none ↔ icon = none) ∧
    (∀ i : NIcon,
      convertIcon (some i)
        = some
            { Type_ := i.Type_
              Emoji := match i.Emoji with
                | some e => e
                | none => ""
              URL := match i.External with
                | some f => f.URL
                | none => "" }) ∧
    (∀ cover : Option NImage, convertCover cover = none ↔ cover = none) ∧
    (∀ c : NImage, convertCover (some c) = some { Type_ := c.Type_, URL := c.GetURL }) ∧
    (∀ user : Option NUser,
      convertToUser user = none ↔ (user = none ∨ ∃ u, user = some u ∧ u.ID = "")) ∧
    (∀ u : NUser, u.ID ≠ "" →
      convertToUser (some u)
        = some
            { Object := u.Object, ID := u.ID, Name := u.Name, AvatarURL := u.AvatarURL,
              Type_ := u.Type_ }) := by
  refine ⟨?_, fun _ => rfl, ?_, ?_, ?_, fun _ => rfl, ?_, ?_⟩
  · intro parent
    cases parent <;> simp [convertParent]
  · intro icon
    cases icon <;> simp [convertIcon]
  · intro i
    obtain ⟨type, emoji, external⟩ := i
    cases emoji <;> cases external <;> rfl
  · intro cover
    cases cover <;> simp [convertCover]
  · intro user
    cases user with
    | none => simp [convertToUser]
    | some u =>
      by_cases h : u.ID = ""
      · simp [convertToUser, h]
      · simp [convertToUser, h]
  · intro u h
    simp [convertToUser, h]

/-- C33 at a user with the ID `u1`. -/
theorem C33_converters_witness :
    convertToUser (some { Object := "user", ID := "u1", Name := "Ann" })
      = some { Object := "user", ID := "u1", Name := "Ann", AvatarURL := "", Type_ := "" } :=
  C33_converters.2.2.2.2.2.2.2 { Object := "user", ID := "u1", Name := "Ann" } (by decide)

/-! ### C34: title extraction -/

theorem extractTitle_of_no_title (properties : List (String × Property))
    (h : ∀ kv ∈ properties, kv.2.GetType ≠ "title") : extractTitle properties = "" := by
  induction properties with
  | nil => rfl
  | cons kv rest ih =>
    obtain ⟨key, prop⟩ := kv
    have h1 : prop.GetType ≠ "title" := h (key, prop) (List.mem_cons_self _ _)
    have h2 := ih (fun kv hkv => h kv (List.mem_cons_of_mem _ hkv))
    unfold extractTitle
    simp [h1, h2]

theorem extractTitleFromConfigs_eq (configs : List (String × PropertyConfig)) :
    extractTitleFromConfigs configs = "" := by
  induction configs with
  | nil => rfl
  | cons kv rest ih =>
    obtain ⟨key, config⟩ := kv
    unfold extractTitleFromConfigs
    by_cases h : config.GetType = "title"
    · simp [h]
    · simp [h, ih]

/-- Title extraction, as far as it goes: for a property map in which exactly
one property, `prop`, has the kind `title`, `extractTitle` returns the plain
text of the first run of `prop` when the dynamic type of `prop` is
`TitleProperty` and it has at least one run, and the empty string otherwise;
for a map without a property of kind `title` it returns the empty string; and
`extractTitleFromConfigs` returns the empty string on every input. -/
theorem extractTitle_spec :
    (∀ (properties : List (String × Property)) (key : String) (prop : Property),
      properties.filter (fun kv => kv.2.GetType == "title") = [(key, prop)] →
      extractTitle properties
        = match prop.Title with
          | some (run :: _) => run.PlainText
          | _ => "") ∧
    (∀ properties : List (String × Property),
      (∀ kv ∈ properties, kv.2.GetType ≠ "title") → extractTitle properties = "") ∧
    (∀ configs : List (String × PropertyConfig), extractTitleFromConfigs configs = "") := by
  refine ⟨?_, extractTitle_of_no_title, extractTitleFromConfigs_eq⟩
  intro properties key prop
  induction properties with
  | nil =>
    intro h
    simp at h
  | cons kv rest ih =>
    obtain ⟨key2, prop2⟩ := kv
    intro h
    by_cases ht : prop2.GetType = "title"
    · have hf : List.filter (fun kv : String × Property => kv.2.GetType == "title")
            ((key2, prop2) :: rest)
          = (key2, prop2)
              :: List.filter (fun kv : String × Property => kv.2.GetType == "title") rest := by
        simp [List.filter_cons, ht]
      rw [hf] at h
      have h1 := List.cons.inj h
      have hkv : (key2, prop2) = (key, prop) := h1.1
      have hp : prop2 = prop := (Prod.mk.inj hkv).2
      have hrest : extractTitle rest = "" := by
        apply extractTitle_of_no_title
        intro kv hkv2 hk
        have hmem : kv ∈ rest.filter (fun kv => kv.2.GetType == "title") :=
          List.mem_filter.mpr ⟨hkv2, by simp [hk]⟩
        rw [h1.2] at hmem
        simp at hmem
      unfold extractTitle
      rw [← hp]
      simp only [ht, if_true, hrest]
      cases prop2.Title with
      | none => rfl
      | some runs =>
        cases runs <;> rfl
    · have hf : List.filter (fun kv : String × Property => kv.2.GetType == "title")
            ((key2, prop2) :: rest)
          = List.filter (fun kv : String × Property => kv.2.GetType == "title") rest := by
        simp [List.filter_cons, ht]
      rw [hf] at h
      have he : extractTitle ((key2, prop2) :: rest) = extractTitle rest := by
        rw [extractTitle]
        simp [ht]
      rw [he]
      exact ih h

/-- C34 fails on the code: a property of kind `title` that is in the map as a
`*TitleProperty` has runs, yet `extractTitle` returns the empty string for it,
because the only assertion it tries is the one to the value type
`TitleProperty`; the title of the converted page is then empty as well. -/
theorem C34_pointer_title_lost :
    (∀ (key id : String) (run : RichText) (runs : List RichText),
      extractTitle
          [(key, { GetType := "title", GetID := id, PointerTitle := some (run :: runs) })]
        = "") ∧
    extractTitle
        [("Notes", { GetType := "rich_text", GetID := "n" }),
         ("Name",
          { GetType := "title", GetID := "t"
            PointerTitle := some [{ PlainText := "Road" }, { PlainText := "map" }] })]
      = "" ∧
    (convertToNotionItem
        (NObject.page
          { Object := "page", ID := "a"
            Properties :=
              [("Name",
                { GetType := "title", GetID := "t"
                  PointerTitle := some [{ PlainText := "Road" }] })] })).Title
      = "" ∧
    extractTitle
        [("Name",
          { GetType := "title", GetID := "t"
            Title := some [{ PlainText := "Road" }, { PlainText := "map" }] })]
      = "Road" :=
  ⟨fun _ _ _ _ => rfl, rfl, rfl, rfl⟩

/-! ### C35: the catalogs stay as built -/

theorem step_catalogs (sdk : NotionMCPSDK) (step : Step) :
    (sdk.step step).server.tools = sdk.server.tools ∧
      (sdk.step step).server.resources = sdk.server.resources := by
  cases step with
  | handleRequest client enc req => exact ⟨rfl, rfl⟩
  | setDefaultPageSize size =>
    simp only [NotionMCPSDK.step, NotionMCPSDK.SetDefaultPageSize]
    by_cases h : size > 0 ∧ size ≤ 100 <;> simp [h]
  | setTimeout seconds =>
    simp only [NotionMCPSDK.step, NotionMCPSDK.SetTimeout]
    by_cases h : seconds > 0 <;> simp [h]
  | setMaxRetries retries =>
    simp only [NotionMCPSDK.step, NotionMCPSDK.SetMaxRetries]
    by_cases h : retries > 0 <;> simp [h]

theorem run_catalogs (steps : List Step) (sdk : NotionMCPSDK) :
    (sdk.run steps).server.tools = sdk.server.tools ∧
      (sdk.run steps).server.resources = sdk.server.resources := by
  induction steps generalizing sdk with
  | nil => exact ⟨rfl, rfl⟩
  | cons step rest ih =>
    have h1 := ih (sdk.step step)
    have h2 := step_catalogs sdk step
    have e : sdk.run (step :: rest) = (sdk.step step).run rest := rfl
    rw [e]
    exact ⟨h1.1.trans h2.1, h1.2.trans h2.2⟩

theorem newSDK_catalogs (config : MCPConfig) (sdk : NotionMCPSDK)
    (h : NewNotionMCPSDK config = .ok sdk) :
    sdk.server.tools = getDefaultTools ∧ sdk.server.resources = getDefaultResources := by
  unfold NewNotionMCPSDK NewMCPServer at h
  cases hv : config.Validate with
  | error err => simp [hv] at h
  | ok validated =>
    simp only [hv] at h
    cases h
    exact ⟨rfl, rfl⟩

/-- C35: on a facade built by `NewNotionMCPSDK`, after any sequence of served
requests and setter calls, a `tools/list` request is answered with the tool
list of `getDefaultTools` and a `resources/list` request with the resource
list of `getDefaultResources`, without a provider call; the tools are
`notion_search`, `notion_create_page`, `notion_update_page`,
`notion_append_block` in that order and the one resource is
`notion://workspace`.  The answer does not depend on the sequence, so two
calls return equal catalogs. -/
theorem C35_catalogs_immutable (config : MCPConfig) (sdk : NotionMCPSDK) (steps : List Step)
    (client : NotionClient) (enc : Encoder) (req : Request)
    (h : NewNotionMCPSDK config = .ok sdk) :
    (req.Method = "tools/list" →
      HandleRequest (sdk.run steps).server client enc req
        = .returned
            { JSONRPC := "2.0", ID := req.ID, Error := none,
              Result := some (ResultVal.tools getDefaultTools) } []) ∧
    (req.Method = "resources/list" →
      HandleRequest (sdk.run steps).server client enc req
        = .returned
            { JSONRPC := "2.0", ID := req.ID, Error := none,
              Result := some (ResultVal.resources getDefaultResources) } []) ∧
    (sdk.run steps).GetTools = getDefaultTools ∧
    (sdk.run steps).GetResources = getDefaultResources ∧
    getDefaultTools.map (fun tool => tool.Name)
      = ["notion_search", "notion_create_page", "notion_update_page", "notion_append_block"] ∧
    getDefaultResources.map (fun resource => resource.URI) = ["notion://workspace"] := by
  have hrun := run_catalogs steps sdk
  have hnew := newSDK_catalogs config sdk h
  refine ⟨?_, ?_, hrun.1.trans hnew.1, hrun.2.trans hnew.2, rfl, rfl⟩
  · intro hm
    unfold HandleRequest
    simp [hm, handleToolsList, resultResponse, hrun.1, hnew.1]
  · intro hm
    unfold HandleRequest
    simp [hm, handleResourcesList, resultResponse, hrun.2, hnew.2]

/-- C35 after a setter call, a served tool call and a rejected setter call. -/
theorem C35_catalogs_immutable_witness :
    HandleRequest
        (defaultSDK.run
          [Step.setDefaultPageSize 50,
           Step.handleRequest quietClient plainEncoder
             (mkToolCall "notion_search" [("query", GoVal.str "x")]),
           Step.setTimeout 0]).server
        quietClient plainEncoder (mkRequest "tools/list" GoVal.nil)
      = .returned
          { JSONRPC := "2.0", ID := GoVal.float64 1, Error := none,
            Result := some (ResultVal.tools getDefaultTools) } [] :=
  (C35_catalogs_immutable { DefaultMCPConfig with NotionToken := "secret" } defaultSDK
    [Step.setDefaultPageSize 50,
     Step.handleRequest quietClient plainEncoder
       (mkToolCall "notion_search" [("query", GoVal.str "x")]),
     Step.setTimeout 0]
    quietClient plainEncoder (mkRequest "tools/list" GoVal.nil) rfl).1 rfl

/-! ### C36: the marker stripped from a bullet line -/

theorem processLine_dash_star (st : MdState) (t : List Char) (hc : st.inCodeBlock = false) :
    processLine st ("- * ".data ++ t)
      = emitBlock st (createBulletedListItem (String.mk (TrimSpace t))) := by
  unfold processLine
  have e : "- * ".data ++ TrimRightCR t = "- ".data ++ ("* ".data ++ TrimRightCR t) := rfl
  have hp : TrimPrefix ("* ".data ++ TrimRightCR t) "* ".data = TrimRightCR t := by
    simp [TrimPrefix]
  rw [TrimRightCR_marker_append _ _ (by decide) (by decide), e,
    processTrimmedLine_dash st _ hc, hp, TrimSpace_TrimRightCR]

/-- C36 fails on the code: the line `- * x` gives the bulleted item with the
text `x`, not `* x`, because the text is cut by `TrimPrefix(.., "- ")` and then
by `TrimPrefix(.., "* ")`; so does every line that starts with `- * `.  A line
that starts with `* ` loses that one marker only. -/
theorem C36_both_markers_stripped :
    MarkdownToBlocks "- * x" = [createBulletedListItem "x"] ∧
    createBulletedListItem "x" ≠ createBulletedListItem "* x" ∧
    (∀ t : List Char,
      processLine {} ("- * ".data ++ t)
        = emitBlock {} (createBulletedListItem (String.mk (TrimSpace t)))) ∧
    (∀ a : List Char,
      processLine {} ("* ".data ++ a)
        = emitBlock {} (createBulletedListItem (String.mk (TrimSpace a)))) := by
  refine ⟨rfl, ?_, fun t => processLine_dash_star {} t rfl, fun a => processLine_star {} a rfl⟩
  intro h
  simp [createBulletedListItem, richTextOf] at h

/-! ### C37: the title entry under a properties map -/

/-- The title entry, when it is kept: when the properties map (with distinct
keys) has no string under the key `title`, the `title` entry of the create
request is the title property with the one run of the title, and so is that of
the update request when the title is not empty. -/
theorem title_entry_kept (P : GoMap) (hnd : (P.map Prod.fst).Nodup)
    (hP : (lookup P "title").asString = none) :
    (∀ params : NotionCreatePageParams, params.Properties = P →
      getProperty (buildCreateRequest params).Properties "title"
        = some (PropertyValue.title [{ Type_ := "text", Text := some params.Title }])) ∧
    (∀ params : NotionUpdatePageParams, params.Properties = P → params.Title ≠ "" →
      getProperty ((buildUpdateRequest params).Properties.getD []) "title"
        = some (PropertyValue.title [{ Type_ := "text", Text := some params.Title }])) := by
  refine ⟨?_, ?_⟩
  · intro params hp
    unfold buildCreateRequest
    simp only [hp]
    rw [getProperty_addStringProperties P hnd, hP, getProperty_cons, if_pos rfl]
  · intro params hp ht
    unfold buildUpdateRequest
    have hb : (params.Title != "") = true := by simp [ht]
    simp only [hp, hb, if_true]
    rw [getProperty_addStringPropertiesOpt P hnd, hP]
    simp only [Option.getD_some]
    rw [getProperty_cons, if_pos rfl]

/-- C37 fails on the code: when the properties map holds a string under the
key `title`, the loop over the properties writes a rich-text property over the
title property, so the `title` entry of the create request, and of the update
request, is a rich-text property with that string and not the title property
with the title of the call. -/
theorem C37_title_overwritten :
    (∀ t x : String,
      getProperty
          (buildCreateRequest
            { ParentID := "p", Title := t, Properties := [("title", GoVal.str x)] }).Properties
          "title"
        = some (PropertyValue.richText [{ Type_ := "text", Text := some x }])) ∧
    (∀ t x : String,
      getProperty
          ((buildUpdateRequest
            { PageID := "p", Title := t,
              Properties := [("title", GoVal.str x)] }).Properties.getD [])
          "title"
        = some (PropertyValue.richText [{ Type_ := "text", Text := some x }])) ∧
    (HandleRequest defaultServer quietClient plainEncoder
        (mkToolCall "notion_create_page"
          [("parentId", GoVal.str "p"), ("title", GoVal.str "T"),
           ("properties", GoVal.map [("title", GoVal.str "x")])])).calls
      = [ProviderCall.pageCreate
          { Parent := { Type_ := "page_id", PageID := "p" }
            Properties :=
              [("title", PropertyValue.richText [{ Type_ := "text", Text := some "x" }])]
            Icon := none
            Cover := none }] ∧
    (HandleRequest defaultServer quietClient plainEncoder
        (mkToolCall "notion_update_page"
          [("pageId", GoVal.str "p"), ("title", GoVal.str "T"),
           ("properties", GoVal.map [("title", GoVal.str "x")])])).calls
      = [ProviderCall.pageUpdate "p"
          { Properties :=
              some [("title", PropertyValue.richText [{ Type_ := "text", Text := some "x" }])]
            Archived := false }] := by
  refine ⟨?_, ?_, rfl, rfl⟩
  · intro t x
    rfl
  · intro t x
    by_cases ht : t = ""
    · subst ht
      rfl
    · have hb : (t != "") = true := by simp [ht]
      simp [buildUpdateRequest, hb, addStringPropertiesOpt, GoVal.asString, setProperty,
        getProperty]

/-! ### C38: dispatch and catalogs agree -/

theorem newServer_catalogs (config : MCPConfig) (s : MCPServer)
    (h : NewMCPServer config = .ok s) :
    s.tools = getDefaultTools ∧ s.resources = getDefaultResources := by
  unfold NewMCPServer at h
  cases hv : config.Validate with
  | error err => simp [hv] at h
  | ok validated =>
    simp only [hv] at h
    cases h
    exact ⟨rfl, rfl⟩

theorem dispatchTool_isSome_iff (s : MCPServer) (client : NotionClient) (enc : Encoder)
    (toolCall : ToolCall) :
    (dispatchTool s client enc toolCall).isSome = true ↔
      toolCall.Name ∈ getDefaultTools.map (fun tool => tool.Name) := by
  have hnames : getDefaultTools.map (fun tool => tool.Name)
      = ["notion_search", "notion_create_page", "notion_update_page", "notion_append_block"] :=
    rfl
  rw [hnames]
  unfold dispatchTool
  by_cases h1 : toolCall.Name = "notion_search"
  · simp [h1]
  by_cases h2 : toolCall.Name = "notion_create_page"
  · simp [h2]
  by_cases h3 : toolCall.Name = "notion_update_page"
  · simp [h3]
  by_cases h4 : toolCall.Name = "notion_append_block"
  · simp [h4]
  simp [h1, h2, h3, h4]

/-- A tools/call request is answered with the tool-not-found envelope exactly
when the switch on the tool name takes its default branch. -/
theorem toolsCall_notFound_iff (s : MCPServer) (client : NotionClient) (enc : Encoder)
    (req : Request) (toolCall : ToolCall)
    (hm : req.Method = "tools/call")
    (hp : parseToolCallParams req.Params = .ok toolCall) :
    HandleRequest s client enc req
        = .returned
            (errorResponse req ErrCodeMethodNotFound ("Tool '" ++ toolCall.Name ++ "' not found"))
            [] ↔
      dispatchTool s client enc toolCall = none := by
  rw [handleRequest_toolsCall s client enc req hm]
  unfold handleToolsCall
  rw [hp]
  cases hd : dispatchTool s client enc toolCall with
  | none => simp only [hd]
  | some outcome =>
    cases outcome with
    | panicked calls => simp [hd]
    | returned value calls =>
      cases value with
      | error err =>
        simp [hd, errorResponse, ErrCodeMethodNotFound, ErrCodeInternalError]
      | ok result =>
        simp [hd, errorResponse, resultResponse]

/-- C38: on a server built by `NewMCPServer`, a tools/call request for the
name `n` is answered with the error `-32601` "Tool 'n' not found" iff `n` is
not the name of an entry of the tool catalog (and the switch routes `n` to a
handler iff it is); a resources/read request for the URI `u` is answered with
the error `-32601` "Resource 'u' not found" iff `u` is not the URI of an entry
of the resource catalog. -/
theorem C38_dispatch_matches_catalog (config : MCPConfig) (s : MCPServer)
    (client : NotionClient) (enc : Encoder) (req : Request)
    (hs : NewMCPServer config = .ok s) :
    (∀ toolCall, req.Method = "tools/call" →
      parseToolCallParams req.Params = .ok toolCall →
      ((HandleRequest s client enc req
          = .returned
              { JSONRPC := "2.0", ID := req.ID, Result := none,
                Error := some
                  { Code := -32601
                    Message := "Tool '" ++ toolCall.Name ++ "' not found" } } [] ↔
        toolCall.Name ∉ s.tools.map (fun tool => tool.Name)) ∧
       ((dispatchTool s client enc toolCall).isSome = true ↔
        toolCall.Name ∈ s.tools.map (fun tool => tool.Name)))) ∧
    (∀ params uri, req.Method = "resources/read" →
      parseMapParams req.Params = .ok params →
      (lookup params "uri").asString = some uri →
      (HandleRequest s client enc req
          = .returned
              { JSONRPC := "2.0", ID := req.ID, Result := none,
                Error := some
                  { Code := -32601, Message := "Resource '" ++ uri ++ "' not found" } } [] ↔
        uri ∉ s.resources.map (fun resource => resource.URI))) := by
  obtain ⟨htools, hres⟩ := newServer_catalogs config s hs
  refine ⟨?_, ?_⟩
  · intro toolCall hm hp
    rw [htools]
    have h1 := toolsCall_notFound_iff s client enc req toolCall hm hp
    have h2 := dispatchTool_isSome_iff s client enc toolCall
    refine ⟨?_, h2⟩
    have e : (errorResponse req ErrCodeMethodNotFound ("Tool '" ++ toolCall.Name ++ "' not found"))
        = { JSONRPC := "2.0", ID := req.ID, Result := none,
            Error := some
              { Code := -32601, Message := "Tool '" ++ toolCall.Name ++ "' not found" } } := rfl
    rw [← e, h1, ← h2]
    cases dispatchTool s client enc toolCall <;> simp
  · intro params uri hm hp huri
    rw [hres]
    have hnames : getDefaultResources.map (fun resource => resource.URI)
        = ["notion://workspace"] := rfl
    rw [hnames, handleRequest_resourcesRead s client enc req hm]
    unfold handleResourcesRead
    rw [hp]
    simp only [huri]
    by_cases hu : uri = "notion://workspace"
    · subst hu
      simp only [beq_self_eq_true, if_true, List.mem_singleton, not_true_eq_false, iff_false]
      cases handleWorkspaceResource client enc with
      | panicked calls => simp
      | returned value calls =>
        cases value with
        | error err => simp [errorResponse, ErrCodeInternalError]
        | ok content => simp [resultResponse]
    · have hb : (uri == "notion://workspace") = false := by simp [hu]
      simp [hb, hu, errorResponse, ErrCodeMethodNotFound]

/-- C38 at a call of a tool that is not in the catalog. -/
theorem C38_dispatch_matches_catalog_witness :
    (HandleRequest defaultServer quietClient plainEncoder (mkToolCall "notion_delete_page" [])
        = .returned
            { JSONRPC := "2.0", ID := GoVal.float64 1, Result := none,
              Error := some
                { Code := -32601
                  Message := "Tool '" ++ "notion_delete_page" ++ "' not found" } } [] ↔
      "notion_delete_page" ∉ defaultServer.tools.map (fun tool => tool.Name)) ∧
    ((dispatchTool defaultServer quietClient plainEncoder
          { Name := "notion_delete_page", Arguments := [] }).isSome = true ↔
      "notion_delete_page" ∈ defaultServer.tools.map (fun tool => tool.Name)) :=
  (C38_dispatch_matches_catalog { DefaultMCPConfig with NotionToken := "secret" } defaultServer
    quietClient plainEncoder (mkToolCall "notion_delete_page" []) rfl).1
    { Name := "notion_delete_page", Arguments := [] } rfl rfl

/-! ### C39: number and order of the blocks -/

theorem flushParagraph_potential (st : MdState) :
    (flushParagraph st).potential = st.potential := by
  unfold flushParagraph MdState.potential
  cases hcp : st.currentParagraph with
  | nil => simp [hcp]
  | cons l ls => simp [hcp]

theorem flushParagraph_blocks_initial (st : MdState) :
    st.blocks <+: (flushParagraph st).blocks := by
  unfold flushParagraph
  cases hcp : st.currentParagraph with
  | nil => simp
  | cons l ls => simp

theorem flushParagraph_currentParagraph (st : MdState) :
    (flushParagraph st).currentParagraph = [] := by
  unfold flushParagraph
  cases hcp : st.currentParagraph with
  | nil => simp [hcp]
  | cons l ls => simp

theorem flushParagraph_codeBlockContent (st : MdState) :
    (flushParagraph st).codeBlockContent = st.codeBlockContent := by
  unfold flushParagraph
  cases hcp : st.currentParagraph with
  | nil => simp
  | cons l ls => simp

/-- One line raises the potential by at most one. -/
theorem applyEffect_potential (st : MdState) (line : List Char) (eff : LineEffect) :
    (applyEffect st line eff).potential ≤ st.potential + 1 := by
  cases eff with
  | closeFence =>
    unfold applyEffect MdState.potential
    cases hc : st.codeBlockContent with
    | nil => simp
    | cons c cs =>
      simp
      omega
  | openFence language =>
    have h := flushParagraph_potential st
    unfold applyEffect
    unfold MdState.potential at h ⊢
    simp only
    omega
  | codeLine =>
    unfold applyEffect MdState.potential
    simp only
    split <;> split <;> omega
  | emit block =>
    have h := flushParagraph_potential st
    have h2 := flushParagraph_currentParagraph st
    unfold applyEffect emitBlock
    unfold MdState.potential at h ⊢
    simp only [List.length_append, List.length_singleton]
    omega
  | flush =>
    unfold applyEffect
    rw [flushParagraph_potential]
    omega
  | text =>
    unfold applyEffect MdState.potential
    simp only
    split <;> split <;> omega

theorem applyEffect_blocks_initial (st : MdState) (line : List Char) (eff : LineEffect) :
    st.blocks <+: (applyEffect st line eff).blocks := by
  cases eff with
  | closeFence =>
    unfold applyEffect
    simp only
    split
    · exact List.prefix_append _ _
    · exact List.prefix_refl _
  | openFence language => exact flushParagraph_blocks_initial st
  | codeLine => exact List.prefix_refl _
  | emit block =>
    unfold applyEffect emitBlock
    exact (flushParagraph_blocks_initial st).trans (List.prefix_append _ _)
  | flush => exact flushParagraph_blocks_initial st
  | text => exact List.prefix_refl _

theorem processLines_potential (lines : List (List Char)) (st : MdState) :
    (processLines st lines).potential ≤ st.potential + lines.length := by
  induction lines generalizing st with
  | nil => simp [processLines]
  | cons l ls ih =>
    rw [processLines_cons]
    have h1 := ih (processLine st l)
    have h2 : (processLine st l).potential ≤ st.potential + 1 := by
      unfold processLine
      rw [processTrimmedLine_eq]
      exact applyEffect_potential _ _ _
    simp only [List.length_cons]
    omega

theorem processLines_blocks_initial (lines : List (List Char)) (st : MdState) :
    st.blocks <+: (processLines st lines).blocks := by
  induction lines generalizing st with
  | nil => exact List.prefix_refl _
  | cons l ls ih =>
    rw [processLines_cons]
    have h2 : st.blocks <+: (processLine st l).blocks := by
      unfold processLine
      rw [processTrimmedLine_eq]
      exact applyEffect_blocks_initial _ _ _
    exact h2.trans (ih _)

theorem finishBlocks_length (st : MdState) : (finishBlocks st).length ≤ st.potential := by
  unfold finishBlocks
  have h := flushParagraph_potential st
  unfold MdState.potential at h ⊢
  omega

/-- C39: the blocks `MarkdownToBlocks` returns are at most as many as the
segments `strings.Split(markdown, "\n")` gives, and they come in the order of
the lines: for every way of cutting the lines into earlier and later ones, the
blocks the loop holds after the earlier lines are an initial part of the
result. -/
theorem C39_blocks_bounded_in_order (markdown : String) :
    (MarkdownToBlocks markdown).length ≤ (Split markdown.data).length ∧
    (∀ pre post : List (List Char), Split markdown.data = pre ++ post →
      TrimSpace markdown.data ≠ [] →
      (processLines {} pre).blocks <+: MarkdownToBlocks markdown) := by
  refine ⟨?_, ?_⟩
  · unfold MarkdownToBlocks
    by_cases hb : TrimSpace markdown.data = []
    · simp [hb]
    · have hb2 : (TrimSpace markdown.data == []) = false := by simp [hb]
      simp only [hb2, Bool.false_eq_true, if_false]
      have h1 := finishBlocks_length (processLines {} (Split markdown.data))
      have h2 := processLines_potential (Split markdown.data) {}
      have h3 : ({} : MdState).potential = 0 := rfl
      omega
  · intro pre post hsplit hb
    unfold MarkdownToBlocks
    have hb2 : (TrimSpace markdown.data == []) = false := by simp [hb]
    simp only [hb2, Bool.false_eq_true, if_false]
    rw [hsplit, processLines_append]
    unfold finishBlocks
    exact (processLines_blocks_initial post _).trans (flushParagraph_blocks_initial _)

/-- C39 at a text of four lines, cut after the second. -/
theorem C39_blocks_bounded_in_order_witness :
    (processLines {} ["# A".data, "".data]).blocks <+: MarkdownToBlocks "# A\n\ntext\n- b" :=
  (C39_blocks_bounded_in_order "# A\n\ntext\n- b").2 ["# A".data, "".data]
    ["text".data, "- b".data] (by decide) (by decide)

/-! ### C40: a fence that is never closed -/

theorem emitBlock_inCodeBlock (st : MdState) (block : Block) :
    (emitBlock st block).inCodeBlock = st.inCodeBlock := by
  unfold emitBlock
  exact flushParagraph_inCodeBlock st

/-- A line that is not a fence line leaves the fence state as it is. -/
theorem processTrimmedLine_inCodeBlock_of_not_fence (st : MdState) (line : List Char)
    (hf : HasPrefix line "```".data = false) :
    (processTrimmedLine st line).inCodeBlock = st.inCodeBlock := by
  rw [processTrimmedLine_eq]
  unfold lineEffect
  rw [if_neg (by simp [hf])]
  by_cases hc : st.inCodeBlock = true
  · rw [if_pos hc]
    rfl
  · rw [if_neg hc]
    repeat' split
    all_goals first
      | exact emitBlock_inCodeBlock _ _
      | exact flushParagraph_inCodeBlock _
      | rfl

/-- A fence line flips the fence state. -/
theorem processTrimmedLine_inCodeBlock_of_fence (st : MdState) (line : List Char)
    (hf : HasPrefix line "```".data = true) :
    (processTrimmedLine st line).inCodeBlock = !st.inCodeBlock := by
  unfold processTrimmedLine
  rw [if_pos hf]
  by_cases hc : st.inCodeBlock = true
  · rw [if_pos hc]
    simp [hc]
  · rw [if_neg hc]
    simp [hc]

theorem processLine_inCodeBlock (st : MdState) (line : List Char) :
    (processLine st line).inCodeBlock
      = if isFenceLine line then !st.inCodeBlock else st.inCodeBlock := by
  unfold processLine isFenceLine
  by_cases hf : HasPrefix (TrimRightCR line) "```".data = true
  · rw [if_pos hf, processTrimmedLine_inCodeBlock_of_fence _ _ hf]
  · rw [if_neg hf, processTrimmedLine_inCodeBlock_of_not_fence _ _ (by simpa using hf)]

/-- The fence state after some lines: flipped once per fence line. -/
theorem processLines_inCodeBlock (lines : List (List Char)) (st : MdState) :
    (processLines st lines).inCodeBlock
      = if Even (lines.countP isFenceLine) then st.inCodeBlock else !st.inCodeBlock := by
  induction lines generalizing st with
  | nil => simp [processLines]
  | cons l ls ih =>
    rw [processLines_cons, ih, processLine_inCodeBlock, List.countP_cons]
    by_cases hf : isFenceLine l = true
    · simp only [hf, if_true]
      by_cases he : Even (List.countP isFenceLine ls)
      · have hne : ¬ Even (List.countP isFenceLine ls + 1) := by
          rw [Nat.even_add_one]
          exact fun h => h he
        simp [he, hne]
      · have hne : Even (List.countP isFenceLine ls + 1) := by
          rw [Nat.even_add_one]
          exact he
        simp [he, hne]
    · simp [hf]

theorem Split_ne_nil (l : List Char) : Split l ≠ [] := by
  induction l with
  | nil => simp [Split]
  | cons c cs ih =>
    unfold Split
    by_cases h : (c == LF) = true
    · simp [h]
    · simp only [h]
      cases hs : Split cs with
      | nil => simp
      | cons line lines => simp

/-- The lines of a text cut at a line feed: the lines before it, then the
lines after it. -/
theorem Split_append (a b : List Char) : Split (a ++ LF :: b) = Split a ++ Split b := by
  induction a with
  | nil =>
    have h : (LF == LF) = true := by decide
    simp [Split, h]
  | cons c cs ih =>
    rw [List.cons_append]
    by_cases h : (c == LF) = true
    · have e1 : Split (c :: (cs ++ LF :: b)) = [] :: Split (cs ++ LF :: b) := by
        rw [Split]
        simp [h]
      have e2 : Split (c :: cs) = [] :: Split cs := by
        rw [Split]
        simp [h]
      rw [e1, e2, ih]
      rfl
    · cases hs : Split cs with
      | nil => exact absurd hs (Split_ne_nil cs)
      | cons line lines =>
        have e1 : Split (c :: (cs ++ LF :: b)) = (c :: line) :: (lines ++ Split b) := by
          rw [Split]
          simp [h, ih, hs]
        have e2 : Split (c :: cs) = (c :: line) :: lines := by
          rw [Split]
          simp [h, hs]
        rw [e1, e2]
        rfl

/-- Inside a fence, lines that do not start with the fence marker add no
block, leave the paragraph buffer alone and keep the fence open. -/
theorem processLines_inside (code : List (List Char)) (st : MdState)
    (hc : st.inCodeBlock = true)
    (hcode : ∀ c ∈ code, HasPrefix c "```".data = false) :
    (processLines st code).blocks = st.blocks ∧
      (processLines st code).currentParagraph = st.currentParagraph ∧
      (processLines st code).inCodeBlock = true := by
  induction code generalizing st with
  | nil => exact ⟨rfl, rfl, hc⟩
  | cons c cs ih =>
    have hf : HasPrefix (TrimRightCR c) "```".data = false := by
      by_contra hcon
      have h1 := HasPrefix_of_TrimRightCR c _ (by simpa using hcon)
      rw [hcode c (List.mem_cons_self _ _)] at h1
      cases h1
    have hstep : processLine st c
        = { st with codeBlockContent := st.codeBlockContent ++ [TrimRightCR c] } := by
      unfold processLine
      exact processTrimmedLine_code st _ hc hf
    rw [processLines_cons, hstep]
    exact ih _ hc (fun x hx => hcode x (List.mem_cons_of_mem _ hx))

theorem Split_Join_lines (R : List (List Char)) (hR : ∀ r ∈ R, LF ∉ r) :
    ∀ l ∈ Split (Join R), l ∈ R ∨ l = [] := by
  intro l hl
  cases R with
  | nil =>
    simp [Join, Split] at hl
    exact Or.inr hl
  | cons r rs =>
    rw [Split_Join (r :: rs) (by simp) hR] at hl
    exact Or.inl hl

theorem processLine_open (st : MdState) (hin : st.inCodeBlock = false) :
    processLine st "```".data
      = { flushParagraph st with inCodeBlock := true, codeLanguage := TrimSpace [] } := by
  have h := processLine_fence_open st [] hin
  rw [List.append_nil] at h
  exact h

/-- A fence opened outside a fence and never closed: the lines after it give
no block. -/
theorem finishBlocks_open_inside (st : MdState) (hin : st.inCodeBlock = false)
    (code : List (List Char)) (hcode : ∀ c ∈ code, HasPrefix c "```".data = false) :
    finishBlocks (processLines (processLine st "```".data) code) = finishBlocks st := by
  rw [processLine_open st hin]
  have hinside := processLines_inside code
    { flushParagraph st with inCodeBlock := true, codeLanguage := TrimSpace [] } rfl hcode
  have hcp : (processLines
      { flushParagraph st with inCodeBlock := true, codeLanguage := TrimSpace [] }
      code).currentParagraph = [] := by
    rw [hinside.2.1]
    exact flushParagraph_currentParagraph st
  unfold finishBlocks
  rw [flushParagraph_of_nil _ hcp]
  exact hinside.1

/-- A fence opened and closed at once gives no block. -/
theorem finishBlocks_open_close (st : MdState) (hin : st.inCodeBlock = false)
    (hcontent : st.codeBlockContent = []) :
    finishBlocks (processLine (processLine st "```".data) "```".data) = finishBlocks st := by
  rw [processLine_open st hin]
  have hclose := processLine_fence_close
    { flushParagraph st with inCodeBlock := true, codeLanguage := TrimSpace [] } [] rfl
  rw [List.append_nil] at hclose
  rw [hclose]
  have hcp : ({ flushParagraph st with inCodeBlock := true, codeLanguage := TrimSpace [] }
      : MdState).currentParagraph = [] := flushParagraph_currentParagraph st
  have hcc : ({ flushParagraph st with inCodeBlock := true, codeLanguage := TrimSpace [] }
      : MdState).codeBlockContent = [] := by
    have h := flushParagraph_codeBlockContent st
    rw [hcontent] at h
    exact h
  unfold finishBlocks
  rw [flushParagraph_of_nil _ (by exact hcp)]
  have hcc2 : (flushParagraph st).codeBlockContent = [] := hcc
  simp [hcc2]

/-- C40: for a text `s` that is not blank and has an even number of fence
lines, and lines `R` none of which starts with three backquotes, the text `s`,
a fence line, and the lines `R` converts to what `s` converts to: the lines
after the fence that is never closed give no block.  So does `s` followed by
two fence lines with nothing between them. -/
theorem C40_unterminated_fence (s : String) (R : List (List Char))
    (hs : TrimSpace s.data ≠ [])
    (heven : Even ((Split s.data).countP isFenceLine))
    (hR : ∀ r ∈ R, LF ∉ r ∧ HasPrefix r "```".data = false) :
    MarkdownToBlocks (String.mk (s.data ++ "\n```\n".data ++ Join R)) = MarkdownToBlocks s ∧
    MarkdownToBlocks (String.mk (s.data ++ "\n```\n```".data)) = MarkdownToBlocks s := by
  obtain ⟨c, hc, hcs⟩ := exists_nonspace_of_TrimSpace_ne_nil s.data hs
  have hb : (TrimSpace s.data == []) = false := beq_eq_false_iff_ne.mpr hs
  have hleft : MarkdownToBlocks s = finishBlocks (processLines {} (Split s.data)) := by
    unfold MarkdownToBlocks
    simp only [hb, Bool.false_eq_true, if_false]
  have hin : (processLines {} (Split s.data)).inCodeBlock = false := by
    rw [processLines_inCodeBlock, if_pos heven]
  have hcontent : (processLines {} (Split s.data)).codeBlockContent = [] :=
    (processLines_fenceOK (Split s.data) {} (fun _ => ⟨rfl, rfl⟩) hin).1
  refine ⟨?_, ?_⟩
  · have e : s.data ++ "\n```\n".data ++ Join R = s.data ++ LF :: ("```".data ++ LF :: Join R) := by
      have e1 : "\n```\n".data = LF :: ("```".data ++ [LF]) := rfl
      rw [e1]
      simp
    have hne : TrimSpace (s.data ++ LF :: ("```".data ++ LF :: Join R)) ≠ [] :=
      TrimSpace_ne_nil _ c (by simp [hc]) hcs
    have hb2 : (TrimSpace (s.data ++ LF :: ("```".data ++ LF :: Join R)) == []) = false :=
      beq_eq_false_iff_ne.mpr hne
    rw [hleft, e]
    unfold MarkdownToBlocks
    simp only [hb2, Bool.false_eq_true, if_false]
    rw [Split_append, Split_append_LF "```".data (Join R) (by decide), processLines_append,
      processLines_cons]
    apply finishBlocks_open_inside _ hin
    intro l hl
    rcases Split_Join_lines R (fun r hr => (hR r hr).1) l hl with h | h
    · exact (hR l h).2
    · rw [h]
      rfl
  · have e : s.data ++ "\n```\n```".data = s.data ++ LF :: ("```".data ++ LF :: "```".data) := rfl
    have hne : TrimSpace (s.data ++ LF :: ("```".data ++ LF :: "```".data)) ≠ [] :=
      TrimSpace_ne_nil _ c (by simp [hc]) hcs
    have hb2 : (TrimSpace (s.data ++ LF :: ("```".data ++ LF :: "```".data)) == []) = false :=
      beq_eq_false_iff_ne.mpr hne
    rw [hleft, e]
    unfold MarkdownToBlocks
    simp only [hb2, Bool.false_eq_true, if_false]
    rw [Split_append, Split_append_LF "```".data "```".data (by decide),
      Split_of_no_LF "```".data (by decide),
      processLines_append, processLines_cons, processLines_cons, processLines_nil]
    exact finishBlocks_open_close _ hin hcontent

/-- C40 at the text `# A`, followed by a fence and two lines. -/
theorem C40_unterminated_fence_witness :
    MarkdownToBlocks (String.mk ("# A".data ++ "\n```\n".data ++ Join ["x = 1".data, "- y".data]))
        = MarkdownToBlocks "# A" ∧
      MarkdownToBlocks (String.mk ("# A".data ++ "\n```\n```".data)) = MarkdownToBlocks "# A" :=
  C40_unterminated_fence "# A" ["x = 1".data, "- y".data] (by decide) (by decide) (by decide)

end NotionMCP
